import Mathlib

/-!
# md-real-io: the phase engine of `src/md-real-io.c`

A shallow embedding of the benchmark driver: the option block, the per-phase
statistics, the three phase routines `run_precreate`, `run_benchmark` and
`run_cleanup`, and the start-up validation of `main`.

Conventions of the embedding.

* C `int` values are `Int`. Sums of indices are exact; the two `int` products
  handed to `init_stats` are computed by `int_mul`, which wraps to 32 bits at
  overflow (undefined in C). The `size_t` slot index `pos` is a `Nat` reduced
  modulo `2 ^ 64`.
* The storage plug-in, the clock and the collective transport are external.
  They are an arbitrary state machine over a world type `σ`: every call takes
  the world and returns a result together with the next world.
* A name buffer holds the identity the name was generated from: a data set
  name is the pair `(owner, dataset)`, an object name the triple
  `(owner, dataset, sequence)`.
* Times are exact counts of clock ticks, `ticks_per_second` of them in a
  second.
* Fields whose name starts with `g_` are ghost instrumentation: they record
  what the code did (calls issued, iterations run, entries allocated) and never
  influence it.
-/

namespace MdRealIo

/-! ## Data model -/

/-- Modelled from the spec: the result codes of the plug-in interface, declared
in `plugins/md-plugin.h` which is not among the sources. They form the closed
set OK, NOOP, ERROR, ERROR_CREATE, ERROR_FIND. -/
inductive md_ret where
  | MD_SUCCESS
  | MD_NOOP
  | MD_ERROR
  | MD_ERROR_CREATE
  | MD_ERROR_FIND
  deriving DecidableEq, Repr

open md_ret

/-- The pair `op_stat_t` of a success and an error counter. -/
structure op_stat_t where
  suc : Int
  err : Int
  deriving DecidableEq, Repr

/-- The counter after `suc++`. -/
def op_stat_t.inc_suc (c : op_stat_t) : op_stat_t := { c with suc := c.suc + 1 }

/-- The counter after `err++`. -/
def op_stat_t.inc_err (c : op_stat_t) : op_stat_t := { c with err := c.err + 1 }

/-- One latency sample `time_result_t`. -/
structure time_result_t where
  time_since_app_start : Int
  runtime : Int
  deriving DecidableEq, Repr

/-- The statistics `phase_stat_t` of one phase, as far as the phase routines
touch them. A latency array is the list of the writes `results[pos] = v` made to
it, newest first; `g_time_len` is the number of entries each of the four latency
arrays was allocated with (ghost; 0 while the pointers are `NULL`). -/
structure phase_stat_t where
  dset_name : op_stat_t
  dset_create : op_stat_t
  dset_delete : op_stat_t
  obj_name : op_stat_t
  obj_create : op_stat_t
  obj_read : op_stat_t
  obj_stat : op_stat_t
  obj_delete : op_stat_t
  repeats : Nat
  time_create : List (Nat × time_result_t)
  time_read : List (Nat × time_result_t)
  time_stat : List (Nat × time_result_t)
  time_delete : List (Nat × time_result_t)
  max_op_time : Int
  phase_start_timer : Int
  stonewall_hit : Int
  g_time_len : Nat
  deriving DecidableEq, Repr

/-- The option block `struct benchmark_options` (the fields the engine reads).
`latency_file_prefix` is true when the pointer is not NULL. -/
structure benchmark_options where
  num : Int
  precreate : Int
  dset_count : Int
  offset : Int
  iterations : Int
  file_size : Int
  read_only : Int
  stonewall_timer : Int
  stonewall_timer_wear_out : Int
  latency_file_prefix : Bool
  phase_cleanup : Int
  phase_precreate : Int
  phase_benchmark : Int
  ignore_precreate_errors : Int
  rank : Int
  size : Int
  deriving DecidableEq, Repr

/-- The defaults set by `init_options`; rank and size come from the transport. -/
def init_options (rank size : Int) : benchmark_options :=
  { num := 1000, precreate := 3000, dset_count := 10, offset := 1, iterations := 3,
    file_size := 3901, read_only := 0, stonewall_timer := 0,
    stonewall_timer_wear_out := 0, latency_file_prefix := false, phase_cleanup := 0,
    phase_precreate := 0, phase_benchmark := 0, ignore_precreate_errors := 0,
    rank := rank, size := size }

/-- A data set name: owner rank and data set index. -/
abbrev dset_t := Int × Int

/-- An object name: owner rank, data set index and sequence index. -/
abbrev obj_t := Int × Int × Int

/-- The plug-in operations the engine calls, over a world `σ`. `write_obj`
receives the fill byte of the payload and its size. -/
structure md_plugin (σ : Type) where
  def_dset_name : Int → Int → σ → md_ret × σ
  def_obj_name : Int → Int → Int → σ → md_ret × σ
  create_dset : dset_t → σ → md_ret × σ
  rm_dset : dset_t → σ → md_ret × σ
  write_obj : dset_t → obj_t → Int → Int → σ → md_ret × σ
  read_obj : dset_t → obj_t → Int → σ → md_ret × σ
  stat_obj : dset_t → obj_t → Int → σ → md_ret × σ
  delete_obj : dset_t → obj_t → σ → md_ret × σ

/-- Modelled from the spec: the timer of `md_util.h` (a monotonic clock that is
sampled) and the all-reduce with MAX of the collective transport; neither is
among the sources. -/
structure md_env (σ : Type) where
  clock : σ → Int × σ
  allreduce_max : Int → σ → Int × σ

/-- The all-reduce is a maximum: what a worker receives is at least what it
contributed, and at most the larger of its contribution and `bound`, a bound on
the values of the other workers. -/
def allreduce_is_max {σ : Type} (E : md_env σ) (bound : Int) : Prop :=
  ∀ (v : Int) (w : σ), v ≤ (E.allreduce_max v w).1 ∧ (E.allreduce_max v w).1 ≤ max v bound

/-- A call the engine issued together with what it returned (ghost record);
for the all-reduce, the value contributed and the maximum received. -/
inductive md_call where
  | def_dset_name (rank d : Int) (ret : md_ret)
  | def_obj_name (rank d f : Int) (ret : md_ret)
  | create_dset (dset : dset_t) (ret : md_ret)
  | rm_dset (dset : dset_t) (ret : md_ret)
  | write_obj (dset : dset_t) (obj : obj_t) (ret : md_ret)
  | read_obj (dset : dset_t) (obj : obj_t) (ret : md_ret)
  | stat_obj (dset : dset_t) (obj : obj_t) (ret : md_ret)
  | delete_obj (dset : dset_t) (obj : obj_t) (ret : md_ret)
  | allreduce (v : Int) (received : Int)
  deriving DecidableEq, Repr

/-- Number of clock ticks in a second. -/
def ticks_per_second : Int := 1000000000

/-- The modulus of `size_t`. -/
def size_t_mod : Nat := 2 ^ 64

/-- The largest `int`. -/
def int_max : Int := 2147483647

/-- The value an `int` computation is left with when the exact result is `x`:
within the range of `int` it is `x` itself; signed overflow, undefined in C, is
modelled by the wrap-around to 32 bits of a two's complement machine. -/
def int_wrap (x : Int) : Int := (x + 2 ^ 31) % 2 ^ 32 - 2 ^ 31

/-- The product of two `int` values as the program computes it, as in
`o.num * o.dset_count`. -/
def int_mul (a b : Int) : Int := int_wrap (a * b)

/-- The state a phase routine threads through its loops: the world, the
statistics, the slot index `pos`, and the ghost records (calls issued, newest
first; slot indices passed to `add_timed_result`, newest first; whether
`MPI_Abort` was reached). -/
structure run_t (σ : Type) where
  w : σ
  s : phase_stat_t
  pos : Nat
  g_calls : List md_call
  g_slots : List Nat
  g_aborted : Bool

/-- The function `init_stats`: `memset` to zero, then `p->repeats = repeats` (an
`int` stored into a `uint64_t`), then, when `o.latency_file_prefix && repeats > 0`,
the allocation of the four latency arrays with `repeats` entries each (`malloc`
is taken to succeed); otherwise the four pointers stay `NULL`, arrays without
an entry. -/
def init_stats (o : benchmark_options) (repeats : Int) : phase_stat_t :=
  { dset_name := ⟨0, 0⟩, dset_create := ⟨0, 0⟩, dset_delete := ⟨0, 0⟩,
    obj_name := ⟨0, 0⟩, obj_create := ⟨0, 0⟩, obj_read := ⟨0, 0⟩,
    obj_stat := ⟨0, 0⟩, obj_delete := ⟨0, 0⟩,
    repeats := (repeats % (size_t_mod : Int)).toNat,
    time_create := [], time_read := [], time_stat := [], time_delete := [],
    max_op_time := 0, phase_start_timer := 0, stonewall_hit := 0,
    g_time_len :=
      if benchmark_options.latency_file_prefix o = true ∧ repeats > 0 then repeats.toNat
      else 0 }

/-- The error total `sum_err`. -/
def sum_err (p : phase_stat_t) : Int :=
  p.dset_name.err + p.dset_create.err + p.dset_delete.err + p.obj_name.err
    + p.obj_create.err + p.obj_read.err + p.obj_stat.err + p.obj_delete.err

/-! ## Peer routing -/

/-- The target `readRank` of `run_benchmark`: the truncating `%` of C, then
`+ size` when the remainder is negative. -/
def readRank (o : benchmark_options) (d : Int) : Int :=
  let readRank := Int.tmod (o.rank - o.offset * (d + 1)) o.size
  if readRank < 0 then readRank + o.size else readRank

/-- The target `writeRank` of `run_benchmark`: the truncating `%` of C. -/
def writeRank (o : benchmark_options) (d : Int) : Int :=
  Int.tmod (o.rank + o.offset * (d + 1)) o.size

/-! ## Timers and the latency recorder -/

/-- Selector of one of the four latency arrays of `phase_stat_t`. -/
inductive lat_t where
  | create
  | read
  | stat
  | delete
  deriving DecidableEq, Repr

/-- The latency array selected by `k`. -/
def phase_stat_t.times (s : phase_stat_t) : lat_t → List (Nat × time_result_t)
  | .create => s.time_create
  | .read => s.time_read
  | .stat => s.time_stat
  | .delete => s.time_delete

/-- Replace the latency array selected by `k`. -/
def phase_stat_t.set_times (s : phase_stat_t) (k : lat_t)
    (l : List (Nat × time_result_t)) : phase_stat_t :=
  match k with
  | .create => { s with time_create := l }
  | .read => { s with time_read := l }
  | .stat => { s with time_stat := l }
  | .delete => { s with time_delete := l }

/-- The call `start_timer`: sample the clock. -/
def start_timer {σ : Type} (E : md_env σ) (w : σ) : Int × σ := E.clock w

/-- The call `stop_timer`: the time elapsed since `start`. -/
def stop_timer {σ : Type} (E : md_env σ) (start : Int) (w : σ) : Int × σ :=
  ((E.clock w).1 - start, (E.clock w).2)

/-- The call `timer_subtract`. -/
def timer_subtract (a b : Int) : Int := a - b

/-- What `add_timed_result` leaves behind: the returned `curtime`, the latency
array, `*max_time` and the world. -/
structure timed_t (σ : Type) where
  curtime : Int
  results : List (Nat × time_result_t)
  max_time : Int
  w : σ

/-- The function `add_timed_result`: stores the sample at `results[pos]` when
latency capture is on, raises `*max_time`, returns the start offset. -/
def add_timed_result {σ : Type} (o : benchmark_options) (E : md_env σ)
    (start phase_start_timer : Int) (results : List (Nat × time_result_t)) (pos : Nat)
    (max_time : Int) (w : σ) : timed_t σ :=
  let curtime := timer_subtract start phase_start_timer
  let op_time := stop_timer E start w
  { curtime := curtime
    results := if benchmark_options.latency_file_prefix o
      then (pos, ⟨curtime, op_time.1⟩) :: results else results
    max_time := if op_time.1 > max_time then op_time.1 else max_time
    w := op_time.2 }

/-- Apply `g` to the statistics. -/
def run_t.map_s {σ : Type} (st : run_t σ) (g : phase_stat_t → phase_stat_t) : run_t σ :=
  { st with s := g st.s }

/-- The statement `pos++` on the `size_t` index. -/
def run_t.inc_pos {σ : Type} (st : run_t σ) : run_t σ :=
  { st with pos := (st.pos + 1) % size_t_mod }

/-- Reaching `MPI_Abort`. -/
def run_t.abort {σ : Type} (st : run_t σ) : run_t σ := { st with g_aborted := true }

/-- An untimed plug-in call `ret = op(...)`. -/
def plain_op {σ : Type} (c : md_ret → md_call) (op : σ → md_ret × σ) (st : run_t σ) :
    md_ret × run_t σ :=
  ((op st.w).1, { st with w := (op st.w).2, g_calls := c (op st.w).1 :: st.g_calls })

/-- A timed plug-in call: `start_timer(& op_timer); ret = op(...);
add_timed_result(op_timer, s->phase_start_timer, s->time_k, pos, & s->max_op_time)`.
Returns `ret` and the value returned by `add_timed_result`. -/
def timed_op {σ : Type} (o : benchmark_options) (E : md_env σ) (k : lat_t)
    (c : md_ret → md_call)
    (op : σ → md_ret × σ) (st : run_t σ) : md_ret × Int × run_t σ :=
  let t0 := start_timer E st.w
  let r := op t0.2
  let a := add_timed_result o E t0.1 st.s.phase_start_timer (st.s.times k) st.pos
    st.s.max_op_time r.2
  (r.1, a.curtime,
    { st with
      w := a.w
      s := { st.s.set_times k a.results with max_op_time := a.max_time }
      g_calls := c r.1 :: st.g_calls
      g_slots := st.pos :: st.g_slots })

/-- The state a phase routine starts from: `size_t pos = -1`. -/
def run_t.init {σ : Type} (s : phase_stat_t) (w : σ) : run_t σ :=
  { w := w, s := s, pos := size_t_mod - 1, g_calls := [], g_slots := [], g_aborted := false }

/-! ## Precreate phase -/

/-- Body of the first loop of `run_precreate` (data set `i`). Once `MPI_Abort`
was reached nothing more is executed. -/
def precreate_dset_body {σ : Type} (o : benchmark_options) (P : md_plugin σ)
    (st : run_t σ) (i : Int) : run_t σ :=
  if st.g_aborted then st else
  let n := plain_op (.def_dset_name o.rank i) (P.def_dset_name o.rank i) st
  if n.1 ≠ MD_SUCCESS then
    if o.ignore_precreate_errors = 0 then n.2.abort
    else n.2.map_s (fun s => { s with dset_name := s.dset_name.inc_err })
  else
    let st1 := n.2.map_s (fun s => { s with dset_name := s.dset_name.inc_suc })
    let c := plain_op (.create_dset (o.rank, i)) (P.create_dset (o.rank, i)) st1
    if c.1 = MD_NOOP then c.2
    else if c.1 = MD_SUCCESS then
      c.2.map_s (fun s => { s with dset_create := s.dset_create.inc_suc })
    else
      let st2 := c.2.map_s (fun s => { s with dset_create := s.dset_create.inc_err })
      if o.ignore_precreate_errors = 0 then st2.abort else st2

/-- Body of the second loop nest of `run_precreate` (sequence `f`, data set `d`). -/
def precreate_obj_body {σ : Type} (o : benchmark_options) (P : md_plugin σ) (E : md_env σ)
    (f : Int) (st : run_t σ) (d : Int) : run_t σ :=
  if st.g_aborted then st else
  let n1 := plain_op (.def_dset_name o.rank d) (P.def_dset_name o.rank d) st
  let st1 := n1.2.inc_pos
  let n2 := plain_op (.def_obj_name o.rank d f) (P.def_obj_name o.rank d f) st1
  if n2.1 ≠ MD_SUCCESS then
    let st2 := n2.2.map_s (fun s => { s with dset_name := s.dset_name.inc_err })
    if o.ignore_precreate_errors = 0 then st2.abort
    else st2.map_s (fun s => { s with obj_name := s.obj_name.inc_err })
  else
    let t := timed_op o E .create (.write_obj (o.rank, d) (o.rank, d, f))
      (P.write_obj (o.rank, d) (o.rank, d, f) (Int.tmod o.rank 256) o.file_size) n2.2
    if t.1 = MD_NOOP then t.2.2
    else if t.1 = MD_SUCCESS then
      t.2.2.map_s (fun s => { s with obj_create := s.obj_create.inc_suc })
    else
      let st3 := t.2.2.map_s (fun s => { s with obj_create := s.obj_create.inc_err })
      if o.ignore_precreate_errors = 0 then st3.abort else st3

/-- The loop `for(int i = 0; i < n; i++)` over an `int` bound: the indices it
visits, in order. -/
def int_range (n : Int) : List Int := (List.range n.toNat).map Int.ofNat

/-- The routine `run_precreate`. -/
def run_precreate {σ : Type} (o : benchmark_options) (P : md_plugin σ) (E : md_env σ)
    (s : phase_stat_t) (w : σ) : run_t σ :=
  let st0 := (int_range o.dset_count).foldl (precreate_dset_body o P) (run_t.init s w)
  (int_range o.precreate).foldl
    (fun st f => (int_range o.dset_count).foldl (precreate_obj_body o P E f) st) st0

/-! ## Cleanup phase -/

/-- Body of the inner loop of `run_cleanup` (data set `d`, sequence `f`). -/
def cleanup_obj_body {σ : Type} (o : benchmark_options) (P : md_plugin σ) (E : md_env σ)
    (start_index d : Int) (st : run_t σ) (f : Int) : run_t σ :=
  let st1 := st.inc_pos
  let n := plain_op (.def_obj_name o.rank d (f + start_index))
    (P.def_obj_name o.rank d (f + start_index)) st1
  let t := timed_op o E .delete (.delete_obj (o.rank, d) (o.rank, d, f + start_index))
    (P.delete_obj (o.rank, d) (o.rank, d, f + start_index)) n.2
  if t.1 = MD_NOOP then t.2.2
  else if t.1 = MD_SUCCESS then
    t.2.2.map_s (fun s => { s with obj_delete := s.obj_delete.inc_suc })
  else if t.1 ≠ MD_NOOP then
    t.2.2.map_s (fun s => { s with obj_delete := s.obj_delete.inc_err })
  else t.2.2

/-- Body of the outer loop of `run_cleanup` (data set `d`). -/
def cleanup_dset_body {σ : Type} (o : benchmark_options) (P : md_plugin σ) (E : md_env σ)
    (start_index : Int) (st : run_t σ) (d : Int) : run_t σ :=
  let n := plain_op (.def_dset_name o.rank d) (P.def_dset_name o.rank d) st
  let st1 := (int_range o.precreate).foldl (cleanup_obj_body o P E start_index d) n.2
  let r := plain_op (.rm_dset (o.rank, d)) (P.rm_dset (o.rank, d)) st1
  if r.1 = MD_SUCCESS then
    r.2.map_s (fun s => { s with dset_delete := s.dset_delete.inc_suc })
  else if r.1 ≠ MD_NOOP then
    r.2.map_s (fun s => { s with dset_delete := s.dset_delete.inc_err })
  else r.2

/-- The routine `run_cleanup`. -/
def run_cleanup {σ : Type} (o : benchmark_options) (P : md_plugin σ) (E : md_env σ)
    (s : phase_stat_t) (start_index : Int) (w : σ) : run_t σ :=
  (int_range o.dset_count).foldl (cleanup_dset_body o P E start_index) (run_t.init s w)

/-! ## Benchmark phase -/

/-- The counting after `read_obj` (the chain on `ret` that follows the call),
on the counter `obj_read`. -/
def count_read (ret : md_ret) (c : op_stat_t) : op_stat_t :=
  if ret = MD_SUCCESS then c.inc_suc
  else if ret = MD_NOOP then c
  else if ret = MD_ERROR_FIND then c.inc_err
  else c.inc_err

/-- The counting after `delete_obj` in `run_benchmark` (the chain on `ret`), on
the counter `obj_delete`. -/
def count_delete (ret : md_ret) (c : op_stat_t) : op_stat_t :=
  if ret = MD_SUCCESS then c.inc_suc
  else if ret = MD_NOOP then c
  else c.inc_err

/-- The counting after `write_obj` in `run_benchmark` (the chain on `ret`), on
the counter `obj_create`. -/
def count_write (ret : md_ret) (c : op_stat_t) : op_stat_t :=
  if ret = MD_SUCCESS then c.inc_suc
  else if ret = MD_ERROR_CREATE then c.inc_err
  else if ret = MD_NOOP then c
  else c.inc_err

/-- Body of the inner loop of `run_benchmark` for outer index `f` and data set
`d`. The accumulator pairs the run state with the local `bench_runtime`. Each
`continue` of the C code is an early result here. The statement
`o.plugin->delete_obj(dset, obj_name);` does not assign `ret`, so the counting
that follows it still sees the result of `read_obj`. -/
def benchmark_body {σ : Type} (o : benchmark_options) (P : md_plugin σ) (E : md_env σ)
    (start_index f : Int) (acc : run_t σ × Int) (d : Int) : run_t σ × Int :=
  let st0 := acc.1.inc_pos
  let prevFile := f + start_index
  let rd := readRank o d
  let n1 := plain_op (.def_obj_name rd d prevFile) (P.def_obj_name rd d prevFile) st0
  if n1.1 ≠ MD_SUCCESS then
    (n1.2.map_s (fun s => { s with obj_name := s.obj_name.inc_err }), acc.2)
  else
  let n2 := plain_op (.def_dset_name rd d) (P.def_dset_name rd d) n1.2
  let t1 := timed_op o E .stat (.stat_obj (rd, d) (rd, d, prevFile))
    (P.stat_obj (rd, d) (rd, d, prevFile) o.file_size) n2.2
  if t1.1 ≠ MD_SUCCESS ∧ t1.1 ≠ MD_NOOP then
    (t1.2.2.map_s (fun s => { s with obj_stat := s.obj_stat.inc_err }), acc.2)
  else
  let st2 := t1.2.2.map_s (fun s => { s with obj_stat := s.obj_stat.inc_suc })
  let t2 := timed_op o E .read (.read_obj (rd, d) (rd, d, prevFile))
    (P.read_obj (rd, d) (rd, d, prevFile) o.file_size) st2
  let st3 := t2.2.2.map_s (fun s => { s with obj_read := count_read t2.1 s.obj_read })
  if o.read_only ≠ 0 then (st3, t2.2.1)
  else
  let t3 := timed_op o E .delete (.delete_obj (rd, d) (rd, d, prevFile))
    (P.delete_obj (rd, d) (rd, d, prevFile)) st3
  let st4 := t3.2.2.map_s (fun s => { s with obj_delete := count_delete t2.1 s.obj_delete })
  let wr := writeRank o d
  let n3 := plain_op (.def_obj_name wr d (o.precreate + prevFile))
    (P.def_obj_name wr d (o.precreate + prevFile)) st4
  if n3.1 ≠ MD_SUCCESS then
    (n3.2.map_s (fun s => { s with obj_name := s.obj_name.inc_err }), t2.2.1)
  else
  let n4 := plain_op (.def_dset_name wr d) (P.def_dset_name wr d) n3.2
  let t4 := timed_op o E .create (.write_obj (wr, d) (wr, d, o.precreate + prevFile))
    (P.write_obj (wr, d) (wr, d, o.precreate + prevFile) (Int.tmod o.rank 256) o.file_size)
    n4.2
  (t4.2.2.map_s (fun s => { s with obj_create := count_write t4.1 s.obj_create }), t4.2.1)

/-- One pass of the inner loop `for(int d = 0; d < o.dset_count; d++)`, started
with `bench_runtime = 0`. Returns the state and the final `bench_runtime`. -/
def benchmark_inner {σ : Type} (o : benchmark_options) (P : md_plugin σ) (E : md_env σ)
    (start_index f : Int) (st : run_t σ) : run_t σ × Int :=
  (int_range o.dset_count).foldl (benchmark_body o P E start_index f) (st, 0)

/-- The variables of the outer loop of `run_benchmark`: the run state, `f`,
`total_num`, `armed_stone_wall`, and two ghost records: the number of outer
iterations whose inner loop was run, and whether the loop was left by `break`. -/
structure loop_t (σ : Type) where
  st : run_t σ
  f : Int
  total_num : Int
  armed_stone_wall : Bool
  g_iters : Nat
  g_broke : Bool

/-- The outer loop of `run_benchmark` while `armed_stone_wall` is 0: the
stonewall test is skipped and `total_num` no longer changes, so the loop runs
the `n` iterations that remain up to `total_num`. -/
def benchmark_loop_unarmed {σ : Type} (o : benchmark_options) (P : md_plugin σ)
    (E : md_env σ) (start_index : Int) : Nat → loop_t σ → loop_t σ
  | 0, L => L
  | n + 1, L =>
    benchmark_loop_unarmed o P E start_index n
      { L with
        st := (benchmark_inner o P E start_index L.f L.st).1
        f := L.f + 1
        g_iters := L.g_iters + 1 }

/-- The outer loop of `run_benchmark` while `armed_stone_wall` is 1, with `n`
iterations left up to `total_num`. When `bench_runtime >= o.stonewall_timer`
(seconds, here scaled to ticks) the flag `stonewall_hit` is set; without
wear-out the loop is left by `break` (`f` keeps its value); with wear-out the
stonewall is disarmed, `total_num` becomes the all-reduced maximum of `f`, and
the loop goes on unarmed from `f + 1` up to the new `total_num`. -/
def benchmark_loop_armed {σ : Type} (o : benchmark_options) (P : md_plugin σ)
    (E : md_env σ) (start_index : Int) : Nat → loop_t σ → loop_t σ
  | 0, L => L
  | n + 1, L =>
    let r := benchmark_inner o P E start_index L.f L.st
    if r.2 ≥ o.stonewall_timer * ticks_per_second then
      let st1 := r.1.map_s (fun s => { s with stonewall_hit := 1 })
      if o.stonewall_timer_wear_out = 0 then
        { L with st := st1, g_iters := L.g_iters + 1, g_broke := true }
      else
        let a := E.allreduce_max L.f st1.w
        benchmark_loop_unarmed o P E start_index (a.1 - (L.f + 1)).toNat
          { st := { st1 with w := a.2, g_calls := .allreduce L.f a.1 :: st1.g_calls }
            f := L.f + 1
            total_num := a.1
            armed_stone_wall := false
            g_iters := L.g_iters + 1
            g_broke := false }
    else
      benchmark_loop_armed o P E start_index n
        { L with st := r.1, f := L.f + 1, g_iters := L.g_iters + 1 }

/-- What `run_benchmark` leaves behind: the run state (statistics with `repeats`
set), the value of `*current_index_p`, and the final loop variables with their
ghost records. -/
structure bench_t (σ : Type) where
  st : run_t σ
  current_index : Int
  f : Int
  total_num : Int
  g_iters : Nat
  g_broke : Bool

/-- The outer loop `for(f = 0; f < total_num; f++)` of `run_benchmark`, from
`size_t pos = -1`, `total_num = o.num` and
`armed_stone_wall = (o.stonewall_timer > 0)`. -/
def benchmark_loop {σ : Type} (o : benchmark_options) (P : md_plugin σ) (E : md_env σ)
    (s : phase_stat_t) (start_index : Int) (w : σ) : loop_t σ :=
  let L0 : loop_t σ :=
    { st := run_t.init s w, f := 0, total_num := o.num,
      armed_stone_wall := decide (o.stonewall_timer > 0), g_iters := 0, g_broke := false }
  if L0.armed_stone_wall then benchmark_loop_armed o P E start_index o.num.toNat L0
  else benchmark_loop_unarmed o P E start_index o.num.toNat L0

/-- After the loop, `if(armed_stone_wall && o.stonewall_timer_wear_out)`: a
worker that never crossed the deadline takes part in the wear-out all-reduce
with `total_num`, and sets `stonewall_hit`. -/
def benchmark_wear_out_sync {σ : Type} (o : benchmark_options) (E : md_env σ)
    (L : loop_t σ) : loop_t σ :=
  if L.armed_stone_wall = true ∧ o.stonewall_timer_wear_out ≠ 0 then
    { L with
      total_num := (E.allreduce_max L.total_num L.st.w).1
      st := { L.st with
        w := (E.allreduce_max L.total_num L.st.w).2
        g_calls :=
          .allreduce L.total_num (E.allreduce_max L.total_num L.st.w).1 :: L.st.g_calls
        s := { L.st.s with stonewall_hit := 1 } } }
  else L

/-- After the loop, `if(o.stonewall_timer && ! o.stonewall_timer_wear_out)`:
`stonewall_hit` becomes the all-reduced maximum of the workers' flags. -/
def benchmark_hit_sync {σ : Type} (o : benchmark_options) (E : md_env σ)
    (L : loop_t σ) : loop_t σ :=
  if o.stonewall_timer ≠ 0 ∧ o.stonewall_timer_wear_out = 0 then
    { L with
      st := { L.st with
        w := (E.allreduce_max L.st.s.stonewall_hit L.st.w).2
        g_calls :=
          .allreduce L.st.s.stonewall_hit (E.allreduce_max L.st.s.stonewall_hit L.st.w).1
            :: L.st.g_calls
        s := { L.st.s with
          stonewall_hit := (E.allreduce_max L.st.s.stonewall_hit L.st.w).1 } } }
  else L

/-- The routine `run_benchmark`: the loop, the two collectives after it,
`*current_index_p += f` unless read-only, and `s->repeats = pos + 1`. -/
def run_benchmark {σ : Type} (o : benchmark_options) (P : md_plugin σ) (E : md_env σ)
    (s : phase_stat_t) (current_index : Int) (w : σ) : bench_t σ :=
  let L := benchmark_hit_sync o E
    (benchmark_wear_out_sync o E (benchmark_loop o P E s current_index w))
  { st := L.st.map_s (fun s => { s with repeats := (L.st.pos + 1) % size_t_mod })
    current_index := if o.read_only = 0 then current_index + L.f else current_index
    f := L.f
    total_num := L.total_num
    g_iters := L.g_iters
    g_broke := L.g_broke }

/-! ## Start-up validation and the driver loop of `main` -/

/-- The phase normalisation of `main`: when no phase flag is set, all three
phases are enabled. -/
def normalize_phases (o : benchmark_options) : benchmark_options :=
  if ¬ (o.phase_cleanup ≠ 0 ∨ o.phase_precreate ≠ 0 ∨ o.phase_benchmark ≠ 0) then
    { o with phase_cleanup := 1, phase_precreate := 1, phase_benchmark := 1 }
  else o

/-- The validation check of `main` on the normalised options: `some 1` when
`exit(1)` is reached, `none` when the check passes. -/
def main_validate (o : benchmark_options) : Option Int :=
  let o := normalize_phases o
  if o.phase_precreate = 0 ∧ o.phase_benchmark ≠ 0 ∧ o.stonewall_timer ≠ 0
      ∧ o.stonewall_timer_wear_out = 0 then some 1
  else none

/-- The benchmark loop of `main`, `n` iterations of it: `init_stats`,
`start_timer`, `run_benchmark`, `end_phase`. The routine `end_phase` only
reports; it is a parameter acting on the world. Returns the results of the
iterations run (newest first, ghost), `current_index` and the world. -/
def main_benchmark {σ : Type} (o : benchmark_options) (P : md_plugin σ) (E : md_env σ)
    (end_phase : phase_stat_t → σ → σ) :
    Nat → Int → σ → List (Int × bench_t σ) × Int × σ
  | 0, current_index, w => ([], current_index, w)
  | n + 1, current_index, w =>
    let prev := main_benchmark o P E end_phase n current_index w
    let t := start_timer E prev.2.2
    let s := { init_stats o (int_mul o.num o.dset_count) with phase_start_timer := t.1 }
    let r := run_benchmark o P E s prev.2.1 t.2
    ((prev.2.1, r) :: prev.1, r.current_index, end_phase r.st.s r.st.w)

/-! ## Concrete worlds

Small plug-ins and environments on which the model is run. -/

/-- A plug-in without state: name generation and the data set operations
succeed, the four object operations return the given codes. -/
def fixed_plugin (σ : Type) (stat read delete write : md_ret) : md_plugin σ :=
  { def_dset_name := fun _ _ w => (MD_SUCCESS, w)
    def_obj_name := fun _ _ _ w => (MD_SUCCESS, w)
    create_dset := fun _ w => (MD_SUCCESS, w)
    rm_dset := fun _ w => (MD_SUCCESS, w)
    write_obj := fun _ _ _ _ w => (write, w)
    read_obj := fun _ _ _ w => (read, w)
    stat_obj := fun _ _ _ w => (stat, w)
    delete_obj := fun _ _ w => (delete, w) }

/-- A world that is only a clock: the world is the number of samples taken so
far and `step` ticks pass between two samples. The all-reduce returns the
maximum of the own value and `other`, the largest value of the other workers. -/
def clock_env (step other : Int) : md_env Int :=
  { clock := fun w => (w * step, w + 1)
    allreduce_max := fun v w => (max v other, w) }

/-- Options of a small run: `W` workers, this one `rank`, `D` data sets, `P`
precreated objects, `N` benchmark operations, offset 1. -/
def small_options (rank W D P N : Int) : benchmark_options :=
  { init_options rank W with dset_count := D, precreate := P, num := N, file_size := 0 }

/-- An environment that leaves the world alone: the clock stands still and
the all-reduce returns the own value. -/
def still_env (σ : Type) : md_env σ :=
  { clock := fun w => (0, w)
    allreduce_max := fun v w => (v, w) }

/-- A backend as a set of data sets and a set of objects, the objects being
`(owner, dataset, sequence)` triples. -/
structure backend_t where
  dsets : Finset dset_t
  objs : Finset obj_t
  deriving DecidableEq

/-- The plug-in of the set backend: `write_obj` inserts, `delete_obj` removes,
`stat_obj` and `read_obj` succeed on a live object. On an object that is not
live, `stat_obj`, `read_obj` and `delete_obj` return `miss`: with
`miss = MD_SUCCESS` they succeed unconditionally, with `miss = MD_ERROR_FIND`
the backend reports the missing object. -/
def set_plugin (miss : md_ret) : md_plugin backend_t :=
  { def_dset_name := fun _ _ w => (MD_SUCCESS, w)
    def_obj_name := fun _ _ _ w => (MD_SUCCESS, w)
    create_dset := fun ds w => (MD_SUCCESS, { w with dsets := insert ds w.dsets })
    rm_dset := fun ds w => (MD_SUCCESS, { w with dsets := w.dsets.erase ds })
    write_obj := fun _ t _ _ w => (MD_SUCCESS, { w with objs := insert t w.objs })
    read_obj := fun _ t _ w => (if t ∈ w.objs then MD_SUCCESS else miss, w)
    stat_obj := fun _ t _ w => (if t ∈ w.objs then MD_SUCCESS else miss, w)
    delete_obj := fun _ t w =>
      (if t ∈ w.objs then MD_SUCCESS else miss, { w with objs := w.objs.erase t }) }

/-- The loop invariant of the slot index: the slots consumed so far are the
data set count times the outer iterations run so far (modulo the range of
`size_t`). -/
def slot_inv {σ : Type} (o : benchmark_options) (L : loop_t σ) : Prop :=
  (L.st.pos + 1) % size_t_mod = (o.dset_count.toNat * L.g_iters) % size_t_mod

/-- The calls an inner iteration of the benchmark can issue for outer index `f`
and data set `d` from the rolling base `start_index`: the reads address the
object `(readRank, d, f + start_index)`, and, unless read-only, the delete
addresses the same object and the write the object
`(writeRank, d, o.precreate + (f + start_index))`. -/
def benchmark_call_ok (o : benchmark_options) (start_index f d : Int) (c : md_call) : Prop :=
  (∃ r, c = .def_obj_name (readRank o d) d (f + start_index) r)
  ∨ (∃ r, c = .def_dset_name (readRank o d) d r)
  ∨ (∃ r, c = .stat_obj (readRank o d, d) (readRank o d, d, f + start_index) r)
  ∨ (∃ r, c = .read_obj (readRank o d, d) (readRank o d, d, f + start_index) r)
  ∨ (o.read_only = 0
    ∧ ((∃ r, c = .delete_obj (readRank o d, d) (readRank o d, d, f + start_index) r)
      ∨ (∃ r, c = .def_obj_name (writeRank o d) d (o.precreate + (f + start_index)) r)
      ∨ (∃ r, c = .def_dset_name (writeRank o d) d r)
      ∨ (∃ r, c = .write_obj (writeRank o d, d)
          (writeRank o d, d, o.precreate + (f + start_index)) r)))

/-- Every call in the record is an all-reduce or a call of some inner
iteration with `f ≥ 0` and `0 ≤ d < o.dset_count`. -/
def benchmark_calls_ok {σ : Type} (o : benchmark_options) (start_index : Int)
    (st : run_t σ) : Prop :=
  ∀ c ∈ st.g_calls, (∃ v a, c = md_call.allreduce v a)
    ∨ ∃ f d, 0 ≤ f ∧ 0 ≤ d ∧ d < o.dset_count ∧ benchmark_call_ok o start_index f d c

/-! ## Statistics of the report -/

/-- The function `statistics_minmax`. The loop runs over `o.size` entries (the
parameter `count` is not used by the code) from `min = 0` and `max = 0`. The
array is the list of its entries; the callers pass `o.size` of them, and an
index past the list reads 0. Returns `(*out_min, *out_max)`. -/
def statistics_minmax (o : benchmark_options) (count : Int) (arr : List Int) : Int × Int :=
  (int_range o.size).foldl
    (fun acc i =>
      (if arr.getD i.toNat 0 < acc.1 then arr.getD i.toNat 0 else acc.1,
        if arr.getD i.toNat 0 > acc.2 then arr.getD i.toNat 0 else acc.2))
    (0, 0)

/-- The load balance `r_min / r_max * 100.0` that `print_p_stat` prints, with
`r_min` and `r_max` from `statistics_minmax(o.size, p->t_all, ...)`, as an exact
number. -/
def reported_balance (o : benchmark_options) (t_all : List Int) : ℚ :=
  ((statistics_minmax o o.size t_all).1 : ℚ) / ((statistics_minmax o o.size t_all).2 : ℚ) * 100

/-- The test `if( p->stonewall_hit )` of `end_phase` that guards the MIN-reduce
of `repeats`. -/
def end_phase_reduces_repeats (p : phase_stat_t) : Bool := decide (p.stonewall_hit ≠ 0)

/-- Whether a recorded call is an all-reduce. -/
def md_call.is_allreduce : md_call → Bool
  | .allreduce _ _ => true
  | _ => false

/-- The number of all-reduce collectives in a call record. -/
def collectives (calls : List md_call) : Nat := calls.countP md_call.is_allreduce

/-- A plug-in without state whose name generation for objects fails; every
other operation succeeds. -/
def name_failing_plugin (σ : Type) : md_plugin σ :=
  { fixed_plugin σ MD_SUCCESS MD_SUCCESS MD_SUCCESS MD_SUCCESS with
    def_obj_name := fun _ _ _ w => (MD_ERROR, w) }

/-- Options of a one-worker run that ignores the errors of the precreate
phase (`--ignore-precreate-errors`). -/
def ignoring_options (D P : Int) : benchmark_options :=
  { small_options 0 1 D P 1 with ignore_precreate_errors := 1 }

/-- Options of a one-worker run with latency capture whose product
`N * D = 65536 * 32768 = 2 ^ 31` does not fit an `int`. -/
def overflow_options : benchmark_options :=
  { small_options 0 1 32768 4 65536 with latency_file_prefix := true }

/-- The slots consumed so far, `pos + 1`, are at most `c`, and every slot index
handed to `add_timed_result` so far is below the slots consumed. -/
def slots_within {σ : Type} (st : run_t σ) (c : Nat) : Prop :=
  (st.pos + 1) % size_t_mod ≤ c ∧ ∀ p ∈ st.g_slots, p < (st.pos + 1) % size_t_mod

/-! ## The round trip of precreate and cleanup -/

/-- The data sets of the worker: `(rank, d)` with `0 ≤ d < D`. -/
def owned_dsets (o : benchmark_options) : Finset dset_t :=
  {o.rank} ×ˢ Finset.Ico 0 o.dset_count

/-- The objects of the worker after precreate: `(rank, d, f)` with `0 ≤ d < D`
and `0 ≤ f < P`. -/
def owned_objs (o : benchmark_options) : Finset obj_t :=
  {o.rank} ×ˢ Finset.Ico 0 o.dset_count ×ˢ Finset.Ico 0 o.precreate

/-- The object a call writes, if it is a `write_obj`. -/
def md_call.written : md_call → Option obj_t
  | .write_obj _ t _ => some t
  | _ => none

/-- The object a call deletes, if it is a `delete_obj`. -/
def md_call.deleted : md_call → Option obj_t
  | .delete_obj _ t _ => some t
  | _ => none

/-- The data set a call creates, if it is a `create_dset`. -/
def md_call.created : md_call → Option dset_t
  | .create_dset ds _ => some ds
  | _ => none

/-- The data set a call removes, if it is a `rm_dset`. -/
def md_call.removed : md_call → Option dset_t
  | .rm_dset ds _ => some ds
  | _ => none

/-- The set of objects written by the calls of a record. -/
def written_objs (calls : List md_call) : Finset obj_t :=
  (calls.filterMap md_call.written).toFinset

/-- The set of objects deleted by the calls of a record. -/
def deleted_objs (calls : List md_call) : Finset obj_t :=
  (calls.filterMap md_call.deleted).toFinset

/-- The set of data sets created by the calls of a record. -/
def created_dsets (calls : List md_call) : Finset dset_t :=
  (calls.filterMap md_call.created).toFinset

/-- The set of data sets removed by the calls of a record. -/
def removed_dsets (calls : List md_call) : Finset dset_t :=
  (calls.filterMap md_call.removed).toFinset

/-- In a record of calls, newest first: once a data set was removed, no object
of that data set `(t.1, t.2.1)` is deleted any more. -/
def deletes_before_rm (calls : List md_call) : Prop :=
  calls.Pairwise (fun later earlier =>
    ∀ ds r, earlier = md_call.rm_dset ds r →
      ∀ ds' t r', later = md_call.delete_obj ds' t r' → (t.1, t.2.1) ≠ ds)

/-- The calls of precreate in program order, as the specification words them:
for each data set its name and `create_dset`; then, sequence-major, for each
`f` and each `d` the two names and `write_obj` on `(rank, d, f)`. All calls
succeed. -/
def precreate_calls_spec (o : benchmark_options) : List md_call :=
  (int_range o.dset_count).flatMap
      (fun i => [.def_dset_name o.rank i MD_SUCCESS, .create_dset (o.rank, i) MD_SUCCESS])
    ++ (int_range o.precreate).flatMap (fun f => (int_range o.dset_count).flatMap
      (fun d => [.def_dset_name o.rank d MD_SUCCESS, .def_obj_name o.rank d f MD_SUCCESS,
        .write_obj (o.rank, d) (o.rank, d, f) MD_SUCCESS]))

/-- The calls of cleanup in program order, as the specification words them:
data-set-major, for each `d` the data set name, then for each `f` the object
name and `delete_obj` on `(rank, d, start_index + f)`, then `rm_dset`. All
calls succeed. -/
def cleanup_calls_spec (o : benchmark_options) (start_index : Int) : List md_call :=
  (int_range o.dset_count).flatMap (fun d =>
    md_call.def_dset_name o.rank d MD_SUCCESS
      :: ((int_range o.precreate).flatMap
          (fun f => [.def_obj_name o.rank d (f + start_index) MD_SUCCESS,
            .delete_obj (o.rank, d) (o.rank, d, f + start_index) MD_SUCCESS])
        ++ [.rm_dset (o.rank, d) MD_SUCCESS]))


/-! # Theorems -/

/-! ## Peer routing: arithmetic -/

section RunState
variable {σ : Type}

@[simp] theorem plain_op_fst (c : md_ret → md_call) (op : σ → md_ret × σ) (st : run_t σ) :
    (plain_op c op st).1 = (op st.w).1 := rfl
@[simp] theorem plain_op_pos (c : md_ret → md_call) (op : σ → md_ret × σ) (st : run_t σ) :
    (plain_op c op st).2.pos = st.pos := rfl
@[simp] theorem plain_op_s (c : md_ret → md_call) (op : σ → md_ret × σ) (st : run_t σ) :
    (plain_op c op st).2.s = st.s := rfl
@[simp] theorem plain_op_w (c : md_ret → md_call) (op : σ → md_ret × σ) (st : run_t σ) :
    (plain_op c op st).2.w = (op st.w).2 := rfl
@[simp] theorem plain_op_calls (c : md_ret → md_call) (op : σ → md_ret × σ) (st : run_t σ) :
    (plain_op c op st).2.g_calls = c (op st.w).1 :: st.g_calls := rfl
@[simp] theorem plain_op_slots (c : md_ret → md_call) (op : σ → md_ret × σ) (st : run_t σ) :
    (plain_op c op st).2.g_slots = st.g_slots := rfl
@[simp] theorem plain_op_aborted (c : md_ret → md_call) (op : σ → md_ret × σ) (st : run_t σ) :
    (plain_op c op st).2.g_aborted = st.g_aborted := rfl

@[simp] theorem timed_op_pos (o : benchmark_options) (E : md_env σ) (k : lat_t)
    (c : md_ret → md_call) (op : σ → md_ret × σ) (st : run_t σ) :
    (timed_op o E k c op st).2.2.pos = st.pos := rfl
@[simp] theorem timed_op_fst (o : benchmark_options) (E : md_env σ) (k : lat_t)
    (c : md_ret → md_call) (op : σ → md_ret × σ) (st : run_t σ) :
    (timed_op o E k c op st).1 = (op (E.clock st.w).2).1 := rfl
@[simp] theorem timed_op_calls (o : benchmark_options) (E : md_env σ) (k : lat_t)
    (c : md_ret → md_call) (op : σ → md_ret × σ) (st : run_t σ) :
    (timed_op o E k c op st).2.2.g_calls = c (op (E.clock st.w).2).1 :: st.g_calls := rfl
@[simp] theorem timed_op_slots (o : benchmark_options) (E : md_env σ) (k : lat_t)
    (c : md_ret → md_call) (op : σ → md_ret × σ) (st : run_t σ) :
    (timed_op o E k c op st).2.2.g_slots = st.pos :: st.g_slots := rfl
@[simp] theorem timed_op_aborted (o : benchmark_options) (E : md_env σ) (k : lat_t)
    (c : md_ret → md_call) (op : σ → md_ret × σ) (st : run_t σ) :
    (timed_op o E k c op st).2.2.g_aborted = st.g_aborted := rfl
@[simp] theorem timed_op_curtime (o : benchmark_options) (E : md_env σ) (k : lat_t)
    (c : md_ret → md_call) (op : σ → md_ret × σ) (st : run_t σ) :
    (timed_op o E k c op st).2.1 = (E.clock st.w).1 - st.s.phase_start_timer := rfl

/-- A timed call changes no counter, nor `repeats`, nor `stonewall_hit`. -/
theorem timed_op_counters (o : benchmark_options) (E : md_env σ) (k : lat_t)
    (c : md_ret → md_call) (op : σ → md_ret × σ) (st : run_t σ) :
    let s' := (timed_op o E k c op st).2.2.s
    s'.dset_name = st.s.dset_name ∧ s'.dset_create = st.s.dset_create
    ∧ s'.dset_delete = st.s.dset_delete ∧ s'.obj_name = st.s.obj_name
    ∧ s'.obj_create = st.s.obj_create ∧ s'.obj_read = st.s.obj_read
    ∧ s'.obj_stat = st.s.obj_stat ∧ s'.obj_delete = st.s.obj_delete
    ∧ s'.repeats = st.s.repeats ∧ s'.stonewall_hit = st.s.stonewall_hit
    ∧ s'.phase_start_timer = st.s.phase_start_timer := by
  cases k <;> simp [timed_op, phase_stat_t.set_times]

@[simp] theorem map_s_pos (st : run_t σ) (g : phase_stat_t → phase_stat_t) :
    (st.map_s g).pos = st.pos := rfl
@[simp] theorem map_s_w (st : run_t σ) (g : phase_stat_t → phase_stat_t) :
    (st.map_s g).w = st.w := rfl
@[simp] theorem map_s_s (st : run_t σ) (g : phase_stat_t → phase_stat_t) :
    (st.map_s g).s = g st.s := rfl
@[simp] theorem map_s_calls (st : run_t σ) (g : phase_stat_t → phase_stat_t) :
    (st.map_s g).g_calls = st.g_calls := rfl
@[simp] theorem map_s_slots (st : run_t σ) (g : phase_stat_t → phase_stat_t) :
    (st.map_s g).g_slots = st.g_slots := rfl
@[simp] theorem map_s_aborted (st : run_t σ) (g : phase_stat_t → phase_stat_t) :
    (st.map_s g).g_aborted = st.g_aborted := rfl

@[simp] theorem inc_pos_pos (st : run_t σ) : st.inc_pos.pos = (st.pos + 1) % size_t_mod := rfl
@[simp] theorem inc_pos_s (st : run_t σ) : st.inc_pos.s = st.s := rfl
@[simp] theorem inc_pos_calls (st : run_t σ) : st.inc_pos.g_calls = st.g_calls := rfl
@[simp] theorem inc_pos_slots (st : run_t σ) : st.inc_pos.g_slots = st.g_slots := rfl
@[simp] theorem inc_pos_aborted (st : run_t σ) : st.inc_pos.g_aborted = st.g_aborted := rfl

/-- The slot index advances exactly once in an inner iteration of the
benchmark, whatever the plug-in returns. -/
theorem benchmark_body_pos (o : benchmark_options) (P : md_plugin σ) (E : md_env σ)
    (si f : Int) (acc : run_t σ × Int) (d : Int) :
    (benchmark_body o P E si f acc d).1.pos = (acc.1.pos + 1) % size_t_mod := by
  unfold benchmark_body
  simp only []
  split_ifs <;> simp

end RunState

/-! ## A timed call leaves the counters alone -/

section TimedFields
variable {σ : Type}

@[simp] theorem timed_op_dset_name (o : benchmark_options) (E : md_env σ) (k : lat_t)
    (c : md_ret → md_call) (op : σ → md_ret × σ) (st : run_t σ) :
    (timed_op o E k c op st).2.2.s.dset_name = st.s.dset_name := by
  cases k <;> rfl

@[simp] theorem timed_op_dset_create (o : benchmark_options) (E : md_env σ) (k : lat_t)
    (c : md_ret → md_call) (op : σ → md_ret × σ) (st : run_t σ) :
    (timed_op o E k c op st).2.2.s.dset_create = st.s.dset_create := by
  cases k <;> rfl

@[simp] theorem timed_op_dset_delete (o : benchmark_options) (E : md_env σ) (k : lat_t)
    (c : md_ret → md_call) (op : σ → md_ret × σ) (st : run_t σ) :
    (timed_op o E k c op st).2.2.s.dset_delete = st.s.dset_delete := by
  cases k <;> rfl

@[simp] theorem timed_op_obj_name (o : benchmark_options) (E : md_env σ) (k : lat_t)
    (c : md_ret → md_call) (op : σ → md_ret × σ) (st : run_t σ) :
    (timed_op o E k c op st).2.2.s.obj_name = st.s.obj_name := by
  cases k <;> rfl

@[simp] theorem timed_op_obj_create (o : benchmark_options) (E : md_env σ) (k : lat_t)
    (c : md_ret → md_call) (op : σ → md_ret × σ) (st : run_t σ) :
    (timed_op o E k c op st).2.2.s.obj_create = st.s.obj_create := by
  cases k <;> rfl

@[simp] theorem timed_op_obj_read (o : benchmark_options) (E : md_env σ) (k : lat_t)
    (c : md_ret → md_call) (op : σ → md_ret × σ) (st : run_t σ) :
    (timed_op o E k c op st).2.2.s.obj_read = st.s.obj_read := by
  cases k <;> rfl

@[simp] theorem timed_op_obj_stat (o : benchmark_options) (E : md_env σ) (k : lat_t)
    (c : md_ret → md_call) (op : σ → md_ret × σ) (st : run_t σ) :
    (timed_op o E k c op st).2.2.s.obj_stat = st.s.obj_stat := by
  cases k <;> rfl

@[simp] theorem timed_op_obj_delete (o : benchmark_options) (E : md_env σ) (k : lat_t)
    (c : md_ret → md_call) (op : σ → md_ret × σ) (st : run_t σ) :
    (timed_op o E k c op st).2.2.s.obj_delete = st.s.obj_delete := by
  cases k <;> rfl

@[simp] theorem timed_op_repeats (o : benchmark_options) (E : md_env σ) (k : lat_t)
    (c : md_ret → md_call) (op : σ → md_ret × σ) (st : run_t σ) :
    (timed_op o E k c op st).2.2.s.repeats = st.s.repeats := by
  cases k <;> rfl

@[simp] theorem timed_op_stonewall_hit (o : benchmark_options) (E : md_env σ) (k : lat_t)
    (c : md_ret → md_call) (op : σ → md_ret × σ) (st : run_t σ) :
    (timed_op o E k c op st).2.2.s.stonewall_hit = st.s.stonewall_hit := by
  cases k <;> rfl

@[simp] theorem timed_op_phase_start_timer (o : benchmark_options) (E : md_env σ) (k : lat_t)
    (c : md_ret → md_call) (op : σ → md_ret × σ) (st : run_t σ) :
    (timed_op o E k c op st).2.2.s.phase_start_timer = st.s.phase_start_timer := by
  cases k <;> rfl

end TimedFields

/-! ## The slot index in the benchmark loops -/

section SlotIndex
variable {σ : Type}

/-- A loop whose body advances `pos` once advances the slot count by its
number of iterations (modulo the range of `size_t`). -/
theorem foldl_pos_of_body {α β : Type} (pr : β → run_t σ) (g : β → α → β)
    (hg : ∀ acc x, (pr (g acc x)).pos = ((pr acc).pos + 1) % size_t_mod)
    (l : List α) (acc : β) :
    ((pr (l.foldl g acc)).pos + 1) % size_t_mod
      = ((pr acc).pos + 1 + l.length) % size_t_mod := by
  induction l generalizing acc with
  | nil => simp
  | cons x xs ih =>
    rw [List.foldl_cons, ih, hg, List.length_cons]
    unfold size_t_mod
    omega

theorem int_range_length (n : Int) : (int_range n).length = n.toNat := by
  simp [int_range]

theorem benchmark_inner_pos (o : benchmark_options) (P : md_plugin σ) (E : md_env σ)
    (si f : Int) (st : run_t σ) :
    ((benchmark_inner o P E si f st).1.pos + 1) % size_t_mod
      = (st.pos + 1 + o.dset_count.toNat) % size_t_mod := by
  have h := foldl_pos_of_body (fun a : run_t σ × Int => a.1) (benchmark_body o P E si f)
    (benchmark_body_pos o P E si f) (int_range o.dset_count) (st, 0)
  rw [int_range_length] at h
  exact h

theorem slot_inv_step (o : benchmark_options) (P : md_plugin σ) (E : md_env σ)
    (si : Int) (L : loop_t σ) (h : slot_inv o L) :
    ((benchmark_inner o P E si L.f L.st).1.pos + 1) % size_t_mod
      = (o.dset_count.toNat * (L.g_iters + 1)) % size_t_mod := by
  unfold slot_inv at h
  rw [benchmark_inner_pos, Nat.add_mod, h, Nat.mul_add, mul_one, Nat.mod_add_mod,
    Nat.add_mod_mod]

theorem benchmark_loop_unarmed_slot_inv (o : benchmark_options) (P : md_plugin σ)
    (E : md_env σ) (si : Int) (n : Nat) (L : loop_t σ) (h : slot_inv o L) :
    slot_inv o (benchmark_loop_unarmed o P E si n L) := by
  induction n generalizing L with
  | zero => exact h
  | succ n ih =>
    rw [benchmark_loop_unarmed]
    apply ih
    exact slot_inv_step o P E si L h

theorem benchmark_loop_armed_slot_inv (o : benchmark_options) (P : md_plugin σ)
    (E : md_env σ) (si : Int) (n : Nat) (L : loop_t σ) (h : slot_inv o L) :
    slot_inv o (benchmark_loop_armed o P E si n L) := by
  induction n generalizing L with
  | zero => exact h
  | succ n ih =>
    rw [benchmark_loop_armed]
    simp only []
    split_ifs
    · exact slot_inv_step o P E si L h
    · apply benchmark_loop_unarmed_slot_inv
      exact slot_inv_step o P E si L h
    · apply ih
      exact slot_inv_step o P E si L h

end SlotIndex

/-! ## Properties kept by every inner iteration -/

section Preservation
variable {σ : Type}

theorem mem_int_range {n d : Int} : d ∈ int_range n ↔ 0 ≤ d ∧ d < n := by
  unfold int_range
  simp only [List.mem_map, List.mem_range]
  constructor
  · rintro ⟨a, ha, rfl⟩
    have : (Int.ofNat a) = (a : Int) := rfl
    omega
  · rintro ⟨h0, h1⟩
    refine ⟨d.toNat, by omega, ?_⟩
    show ((d.toNat : Nat) : Int) = d
    omega

theorem foldl_preserves {α β : Type} (Q : β → Prop) (g : β → α → β)
    (hg : ∀ acc x, Q acc → Q (g acc x)) (l : List α) (acc : β) (h : Q acc) :
    Q (l.foldl g acc) := by
  induction l generalizing acc with
  | nil => exact h
  | cons x xs ih => exact ih _ (hg _ _ h)

theorem foldl_preserves_mem {α β : Type} (Q : β → Prop) (g : β → α → β) (l : List α)
    (hg : ∀ acc x, x ∈ l → Q acc → Q (g acc x)) (acc : β) (h : Q acc) :
    Q (l.foldl g acc) := by
  induction l generalizing acc with
  | nil => exact h
  | cons x xs ih =>
    exact ih (fun acc y hy => hg acc y (List.mem_cons_of_mem _ hy)) _
      (hg _ _ (List.mem_cons_self _ _) h)

theorem benchmark_inner_preserves (o : benchmark_options) (P : md_plugin σ) (E : md_env σ)
    (si : Int) (Q : run_t σ → Prop)
    (hbody : ∀ f acc d, 0 ≤ f → 0 ≤ d → d < o.dset_count →
      Q acc.1 → Q (benchmark_body o P E si f acc d).1)
    (f : Int) (hf : 0 ≤ f) (st : run_t σ) (h : Q st) :
    Q (benchmark_inner o P E si f st).1 :=
  foldl_preserves_mem (fun a : run_t σ × Int => Q a.1) _ _
    (fun acc d hd => hbody f acc d hf (mem_int_range.1 hd).1 (mem_int_range.1 hd).2) _ h

theorem benchmark_loop_unarmed_preserves (o : benchmark_options) (P : md_plugin σ)
    (E : md_env σ) (si : Int) (Q : run_t σ → Prop)
    (hbody : ∀ f acc d, 0 ≤ f → 0 ≤ d → d < o.dset_count →
      Q acc.1 → Q (benchmark_body o P E si f acc d).1)
    (n : Nat) (L : loop_t σ) (hf : 0 ≤ L.f) (h : Q L.st) :
    Q (benchmark_loop_unarmed o P E si n L).st := by
  induction n generalizing L with
  | zero => exact h
  | succ n ih =>
    rw [benchmark_loop_unarmed]
    exact ih _ (by simp only []; omega) (benchmark_inner_preserves o P E si Q hbody _ hf _ h)

theorem benchmark_loop_armed_preserves (o : benchmark_options) (P : md_plugin σ)
    (E : md_env σ) (si : Int) (Q : run_t σ → Prop)
    (hbody : ∀ f acc d, 0 ≤ f → 0 ≤ d → d < o.dset_count →
      Q acc.1 → Q (benchmark_body o P E si f acc d).1)
    (hs : ∀ st x r, Q st →
      Q (st.map_s (fun s => { s with stonewall_hit := x, repeats := r })))
    (hc : ∀ (st : run_t σ) v a w, Q st →
      Q { st with w := w, g_calls := .allreduce v a :: st.g_calls })
    (n : Nat) (L : loop_t σ) (hf : 0 ≤ L.f) (h : Q L.st) :
    Q (benchmark_loop_armed o P E si n L).st := by
  induction n generalizing L with
  | zero => exact h
  | succ n ih =>
    have h1 := benchmark_inner_preserves o P E si Q hbody L.f hf _ h
    rw [benchmark_loop_armed]
    simp only []
    split_ifs
    · exact hs _ 1 _ h1
    · apply benchmark_loop_unarmed_preserves o P E si Q hbody
      · simp only []; omega
      · exact hc _ _ _ _ (hs _ 1 _ h1)
    · exact ih _ (by simp only []; omega) h1

theorem benchmark_loop_preserves (o : benchmark_options) (P : md_plugin σ)
    (E : md_env σ) (Q : run_t σ → Prop) (s : phase_stat_t) (ci : Int) (w : σ)
    (hbody : ∀ f acc d, 0 ≤ f → 0 ≤ d → d < o.dset_count →
      Q acc.1 → Q (benchmark_body o P E ci f acc d).1)
    (hs : ∀ st x r, Q st →
      Q (st.map_s (fun s => { s with stonewall_hit := x, repeats := r })))
    (hc : ∀ (st : run_t σ) v a w, Q st →
      Q { st with w := w, g_calls := .allreduce v a :: st.g_calls })
    (h : Q (run_t.init s w)) :
    Q (benchmark_loop o P E s ci w).st := by
  unfold benchmark_loop
  simp only []
  split_ifs
  · exact benchmark_loop_armed_preserves o P E ci Q hbody hs hc _ _ le_rfl h
  · exact benchmark_loop_unarmed_preserves o P E ci Q hbody _ _ le_rfl h

theorem benchmark_wear_out_sync_preserves (o : benchmark_options) (E : md_env σ)
    (Q : run_t σ → Prop)
    (hs : ∀ st x r, Q st →
      Q (st.map_s (fun s => { s with stonewall_hit := x, repeats := r })))
    (hc : ∀ (st : run_t σ) v a w, Q st →
      Q { st with w := w, g_calls := .allreduce v a :: st.g_calls })
    (L : loop_t σ) (h : Q L.st) : Q (benchmark_wear_out_sync o E L).st := by
  unfold benchmark_wear_out_sync
  split_ifs
  · exact hs _ 1 _ (hc _ _ _ _ h)
  · exact h

theorem benchmark_hit_sync_preserves (o : benchmark_options) (E : md_env σ)
    (Q : run_t σ → Prop)
    (hs : ∀ st x r, Q st →
      Q (st.map_s (fun s => { s with stonewall_hit := x, repeats := r })))
    (hc : ∀ (st : run_t σ) v a w, Q st →
      Q { st with w := w, g_calls := .allreduce v a :: st.g_calls })
    (L : loop_t σ) (h : Q L.st) : Q (benchmark_hit_sync o E L).st := by
  unfold benchmark_hit_sync
  split_ifs
  · exact hs _ _ _ (hc _ _ _ _ h)
  · exact h

/-- A property of the run state that every inner iteration keeps, and that
neither the stonewall bookkeeping nor an all-reduce disturbs, holds when
`run_benchmark` returns. The inner iterations are those of an outer index
`f ≥ 0` and a data set index `0 ≤ d < o.dset_count`. -/
theorem run_benchmark_preserves (o : benchmark_options) (P : md_plugin σ)
    (E : md_env σ) (Q : run_t σ → Prop) (s : phase_stat_t) (ci : Int) (w : σ)
    (hbody : ∀ f acc d, 0 ≤ f → 0 ≤ d → d < o.dset_count →
      Q acc.1 → Q (benchmark_body o P E ci f acc d).1)
    (hs : ∀ st x r, Q st →
      Q (st.map_s (fun s => { s with stonewall_hit := x, repeats := r })))
    (hc : ∀ (st : run_t σ) v a w, Q st →
      Q { st with w := w, g_calls := .allreduce v a :: st.g_calls })
    (h : Q (run_t.init s w)) :
    Q (run_benchmark o P E s ci w).st := by
  unfold run_benchmark
  exact hs _ _ _ (benchmark_hit_sync_preserves o E Q hs hc _
    (benchmark_wear_out_sync_preserves o E Q hs hc _
      (benchmark_loop_preserves o P E Q s ci w hbody hs hc h)))

end Preservation

/-! ## Iteration counts of the benchmark loops -/

section LoopFacts
variable {σ : Type}

/-- The unarmed loop runs exactly its `n` iterations. -/
theorem benchmark_loop_unarmed_facts (o : benchmark_options) (P : md_plugin σ)
    (E : md_env σ) (si : Int) (n : Nat) (L : loop_t σ) :
    (benchmark_loop_unarmed o P E si n L).f = L.f + n
    ∧ (benchmark_loop_unarmed o P E si n L).g_iters = L.g_iters + n
    ∧ (benchmark_loop_unarmed o P E si n L).g_broke = L.g_broke
    ∧ (benchmark_loop_unarmed o P E si n L).armed_stone_wall = L.armed_stone_wall
    ∧ (benchmark_loop_unarmed o P E si n L).total_num = L.total_num := by
  induction n generalizing L with
  | zero => simp [benchmark_loop_unarmed]
  | succ n ih =>
    rw [benchmark_loop_unarmed]
    obtain ⟨h1, h2, h3, h4, h5⟩ := ih
      { L with
        st := (benchmark_inner o P E si L.f L.st).1
        f := L.f + 1
        g_iters := L.g_iters + 1 }
    refine ⟨?_, ?_, h3, h4, h5⟩
    · rw [h1]; push_cast; ring
    · rw [h2]; ring

/-- The armed loop: the iterations run are `f` final minus `f` initial, plus
one when the loop was left by `break`; a `break` happens only without wear-out
and leaves `stonewall_hit = 1`; the final `f` stays within the larger of the
loop bound and the bound on the all-reduce. -/
theorem benchmark_loop_armed_facts (o : benchmark_options) (P : md_plugin σ)
    (E : md_env σ) (si : Int) (n : Nat) (L : loop_t σ) (hb : L.g_broke = false) :
    ((benchmark_loop_armed o P E si n L).g_broke = false →
      ((benchmark_loop_armed o P E si n L).g_iters : Int) - L.g_iters
        = (benchmark_loop_armed o P E si n L).f - L.f)
    ∧ ((benchmark_loop_armed o P E si n L).g_broke = true →
        ((benchmark_loop_armed o P E si n L).g_iters : Int) - L.g_iters
          = (benchmark_loop_armed o P E si n L).f - L.f + 1
        ∧ o.stonewall_timer_wear_out = 0
        ∧ (benchmark_loop_armed o P E si n L).st.s.stonewall_hit = 1
        ∧ (benchmark_loop_armed o P E si n L).armed_stone_wall = L.armed_stone_wall)
    ∧ L.f ≤ (benchmark_loop_armed o P E si n L).f
    ∧ (∀ B, allreduce_is_max E B →
        (benchmark_loop_armed o P E si n L).f ≤ max (L.f + n) B) := by
  induction n generalizing L with
  | zero => simp [benchmark_loop_armed, hb]
  | succ n ih =>
    rw [benchmark_loop_armed]
    simp only []
    split_ifs with h1 h2
    · simp
      refine ⟨h2, fun B _ => ?_⟩
      omega
    · have u := fun n L => benchmark_loop_unarmed_facts o P E si n L
      rw [(u _ _).1, (u _ _).2.1, (u _ _).2.2.1]
      refine ⟨fun _ => ?_, by simp, by simp only []; omega, fun B hB => ?_⟩
      · simp only []
        push_cast
        ring
      · have := (hB L.f ((benchmark_inner o P E si L.f L.st).1.map_s
            (fun s => { s with stonewall_hit := 1 })).w).2
        simp only [map_s_w] at this ⊢
        omega
    · obtain ⟨a1, a2, a3, a4⟩ := ih
        { L with st := (benchmark_inner o P E si L.f L.st).1, f := L.f + 1,
                 g_iters := L.g_iters + 1 } hb
      simp only [] at a1 a2 a3 a4
      refine ⟨fun h => ?_, fun h => ⟨?_, (a2 h).2⟩, by omega, fun B hB => ?_⟩
      · have := a1 h
        push_cast at this ⊢
        omega
      · have := (a2 h).1
        push_cast at this ⊢
        omega
      · have := a4 B hB
        push_cast
        omega

end LoopFacts

/-! ## Slots consumed by precreate and cleanup -/

section PhaseSlots
variable {σ : Type}

theorem size_t_mod_pos : 0 < size_t_mod := by unfold size_t_mod; norm_num

/-- A loop whose body consumes `k` slots consumes `k` slots per iteration. -/
theorem foldl_slots {α : Type} (k : Nat) (g : run_t σ → α → run_t σ)
    (hg : ∀ acc x, ((g acc x).pos + 1) % size_t_mod = (acc.pos + 1 + k) % size_t_mod)
    (l : List α) (acc : run_t σ) :
    ((l.foldl g acc).pos + 1) % size_t_mod = (acc.pos + 1 + k * l.length) % size_t_mod := by
  induction l generalizing acc with
  | nil => simp
  | cons x xs ih =>
    rw [List.foldl_cons, ih, List.length_cons, Nat.add_mod, hg, ← Nat.add_mod]
    congr 1
    ring

/-- The same for a loop that may reach `MPI_Abort`: if it was not reached, every
iteration consumed its `k` slots. -/
theorem foldl_slots_guarded {α : Type} (k : Nat) (g : run_t σ → α → run_t σ)
    (hg : ∀ acc x, (g acc x).g_aborted = false → acc.g_aborted = false
      ∧ ((g acc x).pos + 1) % size_t_mod = (acc.pos + 1 + k) % size_t_mod)
    (l : List α) (acc : run_t σ) (h : (l.foldl g acc).g_aborted = false) :
    acc.g_aborted = false
    ∧ ((l.foldl g acc).pos + 1) % size_t_mod
      = (acc.pos + 1 + k * l.length) % size_t_mod := by
  induction l generalizing acc with
  | nil => exact ⟨h, by simp⟩
  | cons x xs ih =>
    rw [List.foldl_cons] at h ⊢
    obtain ⟨h1, h2⟩ := ih _ h
    obtain ⟨h3, h4⟩ := hg _ _ h1
    refine ⟨h3, ?_⟩
    rw [h2, List.length_cons, Nat.add_mod, h4, ← Nat.add_mod]
    congr 1
    ring

theorem precreate_dset_body_pos (o : benchmark_options) (P : md_plugin σ)
    (st : run_t σ) (i : Int) :
    (precreate_dset_body o P st i).pos = st.pos := by
  unfold precreate_dset_body
  simp only []
  split_ifs <;> simp [run_t.abort]

theorem precreate_dset_body_aborted (o : benchmark_options) (P : md_plugin σ)
    (st : run_t σ) (i : Int) (h : (precreate_dset_body o P st i).g_aborted = false) :
    st.g_aborted = false := by
  unfold precreate_dset_body at h
  simp only [] at h
  split_ifs at h <;> simp_all [run_t.abort]

theorem precreate_obj_body_slot (o : benchmark_options) (P : md_plugin σ) (E : md_env σ)
    (f : Int) (st : run_t σ) (d : Int)
    (h : (precreate_obj_body o P E f st d).g_aborted = false) :
    st.g_aborted = false
    ∧ ((precreate_obj_body o P E f st d).pos + 1) % size_t_mod
      = (st.pos + 1 + 1) % size_t_mod := by
  unfold precreate_obj_body at h ⊢
  simp only [] at h ⊢
  split_ifs at h ⊢ <;> simp_all [run_t.abort]

/-- With `ignore_precreate_errors` set, `MPI_Abort` is never reached. -/
theorem precreate_dset_body_no_abort (o : benchmark_options) (P : md_plugin σ)
    (st : run_t σ) (i : Int) (hi : o.ignore_precreate_errors ≠ 0)
    (h : st.g_aborted = false) : (precreate_dset_body o P st i).g_aborted = false := by
  unfold precreate_dset_body
  simp only []
  split_ifs <;> simp_all [run_t.abort]

theorem precreate_obj_body_no_abort (o : benchmark_options) (P : md_plugin σ)
    (E : md_env σ) (f : Int) (st : run_t σ) (d : Int) (hi : o.ignore_precreate_errors ≠ 0)
    (h : st.g_aborted = false) : (precreate_obj_body o P E f st d).g_aborted = false := by
  unfold precreate_obj_body
  simp only []
  split_ifs <;> simp_all [run_t.abort]

theorem run_precreate_no_abort (o : benchmark_options) (P : md_plugin σ) (E : md_env σ)
    (s : phase_stat_t) (w : σ) (hi : o.ignore_precreate_errors ≠ 0) :
    (run_precreate o P E s w).g_aborted = false := by
  unfold run_precreate
  apply foldl_preserves (fun st : run_t σ => st.g_aborted = false)
  · intro acc f hacc
    apply foldl_preserves (fun st : run_t σ => st.g_aborted = false) _ _ _ _ hacc
    intro acc d hacc
    exact precreate_obj_body_no_abort o P E f acc d hi hacc
  · apply foldl_preserves (fun st : run_t σ => st.g_aborted = false)
    · intro acc i hacc
      exact precreate_dset_body_no_abort o P acc i hi hacc
    · rfl

/-- When `run_precreate` returns, `pos + 1` is the product of the two loop
bounds (modulo the range of `size_t`). -/
theorem run_precreate_slots (o : benchmark_options) (P : md_plugin σ) (E : md_env σ)
    (s : phase_stat_t) (w : σ) (h : (run_precreate o P E s w).g_aborted = false) :
    ((run_precreate o P E s w).pos + 1) % size_t_mod
      = (o.dset_count.toNat * o.precreate.toNat) % size_t_mod := by
  unfold run_precreate at h ⊢
  simp only [] at h ⊢
  obtain ⟨h1, h2⟩ := foldl_slots_guarded o.dset_count.toNat
    (fun st f => (int_range o.dset_count).foldl (precreate_obj_body o P E f) st)
    (fun acc f hacc => by
      have := foldl_slots_guarded 1 (precreate_obj_body o P E f)
        (fun acc d hd => precreate_obj_body_slot o P E f acc d hd) (int_range o.dset_count)
        acc hacc
      simpa [int_range_length] using this)
    (int_range o.precreate) _ h
  rw [h2, int_range_length]
  have h3 : ((int_range o.dset_count).foldl (precreate_dset_body o P) (run_t.init s w)).pos
      = size_t_mod - 1 :=
    foldl_preserves (fun st : run_t σ => st.pos = size_t_mod - 1) _
      (fun acc i hacc => by
        show (precreate_dset_body o P acc i).pos = _
        rw [precreate_dset_body_pos]; exact hacc) _ _ rfl
  rw [h3]
  have := size_t_mod_pos
  have e : size_t_mod - 1 + 1 + o.dset_count.toNat * o.precreate.toNat
      = o.dset_count.toNat * o.precreate.toNat + size_t_mod := by omega
  rw [e, Nat.add_mod_right]

theorem cleanup_obj_body_pos (o : benchmark_options) (P : md_plugin σ) (E : md_env σ)
    (si d : Int) (st : run_t σ) (f : Int) :
    ((cleanup_obj_body o P E si d st f).pos + 1) % size_t_mod
      = (st.pos + 1 + 1) % size_t_mod := by
  unfold cleanup_obj_body
  simp only []
  split_ifs <;> simp

theorem cleanup_dset_body_pos (o : benchmark_options) (P : md_plugin σ) (E : md_env σ)
    (si : Int) (st : run_t σ) (d : Int) :
    ((cleanup_dset_body o P E si st d).pos + 1) % size_t_mod
      = (st.pos + 1 + o.precreate.toNat) % size_t_mod := by
  have h := foldl_slots 1 (cleanup_obj_body o P E si d) (cleanup_obj_body_pos o P E si d)
    (int_range o.precreate)
    (plain_op (.def_dset_name o.rank d) (P.def_dset_name o.rank d) st).2
  rw [int_range_length, one_mul] at h
  unfold cleanup_dset_body
  simp only []
  split_ifs <;> simpa using h

/-- When `run_cleanup` returns, `pos + 1` is the product of the two loop bounds
(modulo the range of `size_t`). -/
theorem run_cleanup_slots (o : benchmark_options) (P : md_plugin σ) (E : md_env σ)
    (s : phase_stat_t) (si : Int) (w : σ) :
    ((run_cleanup o P E s si w).pos + 1) % size_t_mod
      = (o.precreate.toNat * o.dset_count.toNat) % size_t_mod := by
  unfold run_cleanup
  rw [foldl_slots o.precreate.toNat _ (cleanup_dset_body_pos o P E si), int_range_length]
  have := size_t_mod_pos
  have e : (run_t.init s w).pos + 1 + o.precreate.toNat * o.dset_count.toNat
      = o.precreate.toNat * o.dset_count.toNat + size_t_mod := by
    show size_t_mod - 1 + 1 + _ = _
    omega
  rw [e, Nat.add_mod_right]

end PhaseSlots

/-! ## The result of `run_benchmark` -/

section BenchmarkResult
variable {σ : Type}

theorem benchmark_loop_slot_inv (o : benchmark_options) (P : md_plugin σ) (E : md_env σ)
    (s : phase_stat_t) (ci : Int) (w : σ) : slot_inv o (benchmark_loop o P E s ci w) := by
  have h0 : slot_inv o
      { st := run_t.init s w, f := 0, total_num := o.num,
        armed_stone_wall := decide (o.stonewall_timer > 0), g_iters := 0,
        g_broke := false } := by
    have := size_t_mod_pos
    show (size_t_mod - 1 + 1) % size_t_mod = _
    rw [Nat.sub_add_cancel this]
    simp
  unfold benchmark_loop
  simp only []
  split_ifs
  · exact benchmark_loop_armed_slot_inv o P E ci _ _ h0
  · exact benchmark_loop_unarmed_slot_inv o P E ci _ _ h0

@[simp] theorem benchmark_wear_out_sync_f (o : benchmark_options) (E : md_env σ)
    (L : loop_t σ) : (benchmark_wear_out_sync o E L).f = L.f := by
  unfold benchmark_wear_out_sync; split_ifs <;> rfl
@[simp] theorem benchmark_wear_out_sync_iters (o : benchmark_options) (E : md_env σ)
    (L : loop_t σ) : (benchmark_wear_out_sync o E L).g_iters = L.g_iters := by
  unfold benchmark_wear_out_sync; split_ifs <;> rfl
@[simp] theorem benchmark_wear_out_sync_broke (o : benchmark_options) (E : md_env σ)
    (L : loop_t σ) : (benchmark_wear_out_sync o E L).g_broke = L.g_broke := by
  unfold benchmark_wear_out_sync; split_ifs <;> rfl
@[simp] theorem benchmark_wear_out_sync_pos (o : benchmark_options) (E : md_env σ)
    (L : loop_t σ) : (benchmark_wear_out_sync o E L).st.pos = L.st.pos := by
  unfold benchmark_wear_out_sync; split_ifs <;> rfl
@[simp] theorem benchmark_hit_sync_f (o : benchmark_options) (E : md_env σ)
    (L : loop_t σ) : (benchmark_hit_sync o E L).f = L.f := by
  unfold benchmark_hit_sync; split_ifs <;> rfl
@[simp] theorem benchmark_hit_sync_iters (o : benchmark_options) (E : md_env σ)
    (L : loop_t σ) : (benchmark_hit_sync o E L).g_iters = L.g_iters := by
  unfold benchmark_hit_sync; split_ifs <;> rfl
@[simp] theorem benchmark_hit_sync_broke (o : benchmark_options) (E : md_env σ)
    (L : loop_t σ) : (benchmark_hit_sync o E L).g_broke = L.g_broke := by
  unfold benchmark_hit_sync; split_ifs <;> rfl
@[simp] theorem benchmark_hit_sync_pos (o : benchmark_options) (E : md_env σ)
    (L : loop_t σ) : (benchmark_hit_sync o E L).st.pos = L.st.pos := by
  unfold benchmark_hit_sync; split_ifs <;> rfl

@[simp] theorem run_benchmark_f (o : benchmark_options) (P : md_plugin σ) (E : md_env σ)
    (s : phase_stat_t) (ci : Int) (w : σ) :
    (run_benchmark o P E s ci w).f = (benchmark_loop o P E s ci w).f := by
  simp [run_benchmark]
@[simp] theorem run_benchmark_iters (o : benchmark_options) (P : md_plugin σ)
    (E : md_env σ) (s : phase_stat_t) (ci : Int) (w : σ) :
    (run_benchmark o P E s ci w).g_iters = (benchmark_loop o P E s ci w).g_iters := by
  simp [run_benchmark]
@[simp] theorem run_benchmark_broke (o : benchmark_options) (P : md_plugin σ)
    (E : md_env σ) (s : phase_stat_t) (ci : Int) (w : σ) :
    (run_benchmark o P E s ci w).g_broke = (benchmark_loop o P E s ci w).g_broke := by
  simp [run_benchmark]
theorem run_benchmark_repeats (o : benchmark_options) (P : md_plugin σ)
    (E : md_env σ) (s : phase_stat_t) (ci : Int) (w : σ) :
    (run_benchmark o P E s ci w).st.s.repeats
      = ((benchmark_loop o P E s ci w).st.pos + 1) % size_t_mod := by
  simp [run_benchmark]
theorem run_benchmark_current_index (o : benchmark_options) (P : md_plugin σ)
    (E : md_env σ) (s : phase_stat_t) (ci : Int) (w : σ) :
    (run_benchmark o P E s ci w).current_index
      = if o.read_only = 0 then ci + (benchmark_loop o P E s ci w).f else ci := by
  simp [run_benchmark]

/-- Facts about the loop of `run_benchmark` as a whole. -/
theorem benchmark_loop_facts (o : benchmark_options) (P : md_plugin σ) (E : md_env σ)
    (s : phase_stat_t) (ci : Int) (w : σ) :
    ((benchmark_loop o P E s ci w).g_broke = false →
      ((benchmark_loop o P E s ci w).g_iters : Int) = (benchmark_loop o P E s ci w).f)
    ∧ ((benchmark_loop o P E s ci w).g_broke = true →
        ((benchmark_loop o P E s ci w).g_iters : Int) = (benchmark_loop o P E s ci w).f + 1
        ∧ o.stonewall_timer_wear_out = 0 ∧ 0 < o.stonewall_timer
        ∧ (benchmark_loop o P E s ci w).st.s.stonewall_hit = 1
        ∧ (benchmark_loop o P E s ci w).armed_stone_wall = true)
    ∧ 0 ≤ (benchmark_loop o P E s ci w).f
    ∧ (∀ B, allreduce_is_max E B →
        (benchmark_loop o P E s ci w).f ≤ max (o.num.toNat : Int) B) := by
  unfold benchmark_loop
  simp only []
  split_ifs with h
  · obtain ⟨a1, a2, a3, a4⟩ := benchmark_loop_armed_facts o P E ci o.num.toNat
      { st := run_t.init s w, f := 0, total_num := o.num,
        armed_stone_wall := decide (o.stonewall_timer > 0), g_iters := 0,
        g_broke := false } rfl
    simp only [] at a1 a2 a3 a4
    refine ⟨fun hb => ?_, fun hb => ?_, a3, fun B hB => ?_⟩
    · have := a1 hb
      push_cast at this
      omega
    · obtain ⟨b1, b2, b3, b4⟩ := a2 hb
      refine ⟨?_, b2, by simpa using h, b3, by rw [b4]; exact h⟩
      push_cast at b1
      omega
    · have := a4 B hB
      simpa using this
  · have u := benchmark_loop_unarmed_facts o P E ci o.num.toNat
      { st := run_t.init s w, f := 0, total_num := o.num,
        armed_stone_wall := decide (o.stonewall_timer > 0), g_iters := 0,
        g_broke := false }
    obtain ⟨u1, u2, u3, -, -⟩ := u
    simp only [] at u1 u2 u3
    rw [u1, u2, u3]
    simp

end BenchmarkResult

/-! ## Latency slot accounting -/

section SlotAccounting
variable {σ : Type}

theorem init_stats_repeats (o : benchmark_options) (n : Int) (h0 : 0 ≤ n) (h1 : n < 2 ^ 64) :
    ((init_stats o n).repeats : Int) = n := by
  unfold init_stats
  simp only [size_t_mod]
  rw [Int.toNat_of_nonneg (Int.emod_nonneg _ (by norm_num))]
  exact Int.emod_eq_of_lt h0 (by simpa using h1)

/-- An `int` product whose exact value is within the range of `int` is that
value. -/
theorem int_mul_eq (a b : Int) (h0 : -(int_max + 1) ≤ a * b) (h1 : a * b ≤ int_max) :
    int_mul a b = a * b := by
  unfold int_mul int_wrap
  unfold int_max at h0 h1
  norm_num
  omega

theorem int_count_mul_lt {a b : Int} (ha : a ≤ int_max) (hb0 : 0 ≤ b)
    (hb : b ≤ int_max + 1) : a * b < 2 ^ 64 := by
  unfold int_max at ha hb
  have : a * b ≤ 2147483647 * (2147483647 + 1) := Int.mul_le_mul ha hb hb0 (by norm_num)
  have e : (2147483647 : Int) * (2147483647 + 1) < 2 ^ 64 := by norm_num
  omega

theorem nat_mod_size_t_cast {a b : Int} (ha0 : 0 ≤ a) (ha : a ≤ int_max) (hb0 : 0 ≤ b)
    (hb : b ≤ int_max + 1) :
    (((a.toNat * b.toNat) % size_t_mod : Nat) : Int) = a * b := by
  have h := int_count_mul_lt ha hb0 hb
  have e : ((a.toNat * b.toNat : Nat) : Int) = a * b := by
    push_cast
    rw [Int.toNat_of_nonneg ha0, Int.toNat_of_nonneg hb0]
  have hlt : a.toNat * b.toNat < size_t_mod := by
    unfold size_t_mod
    have : ((a.toNat * b.toNat : Nat) : Int) < ((2 ^ 64 : Nat) : Int) := by
      rw [e]; simpa using h
    exact_mod_cast this
  rw [Nat.mod_eq_of_lt hlt, e]

/-- Claim C6 as amended (latency slot accounting). For counts within the range
of `int` (the all-reduce a maximum of `int` values), any plug-in and any clock:
when `run_benchmark` returns with `D ≥ 0`,
`repeats = D * (outer iterations whose inner loop was run)`, however the loop
ended, and with `D ≤ 0` (no inner iteration) `repeats = 0`; the slot index
advances exactly once in every inner iteration; `N = 0` gives `repeats = 0`; a
stonewall `break` in the first iteration gives `repeats = D` with
`stonewall_hit` set. For `run_precreate` (when it returns, which it always does
with `ignore_precreate_errors`) and for `run_cleanup`, with `D ≥ 0` and `P ≥ 0`
the slots consumed are `D * P`; this is the value `init_stats` stored in
`repeats` when the `int` product `P * D` of `main` does not overflow. -/
theorem latency_slot_accounting (o : benchmark_options) (P : md_plugin σ) (E : md_env σ)
    (s : phase_stat_t) (ci : Int) (w : σ)
    (hD : o.dset_count ≤ int_max) (hN : o.num ≤ int_max) (hP : o.precreate ≤ int_max)
    (hE : allreduce_is_max E int_max) :
    (0 ≤ o.dset_count →
      ((run_benchmark o P E s ci w).st.s.repeats : Int)
        = o.dset_count * (run_benchmark o P E s ci w).g_iters)
    ∧ (o.dset_count ≤ 0 → (run_benchmark o P E s ci w).st.s.repeats = 0)
    ∧ (∀ f acc d, (benchmark_body o P E ci f acc d).1.pos = (acc.1.pos + 1) % size_t_mod)
    ∧ (o.num = 0 → (run_benchmark o P E s ci w).st.s.repeats = 0)
    ∧ (0 ≤ o.dset_count → (run_benchmark o P E s ci w).g_broke = true →
        (run_benchmark o P E s ci w).g_iters = 1 →
        ((run_benchmark o P E s ci w).st.s.repeats : Int) = o.dset_count
        ∧ (run_benchmark o P E s ci w).st.s.stonewall_hit ≠ 0)
    ∧ (0 ≤ o.dset_count → 0 ≤ o.precreate →
        (run_precreate o P E s w).g_aborted = false →
        ((((run_precreate o P E s w).pos + 1) % size_t_mod : Nat) : Int)
          = o.dset_count * o.precreate
        ∧ (o.precreate * o.dset_count ≤ int_max →
          (((run_precreate o P E s w).pos + 1) % size_t_mod : Nat)
            = (init_stats o (int_mul o.precreate o.dset_count)).repeats))
    ∧ (o.ignore_precreate_errors ≠ 0 → (run_precreate o P E s w).g_aborted = false)
    ∧ (0 ≤ o.dset_count → 0 ≤ o.precreate →
        ∀ si, ((((run_cleanup o P E s si w).pos + 1) % size_t_mod : Nat) : Int)
          = o.dset_count * o.precreate
        ∧ (o.precreate * o.dset_count ≤ int_max →
          (((run_cleanup o P E s si w).pos + 1) % size_t_mod : Nat)
            = (init_stats o (int_mul o.precreate o.dset_count)).repeats)) := by
  obtain ⟨f1, f2, f3, f4⟩ := benchmark_loop_facts o P E s ci w
  have hinv := benchmark_loop_slot_inv o P E s ci w
  unfold slot_inv at hinv
  have hfB := f4 int_max hE
  have hf : (benchmark_loop o P E s ci w).f ≤ int_max := by
    have : (o.num.toNat : Int) ≤ int_max := by unfold int_max at hN ⊢; omega
    omega
  have hit : ((benchmark_loop o P E s ci w).g_iters : Int) ≤ int_max + 1 := by
    rcases hb : (benchmark_loop o P E s ci w).g_broke with _ | _
    · have := f1 hb; omega
    · have := (f2 hb).1; omega
  have hmain : 0 ≤ o.dset_count → ((run_benchmark o P E s ci w).st.s.repeats : Int)
        = o.dset_count * (run_benchmark o P E s ci w).g_iters := by
    intro hD0
    rw [run_benchmark_repeats, run_benchmark_iters, hinv]
    have := nat_mod_size_t_cast hD0 hD (Int.natCast_nonneg _) hit
    simpa using this
  have hPD : 0 ≤ o.dset_count → 0 ≤ o.precreate → o.precreate * o.dset_count ≤ int_max →
      ((init_stats o (int_mul o.precreate o.dset_count)).repeats : Int)
        = o.dset_count * o.precreate := by
    intro hD0 hP0 hov
    have hnn : 0 ≤ o.precreate * o.dset_count := mul_nonneg hP0 hD0
    rw [int_mul_eq _ _ (by unfold int_max; omega) hov,
      init_stats_repeats o _ hnn (by unfold int_max at hov; omega), mul_comm]
  have hDP := fun (hD0 : 0 ≤ o.dset_count) (hP0 : 0 ≤ o.precreate) =>
    nat_mod_size_t_cast hD0 hD hP0 (show o.precreate ≤ int_max + 1 by omega)
  refine ⟨hmain, ?_, benchmark_body_pos o P E ci, ?_, ?_, ?_,
    run_precreate_no_abort o P E s w, ?_⟩
  · intro hD0
    rw [run_benchmark_repeats, hinv, Int.toNat_eq_zero.2 hD0, Nat.zero_mul, Nat.zero_mod]
  · intro h0
    rw [run_benchmark_repeats]
    have : (benchmark_loop o P E s ci w).st.pos = size_t_mod - 1 := by
      unfold benchmark_loop
      simp only [h0]
      split_ifs <;> rfl
    rw [this, Nat.sub_add_cancel size_t_mod_pos, Nat.mod_self]
  · intro hD0 hb h1
    rw [hmain hD0, h1]
    refine ⟨by simp, ?_⟩
    rw [run_benchmark_broke] at hb
    obtain ⟨-, b2, b3, b4, b5⟩ := f2 hb
    have e : (run_benchmark o P E s ci w).st.s.stonewall_hit
        = (E.allreduce_max 1 (benchmark_loop o P E s ci w).st.w).1 := by
      simp [run_benchmark, benchmark_hit_sync, benchmark_wear_out_sync, b2, b4,
        (show o.stonewall_timer ≠ 0 by omega)]
    have := (hE 1 (benchmark_loop o P E s ci w).st.w).1
    omega
  · intro hD0 hP0 ha
    have h := run_precreate_slots o P E s w ha
    constructor
    · rw [h]; exact hDP hD0 hP0
    · intro hov
      have : ((((run_precreate o P E s w).pos + 1) % size_t_mod : Nat) : Int)
          = (((init_stats o (int_mul o.precreate o.dset_count)).repeats : Nat) : Int) := by
        rw [h, hDP hD0 hP0, hPD hD0 hP0 hov]
      exact_mod_cast this
  · intro hD0 hP0 si
    have h := run_cleanup_slots o P E s si w
    rw [Nat.mul_comm] at h
    constructor
    · rw [h]; exact hDP hD0 hP0
    · intro hov
      have : ((((run_cleanup o P E s si w).pos + 1) % size_t_mod : Nat) : Int)
          = (((init_stats o (int_mul o.precreate o.dset_count)).repeats : Nat) : Int) := by
        rw [h, hDP hD0 hP0, hPD hD0 hP0 hov]
      exact_mod_cast this

end SlotAccounting

/-! ## NOOP and the counters -/

section NoopCounting
variable {σ : Type}

theorem noop_precreate_dset (o : benchmark_options) (P : md_plugin σ) (st : run_t σ) (i : Int)
    (h0 : st.g_calls = []) (ds : dset_t)
    (h : md_call.create_dset ds MD_NOOP ∈ (precreate_dset_body o P st i).g_calls) :
    (precreate_dset_body o P st i).s.dset_create = st.s.dset_create := by
  unfold precreate_dset_body at h ⊢
  simp only [] at h ⊢
  split_ifs at h ⊢ <;> simp_all [run_t.abort]

theorem noop_precreate_obj (o : benchmark_options) (P : md_plugin σ) (E : md_env σ)
    (f : Int) (st : run_t σ) (d : Int)
    (h0 : st.g_calls = []) (ds : dset_t) (t : obj_t)
    (h : md_call.write_obj ds t MD_NOOP ∈ (precreate_obj_body o P E f st d).g_calls) :
    (precreate_obj_body o P E f st d).s.obj_create = st.s.obj_create := by
  unfold precreate_obj_body at h ⊢
  simp only [] at h ⊢
  split_ifs at h ⊢ <;> simp_all [run_t.abort]

theorem noop_benchmark_read (o : benchmark_options) (P : md_plugin σ) (E : md_env σ)
    (si f : Int) (acc : run_t σ × Int) (d : Int)
    (h0 : acc.1.g_calls = []) (ds : dset_t) (t : obj_t)
    (h : md_call.read_obj ds t MD_NOOP ∈ (benchmark_body o P E si f acc d).1.g_calls) :
    (benchmark_body o P E si f acc d).1.s.obj_read = acc.1.s.obj_read := by
  unfold benchmark_body at h ⊢
  simp only [] at h ⊢
  split_ifs at h ⊢ <;> simp [h0] at h <;> simp [count_read, ← h.2.2]

theorem noop_benchmark_write (o : benchmark_options) (P : md_plugin σ) (E : md_env σ)
    (si f : Int) (acc : run_t σ × Int) (d : Int)
    (h0 : acc.1.g_calls = []) (ds : dset_t) (t : obj_t)
    (h : md_call.write_obj ds t MD_NOOP ∈ (benchmark_body o P E si f acc d).1.g_calls) :
    (benchmark_body o P E si f acc d).1.s.obj_create = acc.1.s.obj_create := by
  unfold benchmark_body at h ⊢
  simp only [] at h ⊢
  split_ifs at h ⊢
  all_goals simp [h0] at h
  simp [count_write, ← h.2.2]

/-- A `stat_obj` that returns NOOP is counted as a success. -/
theorem noop_benchmark_stat (o : benchmark_options) (P : md_plugin σ) (E : md_env σ)
    (si f : Int) (acc : run_t σ × Int) (d : Int)
    (h0 : acc.1.g_calls = []) (ds : dset_t) (t : obj_t)
    (h : md_call.stat_obj ds t MD_NOOP ∈ (benchmark_body o P E si f acc d).1.g_calls) :
    (benchmark_body o P E si f acc d).1.s.obj_stat
      = ⟨acc.1.s.obj_stat.suc + 1, acc.1.s.obj_stat.err⟩ := by
  unfold benchmark_body at h ⊢
  simp only [] at h ⊢
  split_ifs at h ⊢ with c1 c2
  all_goals simp [h0] at h
  all_goals first
    | (exfalso; exact c2.2 h.2.2.symm)
    | simp [op_stat_t.inc_suc]

theorem noop_cleanup_obj (o : benchmark_options) (P : md_plugin σ) (E : md_env σ)
    (si d : Int) (st : run_t σ) (f : Int)
    (h0 : st.g_calls = []) (ds : dset_t) (t : obj_t)
    (h : md_call.delete_obj ds t MD_NOOP ∈ (cleanup_obj_body o P E si d st f).g_calls) :
    (cleanup_obj_body o P E si d st f).s.obj_delete = st.s.obj_delete := by
  unfold cleanup_obj_body at h ⊢
  simp only [] at h ⊢
  split_ifs at h ⊢ <;> simp_all

theorem cleanup_obj_body_frame (o : benchmark_options) (P : md_plugin σ) (E : md_env σ)
    (si d : Int) (st : run_t σ) (f : Int) :
    (cleanup_obj_body o P E si d st f).s.dset_delete = st.s.dset_delete
    ∧ ((∀ c ∈ st.g_calls, ∀ ds r, c ≠ md_call.rm_dset ds r) →
      ∀ c ∈ (cleanup_obj_body o P E si d st f).g_calls, ∀ ds r, c ≠ md_call.rm_dset ds r) := by
  unfold cleanup_obj_body
  simp only []
  split_ifs <;> simp_all

theorem noop_cleanup_dset (o : benchmark_options) (P : md_plugin σ) (E : md_env σ)
    (si : Int) (st : run_t σ) (d : Int)
    (h0 : st.g_calls = []) (ds : dset_t)
    (h : md_call.rm_dset ds MD_NOOP ∈ (cleanup_dset_body o P E si st d).g_calls) :
    (cleanup_dset_body o P E si st d).s.dset_delete = st.s.dset_delete := by
  have hin := foldl_preserves
    (fun x : run_t σ => x.s.dset_delete = st.s.dset_delete
      ∧ ∀ c ∈ x.g_calls, ∀ ds r, c ≠ md_call.rm_dset ds r)
    (cleanup_obj_body o P E si d)
    (fun acc f hacc => ⟨by rw [(cleanup_obj_body_frame o P E si d acc f).1]; exact hacc.1,
      (cleanup_obj_body_frame o P E si d acc f).2 hacc.2⟩)
    (int_range o.precreate)
    (plain_op (.def_dset_name o.rank d) (P.def_dset_name o.rank d) st).2
    ⟨rfl, by simp [h0]⟩
  obtain ⟨h1, h2⟩ := hin
  unfold cleanup_dset_body at h ⊢
  simp only [] at h ⊢
  split_ifs at h ⊢ with c1 c2
  · simp only [map_s_calls, plain_op_calls, List.mem_cons] at h
    rcases h with h | h
    · simp only [md_call.rm_dset.injEq] at h
      rw [plain_op_fst] at c1
      rw [c1] at h
      exact absurd h.2 (by decide)
    · exact absurd rfl (h2 _ h ds MD_NOOP)
  · simp only [map_s_calls, plain_op_calls, List.mem_cons] at h
    rcases h with h | h
    · simp only [md_call.rm_dset.injEq] at h
      rw [plain_op_fst] at c2
      exact absurd h.2.symm c2
    · exact absurd rfl (h2 _ h ds MD_NOOP)
  · simpa using h1

end NoopCounting

/-! ## The calls `run_benchmark` issues -/

section CallRecord
variable {σ : Type}

/-- The calls of one inner iteration are those of `benchmark_call_ok`. -/
theorem benchmark_body_calls (o : benchmark_options) (P : md_plugin σ) (E : md_env σ)
    (si f : Int) (acc : run_t σ × Int) (d : Int) :
    ∀ c ∈ (benchmark_body o P E si f acc d).1.g_calls,
      c ∈ acc.1.g_calls ∨ benchmark_call_ok o si f d c := by
  intro c hc
  unfold benchmark_body at hc
  simp only [] at hc
  unfold benchmark_call_ok
  split_ifs at hc with c1 c2 c3 c4 <;>
    simp only [map_s_calls, plain_op_calls, timed_op_calls, inc_pos_calls,
      List.mem_cons] at hc
  · rcases hc with h | h
    · exact Or.inr (Or.inl ⟨_, h⟩)
    · exact Or.inl h
  · rcases hc with h | h | h | h
    · exact Or.inr (Or.inr (Or.inr (Or.inl ⟨_, h⟩)))
    · exact Or.inr (Or.inr (Or.inl ⟨_, h⟩))
    · exact Or.inr (Or.inl ⟨_, h⟩)
    · exact Or.inl h
  · rcases hc with h | h | h | h | h
    · exact Or.inr (Or.inr (Or.inr (Or.inr (Or.inl ⟨_, h⟩))))
    · exact Or.inr (Or.inr (Or.inr (Or.inl ⟨_, h⟩)))
    · exact Or.inr (Or.inr (Or.inl ⟨_, h⟩))
    · exact Or.inr (Or.inl ⟨_, h⟩)
    · exact Or.inl h
  · have hro : o.read_only = 0 := not_not.1 c3
    rcases hc with h | h | h | h | h | h | h
    · exact Or.inr (Or.inr (Or.inr (Or.inr (Or.inr ⟨hro, Or.inr (Or.inl ⟨_, h⟩)⟩))))
    · exact Or.inr (Or.inr (Or.inr (Or.inr (Or.inr ⟨hro, Or.inl ⟨_, h⟩⟩))))
    · exact Or.inr (Or.inr (Or.inr (Or.inr (Or.inl ⟨_, h⟩))))
    · exact Or.inr (Or.inr (Or.inr (Or.inl ⟨_, h⟩)))
    · exact Or.inr (Or.inr (Or.inl ⟨_, h⟩))
    · exact Or.inr (Or.inl ⟨_, h⟩)
    · exact Or.inl h
  · have hro : o.read_only = 0 := not_not.1 c3
    rcases hc with h | h | h | h | h | h | h | h | h
    · exact Or.inr (Or.inr (Or.inr (Or.inr (Or.inr
        ⟨hro, Or.inr (Or.inr (Or.inr ⟨_, h⟩))⟩))))
    · exact Or.inr (Or.inr (Or.inr (Or.inr (Or.inr
        ⟨hro, Or.inr (Or.inr (Or.inl ⟨_, h⟩))⟩))))
    · exact Or.inr (Or.inr (Or.inr (Or.inr (Or.inr ⟨hro, Or.inr (Or.inl ⟨_, h⟩)⟩))))
    · exact Or.inr (Or.inr (Or.inr (Or.inr (Or.inr ⟨hro, Or.inl ⟨_, h⟩⟩))))
    · exact Or.inr (Or.inr (Or.inr (Or.inr (Or.inl ⟨_, h⟩))))
    · exact Or.inr (Or.inr (Or.inr (Or.inl ⟨_, h⟩)))
    · exact Or.inr (Or.inr (Or.inl ⟨_, h⟩))
    · exact Or.inr (Or.inl ⟨_, h⟩)
    · exact Or.inl h

/-- Every call `run_benchmark` records is an all-reduce or a call of an inner
iteration. -/
theorem run_benchmark_calls (o : benchmark_options) (P : md_plugin σ) (E : md_env σ)
    (s : phase_stat_t) (ci : Int) (w : σ) :
    benchmark_calls_ok o ci (run_benchmark o P E s ci w).st := by
  apply run_benchmark_preserves o P E (benchmark_calls_ok o ci)
  · intro f acc d hf hd0 hd1 hacc c hc
    rcases benchmark_body_calls o P E ci f acc d c hc with h | h
    · exact hacc c h
    · exact Or.inr ⟨f, d, hf, hd0, hd1, h⟩
  · intro st x r hst
    exact hst
  · intro st v a w hst c hc
    simp only [List.mem_cons] at hc
    rcases hc with h | h
    · exact Or.inl ⟨v, a, h⟩
    · exact hst c h
  · intro c hc
    simp [run_t.init] at hc

end CallRecord

/-! ## Read-only benchmark -/

section ReadOnly
variable {σ : Type}

theorem benchmark_body_read_only_frame (o : benchmark_options) (P : md_plugin σ)
    (E : md_env σ) (si f : Int) (acc : run_t σ × Int) (d : Int) (hro : o.read_only ≠ 0) :
    (benchmark_body o P E si f acc d).1.s.obj_delete = acc.1.s.obj_delete
    ∧ (benchmark_body o P E si f acc d).1.s.obj_create = acc.1.s.obj_create := by
  unfold benchmark_body
  simp only []
  split_ifs <;> simp

theorem run_benchmark_read_only_frame (o : benchmark_options) (P : md_plugin σ)
    (E : md_env σ) (s : phase_stat_t) (ci : Int) (w : σ) (hro : o.read_only ≠ 0) :
    (run_benchmark o P E s ci w).st.s.obj_delete = s.obj_delete
    ∧ (run_benchmark o P E s ci w).st.s.obj_create = s.obj_create := by
  apply run_benchmark_preserves o P E
    (fun st => st.s.obj_delete = s.obj_delete ∧ st.s.obj_create = s.obj_create)
  · intro f acc d _ _ _ hacc
    obtain ⟨h1, h2⟩ := benchmark_body_read_only_frame o P E ci f acc d hro
    exact ⟨h1.trans hacc.1, h2.trans hacc.2⟩
  · intro st x r hst
    exact hst
  · intro st v a w hst
    exact hst
  · exact ⟨rfl, rfl⟩

/-- The driver loop under read-only: every iteration starts from the same
rolling base. -/
theorem main_benchmark_read_only (o : benchmark_options) (P : md_plugin σ) (E : md_env σ)
    (end_phase : phase_stat_t → σ → σ) (n : Nat) (ci : Int) (w : σ)
    (hro : o.read_only ≠ 0) :
    (main_benchmark o P E end_phase n ci w).2.1 = ci
    ∧ ∀ e ∈ (main_benchmark o P E end_phase n ci w).1,
        e.1 = ci ∧ benchmark_calls_ok o ci e.2.st
        ∧ e.2.st.s.obj_delete = ⟨0, 0⟩ ∧ e.2.st.s.obj_create = ⟨0, 0⟩ := by
  induction n with
  | zero => simp [main_benchmark]
  | succ n ih =>
    obtain ⟨h1, h2⟩ := ih
    rw [main_benchmark]
    simp only []
    refine ⟨?_, ?_⟩
    · rw [run_benchmark_current_index, if_neg hro, h1]
    · intro e he
      simp only [List.mem_cons] at he
      rcases he with rfl | he
      · simp only []
        rw [h1]
        refine ⟨rfl, run_benchmark_calls _ _ _ _ _ _, ?_⟩
        exact run_benchmark_read_only_frame o P E _ ci _ hro
      · exact h2 e he

/-- Claim C9 (read-only benchmark). With `read_only` set, for any plug-in, clock
and collective: `run_benchmark` issues no `delete_obj` and no `write_obj`,
leaves the counters `obj_delete` and `obj_create` as they were (at `(0, 0)` after
`init_stats`), and leaves `*current_index_p` unchanged; so every iteration of
the benchmark loop of `main` starts from the same rolling base, and each
`stat_obj` or `read_obj` of each iteration addresses an object
`(readRank d, d, f + start_index)` with `f ≥ 0` and `0 ≤ d < D`. -/
theorem read_only_benchmark (o : benchmark_options) (P : md_plugin σ) (E : md_env σ)
    (s : phase_stat_t) (ci : Int) (w : σ) (hro : o.read_only ≠ 0) :
    (∀ c ∈ (run_benchmark o P E s ci w).st.g_calls, ∀ ds t r,
        c ≠ md_call.delete_obj ds t r ∧ c ≠ md_call.write_obj ds t r)
    ∧ (run_benchmark o P E s ci w).st.s.obj_delete = s.obj_delete
    ∧ (run_benchmark o P E s ci w).st.s.obj_create = s.obj_create
    ∧ (run_benchmark o P E (init_stats o (int_mul o.num o.dset_count)) ci w).st.s.obj_delete = ⟨0, 0⟩
    ∧ (run_benchmark o P E (init_stats o (int_mul o.num o.dset_count)) ci w).st.s.obj_create = ⟨0, 0⟩
    ∧ (run_benchmark o P E s ci w).current_index = ci
    ∧ (∀ (end_phase : phase_stat_t → σ → σ) (n : Nat),
        (main_benchmark o P E end_phase n ci w).2.1 = ci
        ∧ ∀ e ∈ (main_benchmark o P E end_phase n ci w).1, e.1 = ci
          ∧ e.2.st.s.obj_delete = ⟨0, 0⟩
          ∧ ∀ c ∈ e.2.st.g_calls, ∀ ds t r,
              (c = md_call.stat_obj ds t r ∨ c = md_call.read_obj ds t r) →
              ∃ f d, 0 ≤ f ∧ 0 ≤ d ∧ d < o.dset_count
                ∧ t = (readRank o d, d, f + ci)) := by
  have hcalls := run_benchmark_calls o P E s ci w
  have hfr := run_benchmark_read_only_frame o P E s ci w hro
  have hfr0 := run_benchmark_read_only_frame o P E (init_stats o (int_mul o.num o.dset_count)) ci w hro
  refine ⟨?_, hfr.1, hfr.2, hfr0.1, hfr0.2, ?_, ?_⟩
  · intro c hc ds t r
    rcases hcalls c hc with ⟨v, a, rfl⟩ | ⟨f, d, -, -, -, h⟩
    · exact ⟨by simp, by simp⟩
    · unfold benchmark_call_ok at h
      rcases h with ⟨r', rfl⟩ | ⟨r', rfl⟩ | ⟨r', rfl⟩ | ⟨r', rfl⟩ | ⟨h0, -⟩
      · exact ⟨by simp, by simp⟩
      · exact ⟨by simp, by simp⟩
      · exact ⟨by simp, by simp⟩
      · exact ⟨by simp, by simp⟩
      · exact absurd h0 hro
  · rw [run_benchmark_current_index, if_neg hro]
  · intro end_phase n
    obtain ⟨h1, h2⟩ := main_benchmark_read_only o P E end_phase n ci w hro
    refine ⟨h1, fun e he => ?_⟩
    obtain ⟨e1, e2, e3, -⟩ := h2 e he
    refine ⟨e1, e3, ?_⟩
    intro c hc ds t r hcr
    rcases e2 c hc with ⟨v, a, rfl⟩ | ⟨f, d, hf, hd0, hd1, h⟩
    · rcases hcr with h | h <;> simp at h
    · refine ⟨f, d, hf, hd0, hd1, ?_⟩
      unfold benchmark_call_ok at h
      rcases h with ⟨r', rfl⟩ | ⟨r', rfl⟩ | ⟨r', rfl⟩ | ⟨r', rfl⟩ | ⟨h0, -⟩
      · rcases hcr with h | h <;> simp at h
      · rcases hcr with h | h <;> simp at h
      · rcases hcr with h | h
        · simp only [md_call.stat_obj.injEq] at h
          exact h.2.1.symm
        · simp at h
      · rcases hcr with h | h
        · simp at h
        · simp only [md_call.read_obj.injEq] at h
          exact h.2.1.symm
      · exact absurd h0 hro

end ReadOnly

/-! ## Peer routing is collision-free -/

section PeerRouting
variable {σ : Type}

end PeerRouting

section PeerRoutingClaim

end PeerRoutingClaim

/-! ## The benchmark on the set backend -/

section SetBackend
variable {σ : Type}

end SetBackend

/-! ## Lists of peer tasks -/

section PeerTasks

theorem int_range_nodup (n : Int) : (int_range n).Nodup := by
  unfold int_range
  exact (List.nodup_range _).map (fun a b h => by simpa using h)

end PeerTasks

/-! ## The cohort shifts the live set -/

section CohortShift

end CohortShift

/-! ## Peer symmetry -/

section PeerSymmetry

end PeerSymmetry

/-! ## Rolling base and wear-out -/

section RollingBase
variable {σ : Type}

/-- What `run_benchmark` adds to `*current_index_p` when not read-only: the
number of outer iterations run, less one when the loop was left by `break`. -/
theorem run_benchmark_advance (o : benchmark_options) (P : md_plugin σ) (E : md_env σ)
    (s : phase_stat_t) (ci : Int) (w : σ) (hro : o.read_only = 0) :
    ((run_benchmark o P E s ci w).g_broke = false →
      (run_benchmark o P E s ci w).current_index
        = ci + (run_benchmark o P E s ci w).g_iters)
    ∧ ((run_benchmark o P E s ci w).g_broke = true →
      (run_benchmark o P E s ci w).current_index
        = ci + (run_benchmark o P E s ci w).g_iters - 1) := by
  obtain ⟨f1, f2, -, -⟩ := benchmark_loop_facts o P E s ci w
  rw [run_benchmark_current_index, if_pos hro, run_benchmark_broke, run_benchmark_iters]
  constructor
  · intro hb
    rw [f1 hb]
  · intro hb
    rw [(f2 hb).1]
    ring

/-- The armed loop under wear-out. Either the deadline was never crossed and
the loop ran its `n` iterations, or it was crossed at some index `fw`: then
`total_num` is what the all-reduce returned for the contribution `fw`, and the
loop ended with `f` the larger of `fw + 1` and `total_num`, having run that
many iterations counted from 0. -/
theorem benchmark_loop_armed_wear_out (o : benchmark_options) (P : md_plugin σ)
    (E : md_env σ) (si : Int) (n : Nat) (L : loop_t σ)
    (hwo : o.stonewall_timer_wear_out ≠ 0) :
    ((benchmark_loop_armed o P E si n L).armed_stone_wall = L.armed_stone_wall
      ∧ (benchmark_loop_armed o P E si n L).f = L.f + n
      ∧ (benchmark_loop_armed o P E si n L).g_iters = L.g_iters + n
      ∧ (benchmark_loop_armed o P E si n L).total_num = L.total_num)
    ∨ ((benchmark_loop_armed o P E si n L).armed_stone_wall = false
      ∧ ∃ fw w', L.f ≤ fw ∧ fw < L.f + n
        ∧ (benchmark_loop_armed o P E si n L).total_num = (E.allreduce_max fw w').1
        ∧ (benchmark_loop_armed o P E si n L).f
            = max (fw + 1) (benchmark_loop_armed o P E si n L).total_num
        ∧ ((benchmark_loop_armed o P E si n L).g_iters : Int)
            = L.g_iters + ((benchmark_loop_armed o P E si n L).f - L.f)) := by
  induction n generalizing L with
  | zero => left; simp [benchmark_loop_armed]
  | succ n ih =>
    rw [benchmark_loop_armed]
    simp only []
    split_ifs with h1
    · right
      have u := fun n L => benchmark_loop_unarmed_facts o P E si n L
      rw [(u _ _).1, (u _ _).2.1, (u _ _).2.2.2.1, (u _ _).2.2.2.2]
      refine ⟨rfl, L.f, _, le_rfl, by push_cast; omega, rfl, ?_, ?_⟩
      · simp only []
        omega
      · simp only []
        push_cast
        omega
    · rcases ih { L with st := (benchmark_inner o P E si L.f L.st).1, f := L.f + 1,
                         g_iters := L.g_iters + 1 } with ⟨a1, a2, a3, a4⟩ | ⟨a1, fw, w', b1, b2, b3, b4, b5⟩
      · left
        simp only [] at a1 a2 a3 a4
        refine ⟨a1, ?_, ?_, a4⟩
        · rw [a2]; push_cast; ring
        · rw [a3]; ring
      · right
        simp only [] at b1 b2 b5
        refine ⟨a1, fw, w', by omega, by push_cast; omega, b3, b4, ?_⟩
        rw [b5]
        push_cast
        ring

/-- Wear-out, for a whole run with a stonewall timer: a worker that crossed
the deadline at index `fw` and received `total_num` (at least `fw`, the
all-reduce being a maximum) runs `total_num` outer iterations when
`fw < total_num`, and `total_num + 1` when its own `fw` is the maximum. A
worker that never crossed runs its `o.num` iterations. -/
theorem wear_out_iteration_count (o : benchmark_options) (P : md_plugin σ) (E : md_env σ)
    (s : phase_stat_t) (ci : Int) (w : σ) (B : Int)
    (hsw : 0 < o.stonewall_timer) (hwo : o.stonewall_timer_wear_out ≠ 0)
    (hN : 0 ≤ o.num) (hE : allreduce_is_max E B) :
    ((run_benchmark o P E s ci w).g_iters = o.num.toNat
      ∧ o.num ≤ (run_benchmark o P E s ci w).total_num)
    ∨ (∃ fw, 0 ≤ fw ∧ fw < o.num ∧ fw ≤ (run_benchmark o P E s ci w).total_num
      ∧ (fw < (run_benchmark o P E s ci w).total_num →
          ((run_benchmark o P E s ci w).g_iters : Int)
            = (run_benchmark o P E s ci w).total_num)
      ∧ (fw = (run_benchmark o P E s ci w).total_num →
          ((run_benchmark o P E s ci w).g_iters : Int)
            = (run_benchmark o P E s ci w).total_num + 1)) := by
  have hl : benchmark_loop o P E s ci w
      = benchmark_loop_armed o P E ci o.num.toNat
        { st := run_t.init s w, f := 0, total_num := o.num,
          armed_stone_wall := decide (o.stonewall_timer > 0), g_iters := 0,
          g_broke := false } := by
    unfold benchmark_loop
    simp [hsw]
  have ht : (run_benchmark o P E s ci w).total_num
      = (benchmark_wear_out_sync o E (benchmark_loop o P E s ci w)).total_num := by
    simp [run_benchmark, benchmark_hit_sync, hwo]
  rw [run_benchmark_iters, ht]
  rcases benchmark_loop_armed_wear_out o P E ci o.num.toNat
      { st := run_t.init s w, f := 0, total_num := o.num,
        armed_stone_wall := decide (o.stonewall_timer > 0), g_iters := 0,
        g_broke := false } hwo with ⟨a1, a2, a3, a4⟩ | ⟨a1, fw, w', b1, b2, b3, b4, b5⟩
  · left
    rw [← hl] at a1 a2 a3 a4
    simp only [] at a1 a2 a3 a4
    refine ⟨by rw [a3]; simp, ?_⟩
    have harm : (benchmark_loop o P E s ci w).armed_stone_wall = true := by
      rw [a1]; simpa using hsw
    unfold benchmark_wear_out_sync
    rw [if_pos ⟨harm, hwo⟩]
    simp only []
    rw [a4]
    exact (hE _ _).1
  · right
    rw [← hl] at a1 b3 b4 b5
    simp only [] at b1 b2 b5
    have hsync : benchmark_wear_out_sync o E (benchmark_loop o P E s ci w)
        = benchmark_loop o P E s ci w := by
      unfold benchmark_wear_out_sync
      simp [a1]
    rw [hsync]
    have hge : fw ≤ (benchmark_loop o P E s ci w).total_num := by
      rw [b3]; exact (hE _ _).1
    refine ⟨fw, b1, by omega, hge, fun hlt => ?_, fun heq => ?_⟩
    · rw [b5, b4]
      simp only [Nat.cast_zero]
      omega
    · rw [b5, b4]
      simp only [Nat.cast_zero]
      omega

end RollingBase

/-! ## Counting of the benchmark delete -/

section DeleteCount
variable {σ : Type}

/-- In an inner iteration of `run_benchmark` that reaches the delete, the
counter `obj_delete` is advanced by the result of `read_obj`, whatever
`delete_obj` returned. -/
theorem benchmark_body_delete_count (o : benchmark_options) (P : md_plugin σ)
    (E : md_env σ) (si f : Int) (acc : run_t σ × Int) (d : Int)
    (h0 : acc.1.g_calls = []) (ds ds' : dset_t) (t t' : obj_t) (rr rd : md_ret)
    (hr : md_call.read_obj ds t rr ∈ (benchmark_body o P E si f acc d).1.g_calls)
    (hd : md_call.delete_obj ds' t' rd ∈ (benchmark_body o P E si f acc d).1.g_calls) :
    (benchmark_body o P E si f acc d).1.s.obj_delete = count_delete rr acc.1.s.obj_delete := by
  unfold benchmark_body at hr hd ⊢
  simp only [] at hr hd ⊢
  split_ifs at hr hd ⊢ <;> simp [h0] at hr hd <;> simp [← hr.2.2]

end DeleteCount

/-! ## Routing, counters, stonewall and validation -/

section Claims

/-- Claim C4, the code at the failing input. In an inner iteration of
`run_benchmark` whose `stat_obj` returns NOOP, the success counter
`obj_stat.suc` goes from 0 to 1: the NOOP is counted as a success. -/
theorem noop_stat_is_counted :
    md_call.stat_obj (0, 0) (0, 0, 0) MD_NOOP
      ∈ (benchmark_body (small_options 0 1 1 4 2)
          (fixed_plugin Int MD_NOOP MD_SUCCESS MD_SUCCESS MD_SUCCESS) (clock_env 1 0) 0 0
          (run_t.init (init_stats (small_options 0 1 1 4 2) 2) 0, 0) 0).1.g_calls
    ∧ (run_t.init (init_stats (small_options 0 1 1 4 2) 2) (0 : Int)).s.obj_stat = ⟨0, 0⟩
    ∧ (benchmark_body (small_options 0 1 1 4 2)
          (fixed_plugin Int MD_NOOP MD_SUCCESS MD_SUCCESS MD_SUCCESS) (clock_env 1 0) 0 0
          (run_t.init (init_stats (small_options 0 1 1 4 2) 2) 0, 0) 0).1.s.obj_stat
        = ⟨1, 0⟩ := by
  decide

/-- NOOP and the counters, operation by operation. When the call returns NOOP,
neither counter of the operation changes for `create_dset` and `write_obj` in
`run_precreate`, for `read_obj` and `write_obj` in `run_benchmark`, and for
`delete_obj` and `rm_dset` in `run_cleanup`; only a `stat_obj` of
`run_benchmark` that returns NOOP is counted, as a success (`obj_stat.suc` is
incremented, `obj_stat.err` is unchanged). Each statement is about one run of
the loop body started with an empty call record, so the recorded call is the
one of this iteration. -/
theorem noop_counting {σ : Type} (o : benchmark_options) (P : md_plugin σ) (E : md_env σ) :
    (∀ (st : run_t σ) (i : Int) (ds : dset_t), st.g_calls = [] →
      md_call.create_dset ds MD_NOOP ∈ (precreate_dset_body o P st i).g_calls →
      (precreate_dset_body o P st i).s.dset_create = st.s.dset_create)
    ∧ (∀ (f : Int) (st : run_t σ) (d : Int) (ds : dset_t) (t : obj_t), st.g_calls = [] →
      md_call.write_obj ds t MD_NOOP ∈ (precreate_obj_body o P E f st d).g_calls →
      (precreate_obj_body o P E f st d).s.obj_create = st.s.obj_create)
    ∧ (∀ (si f : Int) (acc : run_t σ × Int) (d : Int) (ds : dset_t) (t : obj_t),
      acc.1.g_calls = [] →
      md_call.read_obj ds t MD_NOOP ∈ (benchmark_body o P E si f acc d).1.g_calls →
      (benchmark_body o P E si f acc d).1.s.obj_read = acc.1.s.obj_read)
    ∧ (∀ (si f : Int) (acc : run_t σ × Int) (d : Int) (ds : dset_t) (t : obj_t),
      acc.1.g_calls = [] →
      md_call.write_obj ds t MD_NOOP ∈ (benchmark_body o P E si f acc d).1.g_calls →
      (benchmark_body o P E si f acc d).1.s.obj_create = acc.1.s.obj_create)
    ∧ (∀ (si f : Int) (acc : run_t σ × Int) (d : Int) (ds : dset_t) (t : obj_t),
      acc.1.g_calls = [] →
      md_call.stat_obj ds t MD_NOOP ∈ (benchmark_body o P E si f acc d).1.g_calls →
      (benchmark_body o P E si f acc d).1.s.obj_stat
        = ⟨acc.1.s.obj_stat.suc + 1, acc.1.s.obj_stat.err⟩)
    ∧ (∀ (si d : Int) (st : run_t σ) (f : Int) (ds : dset_t) (t : obj_t), st.g_calls = [] →
      md_call.delete_obj ds t MD_NOOP ∈ (cleanup_obj_body o P E si d st f).g_calls →
      (cleanup_obj_body o P E si d st f).s.obj_delete = st.s.obj_delete)
    ∧ (∀ (si : Int) (st : run_t σ) (d : Int) (ds : dset_t), st.g_calls = [] →
      md_call.rm_dset ds MD_NOOP ∈ (cleanup_dset_body o P E si st d).g_calls →
      (cleanup_dset_body o P E si st d).s.dset_delete = st.s.dset_delete) :=
  ⟨fun st i ds h0 h => noop_precreate_dset o P st i h0 ds h,
    fun f st d ds t h0 h => noop_precreate_obj o P E f st d h0 ds t h,
    fun si f acc d ds t h0 h => noop_benchmark_read o P E si f acc d h0 ds t h,
    fun si f acc d ds t h0 h => noop_benchmark_write o P E si f acc d h0 ds t h,
    fun si f acc d ds t h0 h => noop_benchmark_stat o P E si f acc d h0 ds t h,
    fun si d st f ds t h0 h => noop_cleanup_obj o P E si d st f h0 ds t h,
    fun si st d ds h0 h => noop_cleanup_dset o P E si st d h0 ds h⟩

/-- An instance of `noop_counting`: an inner iteration of `run_benchmark` whose
`write_obj` returns NOOP leaves `obj_create` alone. -/
theorem noop_counting_witness :
    md_call.write_obj (0, 0) (0, 0, 4) MD_NOOP
      ∈ (benchmark_body (small_options 0 1 1 4 2)
          (fixed_plugin Int MD_SUCCESS MD_SUCCESS MD_SUCCESS MD_NOOP) (clock_env 1 0) 0 0
          (run_t.init (init_stats (small_options 0 1 1 4 2) 2) 0, 0) 0).1.g_calls
    ∧ (benchmark_body (small_options 0 1 1 4 2)
          (fixed_plugin Int MD_SUCCESS MD_SUCCESS MD_SUCCESS MD_NOOP) (clock_env 1 0) 0 0
          (run_t.init (init_stats (small_options 0 1 1 4 2) 2) 0, 0) 0).1.s.obj_create
        = (run_t.init (init_stats (small_options 0 1 1 4 2) 2) (0 : Int)).s.obj_create :=
  ⟨by decide,
    (noop_counting (small_options 0 1 1 4 2)
      (fixed_plugin Int MD_SUCCESS MD_SUCCESS MD_SUCCESS MD_NOOP) (clock_env 1 0)).2.2.2.1
      0 0 (run_t.init
      (init_stats (small_options 0 1 1 4 2) 2) 0, 0) 0 (0, 0) (0, 0, 4) rfl (by decide)⟩

/-- Claim C5, the code at the failing inputs. One inner iteration with read-only
off. When `read_obj` returns OK and `delete_obj` returns an error, the delete
is counted as a success (`obj_delete = (1, 0)`); when `read_obj` returns an
error and `delete_obj` returns OK, the delete is counted as an error
(`obj_delete = (0, 1)`). -/
theorem benchmark_delete_counted_from_read :
    md_call.delete_obj (0, 0) (0, 0, 0) MD_ERROR
      ∈ (run_benchmark (small_options 0 1 1 4 1)
          (fixed_plugin Int MD_SUCCESS MD_SUCCESS MD_ERROR MD_SUCCESS) (clock_env 1 0)
          (init_stats (small_options 0 1 1 4 1) 1) 0 0).st.g_calls
    ∧ (run_benchmark (small_options 0 1 1 4 1)
          (fixed_plugin Int MD_SUCCESS MD_SUCCESS MD_ERROR MD_SUCCESS) (clock_env 1 0)
          (init_stats (small_options 0 1 1 4 1) 1) 0 0).st.s.obj_delete = ⟨1, 0⟩
    ∧ md_call.delete_obj (0, 0) (0, 0, 0) MD_SUCCESS
      ∈ (run_benchmark (small_options 0 1 1 4 1)
          (fixed_plugin Int MD_SUCCESS MD_ERROR MD_SUCCESS MD_SUCCESS) (clock_env 1 0)
          (init_stats (small_options 0 1 1 4 1) 1) 0 0).st.g_calls
    ∧ (run_benchmark (small_options 0 1 1 4 1)
          (fixed_plugin Int MD_SUCCESS MD_ERROR MD_SUCCESS MD_SUCCESS) (clock_env 1 0)
          (init_stats (small_options 0 1 1 4 1) 1) 0 0).st.s.obj_delete = ⟨0, 1⟩ := by
  decide

/-- The all-reduce of `clock_env` is a maximum. -/
theorem clock_env_is_max (step other B : Int) (h : other ≤ B) :
    allreduce_is_max (clock_env step other) B := by
  intro v w
  simp only [clock_env]
  omega

/-- Counterexample to C6 as stated. With `D = -1` and `N = 2` the inner loop
runs no iteration in either of the two outer iterations, so `repeats = 0`, not
`D * 2 = -2`. With `D = P = -1`, `run_cleanup` consumes no slot, but
`D * P = 1` is what `init_stats` stored in `repeats`. With `D = P = 65536` the
`int` product of `main` overflows: `init_stats` stored 0, and `run_cleanup`
consumes `2 ^ 32` slots. -/
theorem negative_dset_count_breaks_accounting :
    (run_benchmark (small_options 0 1 (-1) 4 2)
        (fixed_plugin Int MD_SUCCESS MD_SUCCESS MD_SUCCESS MD_SUCCESS) (clock_env 1 0)
        (init_stats (small_options 0 1 (-1) 4 2) (int_mul 2 (-1))) 0 0).g_iters = 2
    ∧ (run_benchmark (small_options 0 1 (-1) 4 2)
        (fixed_plugin Int MD_SUCCESS MD_SUCCESS MD_SUCCESS MD_SUCCESS) (clock_env 1 0)
        (init_stats (small_options 0 1 (-1) 4 2) (int_mul 2 (-1))) 0 0).st.s.repeats = 0
    ∧ (small_options 0 1 (-1) 4 2).dset_count * 2 = -2
    ∧ ((run_cleanup (small_options 0 1 (-1) (-1) 2)
        (fixed_plugin Int MD_SUCCESS MD_SUCCESS MD_SUCCESS MD_SUCCESS) (clock_env 1 0)
        (init_stats (small_options 0 1 (-1) (-1) 2) (int_mul (-1) (-1))) 0 0).pos + 1)
          % size_t_mod = 0
    ∧ (small_options 0 1 (-1) (-1) 2).dset_count * (small_options 0 1 (-1) (-1) 2).precreate = 1
    ∧ (init_stats (small_options 0 1 (-1) (-1) 2) (int_mul (-1) (-1))).repeats = 1
    ∧ (init_stats (small_options 0 1 65536 65536 2) (int_mul 65536 65536)).repeats = 0
    ∧ ((run_cleanup (small_options 0 1 65536 65536 2)
        (fixed_plugin Int MD_SUCCESS MD_SUCCESS MD_SUCCESS MD_SUCCESS) (clock_env 1 0)
        (init_stats (small_options 0 1 65536 65536 2) (int_mul 65536 65536)) 0 0).pos + 1)
          % size_t_mod = 4294967296 := by
  refine ⟨by decide, by decide, by decide, by decide, by decide, by decide, by decide, ?_⟩
  rw [run_cleanup_slots]
  decide

/-- Witness of C6 as amended: one worker, three data sets, a stonewall of one
second that is crossed in the first iteration: `repeats = 3`. -/
theorem latency_slot_accounting_witness :
    allreduce_is_max (clock_env ticks_per_second 0) int_max
    ∧ (run_benchmark { small_options 0 1 3 4 2 with stonewall_timer := 1 }
        (fixed_plugin Int MD_SUCCESS MD_SUCCESS MD_SUCCESS MD_SUCCESS)
        (clock_env ticks_per_second 0)
        (init_stats { small_options 0 1 3 4 2 with stonewall_timer := 1 } 6) 0 0).g_broke = true
    ∧ (run_benchmark { small_options 0 1 3 4 2 with stonewall_timer := 1 }
        (fixed_plugin Int MD_SUCCESS MD_SUCCESS MD_SUCCESS MD_SUCCESS)
        (clock_env ticks_per_second 0)
        (init_stats { small_options 0 1 3 4 2 with stonewall_timer := 1 } 6) 0 0).g_iters = 1
    ∧ ((run_benchmark { small_options 0 1 3 4 2 with stonewall_timer := 1 }
        (fixed_plugin Int MD_SUCCESS MD_SUCCESS MD_SUCCESS MD_SUCCESS)
        (clock_env ticks_per_second 0)
        (init_stats { small_options 0 1 3 4 2 with stonewall_timer := 1 } 6) 0 0).st.s.repeats
          : Int) = 3 :=
  ⟨clock_env_is_max _ _ _ (by decide), by decide, by decide,
    ((latency_slot_accounting { small_options 0 1 3 4 2 with stonewall_timer := 1 }
      (fixed_plugin Int MD_SUCCESS MD_SUCCESS MD_SUCCESS MD_SUCCESS)
      (clock_env ticks_per_second 0)
      (init_stats { small_options 0 1 3 4 2 with stonewall_timer := 1 } 6) 0 0
      (by decide) (by decide) (by decide)
      (clock_env_is_max _ _ _ (by decide))).2.2.2.2.1 (by decide) (by decide) (by decide)).1⟩

/-- Claim C7, the code at the failing input. One worker, one data set, a
stonewall of one second without wear-out, crossed in the first iteration: the
loop is left by `break` after one complete outer iteration (object 0 has been
deleted), and `*current_index_p` is still 0. -/
theorem rolling_base_break_off_by_one :
    (run_benchmark { small_options 0 1 1 4 2 with stonewall_timer := 1 }
        (fixed_plugin Int MD_SUCCESS MD_SUCCESS MD_SUCCESS MD_SUCCESS)
        (clock_env ticks_per_second 0)
        (init_stats { small_options 0 1 1 4 2 with stonewall_timer := 1 } 2) 0 0).g_broke = true
    ∧ (run_benchmark { small_options 0 1 1 4 2 with stonewall_timer := 1 }
        (fixed_plugin Int MD_SUCCESS MD_SUCCESS MD_SUCCESS MD_SUCCESS)
        (clock_env ticks_per_second 0)
        (init_stats { small_options 0 1 1 4 2 with stonewall_timer := 1 } 2) 0 0).g_iters = 1
    ∧ (run_benchmark { small_options 0 1 1 4 2 with stonewall_timer := 1 }
        (fixed_plugin Int MD_SUCCESS MD_SUCCESS MD_SUCCESS MD_SUCCESS)
        (clock_env ticks_per_second 0)
        (init_stats { small_options 0 1 1 4 2 with stonewall_timer := 1 } 2) 0 0).current_index = 0
    ∧ md_call.delete_obj (0, 0) (0, 0, 0) MD_SUCCESS
      ∈ (run_benchmark { small_options 0 1 1 4 2 with stonewall_timer := 1 }
        (fixed_plugin Int MD_SUCCESS MD_SUCCESS MD_SUCCESS MD_SUCCESS)
        (clock_env ticks_per_second 0)
        (init_stats { small_options 0 1 1 4 2 with stonewall_timer := 1 } 2) 0 0).st.g_calls := by
  decide

/-- Claim C8, the code at the failing input. Two workers with wear-out and a
stonewall of one second; worker 0 crosses the deadline at `f = 5`, worker 1 at
`f = 3`, so both receive `total_num = 5` from the all-reduce. Worker 0 runs 6
outer iterations, worker 1 runs 5. -/
theorem wear_out_iterations_differ :
    (run_benchmark
        { small_options 0 2 1 10 10 with stonewall_timer := 1, stonewall_timer_wear_out := 1 }
        (fixed_plugin Int MD_SUCCESS MD_SUCCESS MD_SUCCESS MD_SUCCESS) (clock_env 25000000 3)
        (init_stats
          { small_options 0 2 1 10 10 with stonewall_timer := 1, stonewall_timer_wear_out := 1 } 10)
        0 0).total_num = 5
    ∧ (run_benchmark
        { small_options 0 2 1 10 10 with stonewall_timer := 1, stonewall_timer_wear_out := 1 }
        (fixed_plugin Int MD_SUCCESS MD_SUCCESS MD_SUCCESS MD_SUCCESS) (clock_env 25000000 3)
        (init_stats
          { small_options 0 2 1 10 10 with stonewall_timer := 1, stonewall_timer_wear_out := 1 } 10)
        0 0).g_iters = 6
    ∧ md_call.allreduce 5 5
      ∈ (run_benchmark
        { small_options 0 2 1 10 10 with stonewall_timer := 1, stonewall_timer_wear_out := 1 }
        (fixed_plugin Int MD_SUCCESS MD_SUCCESS MD_SUCCESS MD_SUCCESS) (clock_env 25000000 3)
        (init_stats
          { small_options 0 2 1 10 10 with stonewall_timer := 1, stonewall_timer_wear_out := 1 } 10)
        0 0).st.g_calls
    ∧ (run_benchmark
        { small_options 1 2 1 10 10 with stonewall_timer := 1, stonewall_timer_wear_out := 1 }
        (fixed_plugin Int MD_SUCCESS MD_SUCCESS MD_SUCCESS MD_SUCCESS) (clock_env 40000000 5)
        (init_stats
          { small_options 1 2 1 10 10 with stonewall_timer := 1, stonewall_timer_wear_out := 1 } 10)
        0 0).total_num = 5
    ∧ (run_benchmark
        { small_options 1 2 1 10 10 with stonewall_timer := 1, stonewall_timer_wear_out := 1 }
        (fixed_plugin Int MD_SUCCESS MD_SUCCESS MD_SUCCESS MD_SUCCESS) (clock_env 40000000 5)
        (init_stats
          { small_options 1 2 1 10 10 with stonewall_timer := 1, stonewall_timer_wear_out := 1 } 10)
        0 0).g_iters = 5
    ∧ md_call.allreduce 3 5
      ∈ (run_benchmark
        { small_options 1 2 1 10 10 with stonewall_timer := 1, stonewall_timer_wear_out := 1 }
        (fixed_plugin Int MD_SUCCESS MD_SUCCESS MD_SUCCESS MD_SUCCESS) (clock_env 40000000 5)
        (init_stats
          { small_options 1 2 1 10 10 with stonewall_timer := 1, stonewall_timer_wear_out := 1 } 10)
        0 0).st.g_calls := by
  decide

/-- Witness of C9: a read-only run of three iterations leaves the rolling base
at 0. -/
theorem read_only_benchmark_witness :
    ({ small_options 0 2 1 5 3 with read_only := 1 } : benchmark_options).read_only ≠ 0
    ∧ (run_benchmark { small_options 0 2 1 5 3 with read_only := 1 }
        (fixed_plugin Int MD_SUCCESS MD_SUCCESS MD_SUCCESS MD_SUCCESS) (clock_env 1 0)
        (init_stats { small_options 0 2 1 5 3 with read_only := 1 } 3) 0 0).current_index = 0 :=
  ⟨by decide,
    (read_only_benchmark { small_options 0 2 1 5 3 with read_only := 1 }
      (fixed_plugin Int MD_SUCCESS MD_SUCCESS MD_SUCCESS MD_SUCCESS) (clock_env 1 0)
      (init_stats { small_options 0 2 1 5 3 with read_only := 1 } 3) 0 0 (by decide)).2.2.2.2.2.1⟩

/-- Counterexample to C10 as stated: benchmark only, no wear-out and a stonewall
timer of `-1` (not `> 0`): `main` exits with code 1. -/
theorem negative_timer_fails_validation :
    main_validate { init_options 0 1 with phase_benchmark := 1, stonewall_timer := -1 }
      = some 1 := by
  decide

/-- Claim C10 as amended (start-up validation rule). After the phase
normalisation (no phase flag set enables all three phases), `main` exits with
code 1 at the validation check exactly when benchmark is enabled, precreate is
not enabled, the stonewall timer is not zero and wear-out is disabled; in every
other configuration the check passes. In terms of the flags as given: exactly
when the benchmark flag is set, the precreate flag is not, the timer is not
zero and wear-out is disabled. For a timer that is not negative, "not zero" is
`T_sw > 0`, the rule as it was stated. -/
theorem startup_validation_rule (o : benchmark_options) :
    (main_validate o = some 1
      ↔ (normalize_phases o).phase_benchmark ≠ 0 ∧ (normalize_phases o).phase_precreate = 0
        ∧ o.stonewall_timer ≠ 0 ∧ o.stonewall_timer_wear_out = 0)
    ∧ (main_validate o = none
      ↔ ¬ ((normalize_phases o).phase_benchmark ≠ 0 ∧ (normalize_phases o).phase_precreate = 0
        ∧ o.stonewall_timer ≠ 0 ∧ o.stonewall_timer_wear_out = 0))
    ∧ (main_validate o = some 1
      ↔ o.phase_benchmark ≠ 0 ∧ o.phase_precreate = 0
        ∧ o.stonewall_timer ≠ 0 ∧ o.stonewall_timer_wear_out = 0)
    ∧ ((o.phase_cleanup = 0 ∧ o.phase_precreate = 0 ∧ o.phase_benchmark = 0) →
        (normalize_phases o).phase_cleanup = 1 ∧ (normalize_phases o).phase_precreate = 1
        ∧ (normalize_phases o).phase_benchmark = 1)
    ∧ (0 ≤ o.stonewall_timer →
        (main_validate o = some 1
          ↔ (normalize_phases o).phase_benchmark ≠ 0
            ∧ (normalize_phases o).phase_precreate = 0
            ∧ 0 < o.stonewall_timer ∧ o.stonewall_timer_wear_out = 0)) := by
  have key : (main_validate o = some 1
      ↔ (normalize_phases o).phase_benchmark ≠ 0 ∧ (normalize_phases o).phase_precreate = 0
        ∧ o.stonewall_timer ≠ 0 ∧ o.stonewall_timer_wear_out = 0)
    ∧ (main_validate o = none
      ↔ ¬ ((normalize_phases o).phase_benchmark ≠ 0 ∧ (normalize_phases o).phase_precreate = 0
        ∧ o.stonewall_timer ≠ 0 ∧ o.stonewall_timer_wear_out = 0))
    ∧ (main_validate o = some 1
      ↔ o.phase_benchmark ≠ 0 ∧ o.phase_precreate = 0
        ∧ o.stonewall_timer ≠ 0 ∧ o.stonewall_timer_wear_out = 0)
    ∧ ((o.phase_cleanup = 0 ∧ o.phase_precreate = 0 ∧ o.phase_benchmark = 0) →
        (normalize_phases o).phase_cleanup = 1 ∧ (normalize_phases o).phase_precreate = 1
        ∧ (normalize_phases o).phase_benchmark = 1) := by
    unfold main_validate normalize_phases
    by_cases h1 : o.phase_cleanup = 0 <;> by_cases h2 : o.phase_precreate = 0 <;>
      by_cases h3 : o.phase_benchmark = 0 <;> by_cases h4 : o.stonewall_timer = 0 <;>
      by_cases h5 : o.stonewall_timer_wear_out = 0 <;> simp [h1, h2, h3, h4, h5]
  refine ⟨key.1, key.2.1, key.2.2.1, key.2.2.2, fun h0 => ?_⟩
  rw [key.1]
  have e : o.stonewall_timer ≠ 0 ↔ 0 < o.stonewall_timer := by omega
  rw [e]

end Claims

/-! ## Minimum and maximum of the per-worker times -/

section MinMax

theorem foldl_range_getD {β : Type} (F : β → Int → β) (l : List Int) (a : β) :
    (List.range l.length).foldl (fun acc i => F acc (l.getD i 0)) a = l.foldl F a := by
  induction l generalizing a with
  | nil => rfl
  | cons x xs ih =>
    rw [List.length_cons, List.range_succ_eq_map, List.foldl_cons, List.foldl_map,
      List.foldl_cons]
    simpa using ih (F a x)

/-- The loop of `statistics_minmax` over an array of `o.size` entries is a
fold over the entries. -/
theorem statistics_minmax_eq_foldl (o : benchmark_options) (count : Int) (arr : List Int)
    (hlen : arr.length = o.size.toNat) :
    statistics_minmax o count arr
      = arr.foldl
          (fun acc x => (if x < acc.1 then x else acc.1, if x > acc.2 then x else acc.2))
          (0, 0) := by
  unfold statistics_minmax int_range
  rw [List.foldl_map, ← hlen]
  exact foldl_range_getD
    (fun acc x => (if x < acc.1 then x else acc.1, if x > acc.2 then x else acc.2)) arr (0, 0)

theorem minmax_foldl_facts (l : List Int) (acc : Int × Int) :
    ((∀ x ∈ l, acc.1 ≤ x) →
      (l.foldl (fun acc x => (if x < acc.1 then x else acc.1, if x > acc.2 then x else acc.2))
        acc).1 = acc.1)
    ∧ acc.2 ≤ (l.foldl
        (fun acc x => (if x < acc.1 then x else acc.1, if x > acc.2 then x else acc.2)) acc).2
    ∧ (∀ x ∈ l, x ≤ (l.foldl
        (fun acc x => (if x < acc.1 then x else acc.1, if x > acc.2 then x else acc.2)) acc).2)
    ∧ ((l.foldl (fun acc x => (if x < acc.1 then x else acc.1, if x > acc.2 then x else acc.2))
        acc).2 = acc.2
      ∨ (l.foldl (fun acc x => (if x < acc.1 then x else acc.1, if x > acc.2 then x else acc.2))
        acc).2 ∈ l) := by
  induction l generalizing acc with
  | nil => simp
  | cons x xs ih =>
    rw [List.foldl_cons]
    have hm1 : acc.1 ≤ x → (if x < acc.1 then x else acc.1) = acc.1 :=
      fun h => if_neg (by omega)
    have hm2 : acc.2 ≤ (if x > acc.2 then x else acc.2) ∧ x ≤ (if x > acc.2 then x else acc.2)
        ∧ ((if x > acc.2 then x else acc.2) = acc.2 ∨ (if x > acc.2 then x else acc.2) = x) := by
      split_ifs <;> omega
    generalize (if x < acc.1 then x else acc.1) = m1 at hm1 ⊢
    generalize (if x > acc.2 then x else acc.2) = m2 at hm2 ⊢
    obtain ⟨h1, h2, h3, h4⟩ := ih (m1, m2)
    simp only [] at h1 h2 h3 h4
    refine ⟨fun hall => ?_, by omega, ?_, ?_⟩
    · have e := hm1 (hall x (List.mem_cons_self _ _))
      subst e
      exact h1 (fun y hy => hall y (List.mem_cons_of_mem _ hy))
    · intro y hy
      rcases List.mem_cons.1 hy with rfl | hy
      · omega
      · exact h3 y hy
    · rcases h4 with h4 | h4
      · rcases hm2.2.2 with e | e
        · left; rw [h4, e]
        · right; rw [h4, e]; exact List.mem_cons_self _ _
      · right; exact List.mem_cons_of_mem _ h4

/-- What `statistics_minmax` returns for `o.size` times that are not negative:
the minimum is 0, whatever the entries; the maximum is the largest entry. -/
theorem statistics_minmax_nonneg (o : benchmark_options) (count : Int) (arr : List Int)
    (hlen : arr.length = o.size.toNat) (hne : arr ≠ []) (hnn : ∀ x ∈ arr, 0 ≤ x) :
    (statistics_minmax o count arr).1 = 0
    ∧ (∀ x ∈ arr, x ≤ (statistics_minmax o count arr).2)
    ∧ (statistics_minmax o count arr).2 ∈ arr := by
  rw [statistics_minmax_eq_foldl o count arr hlen]
  obtain ⟨h1, h2, h3, h4⟩ := minmax_foldl_facts arr (0, 0)
  refine ⟨h1 hnn, h3, ?_⟩
  rcases h4 with h4 | h4
  · obtain ⟨y, ys, rfl⟩ := List.exists_cons_of_ne_nil hne
    have hy0 := hnn y (List.mem_cons_self _ _)
    have hy1 := h3 y (List.mem_cons_self _ _)
    rw [h4] at hy1 ⊢
    have : y = 0 := by simp only [] at hy1; omega
    rw [← this]
    exact List.mem_cons_self _ _
  · exact h4

end MinMax

/-! ## Counters of the precreate phase -/

section PrecreateCounters
variable {σ : Type}

/-- A loop whose body adds `k` to a measure adds `k` per iteration, as long as
a property `Q` that the body keeps holds. -/
theorem foldl_measure {α β : Type} (Q : β → Prop) (m : β → Int) (k : Int) (g : β → α → β)
    (hQ : ∀ acc x, Q acc → Q (g acc x))
    (hm : ∀ acc x, Q acc → m (g acc x) = m acc + k)
    (l : List α) (acc : β) (h : Q acc) :
    Q (l.foldl g acc) ∧ m (l.foldl g acc) = m acc + k * l.length := by
  induction l generalizing acc with
  | nil => exact ⟨h, by simp⟩
  | cons x xs ih =>
    obtain ⟨h1, h2⟩ := ih (g acc x) (hQ acc x h)
    refine ⟨h1, ?_⟩
    rw [List.foldl_cons, h2, hm acc x h, List.length_cons]
    push_cast
    ring

/-- One object of the precreate phase, with errors ignored and a `write_obj`
that never returns NOOP: exactly one of `obj_create.suc`, `obj_create.err` and
`obj_name.err` is incremented, and a failed name generation also increments
`dset_name.err`, so it adds 2 to the error total. -/
theorem precreate_obj_body_counts (o : benchmark_options) (P : md_plugin σ) (E : md_env σ)
    (f : Int) (st : run_t σ) (d : Int) (hi : o.ignore_precreate_errors ≠ 0)
    (hno : ∀ ds t b sz w, (P.write_obj ds t b sz w).1 ≠ MD_NOOP)
    (h : st.g_aborted = false) :
    (precreate_obj_body o P E f st d).s.obj_create.suc
        + (precreate_obj_body o P E f st d).s.obj_create.err
        + (precreate_obj_body o P E f st d).s.obj_name.err
      = st.s.obj_create.suc + st.s.obj_create.err + st.s.obj_name.err + 1
    ∧ sum_err (precreate_obj_body o P E f st d).s
        - 2 * (precreate_obj_body o P E f st d).s.obj_name.err
        - (precreate_obj_body o P E f st d).s.obj_create.err
      = sum_err st.s - 2 * st.s.obj_name.err - st.s.obj_create.err + 0 := by
  unfold precreate_obj_body
  simp only [h, Bool.false_eq_true, if_false]
  split_ifs
  all_goals first
    | exact absurd ‹_› hi
    | (exfalso; simp only [timed_op_fst] at *; exact hno _ _ _ _ _ ‹_›)
    | (constructor <;> simp [sum_err, op_stat_t.inc_err, op_stat_t.inc_suc] <;> ring)

/-- The first loop of `run_precreate` touches neither `obj_create` nor
`obj_name`. -/
theorem precreate_dset_body_obj_frame (o : benchmark_options) (P : md_plugin σ)
    (st : run_t σ) (i : Int) :
    (precreate_dset_body o P st i).s.obj_create = st.s.obj_create
    ∧ (precreate_dset_body o P st i).s.obj_name = st.s.obj_name := by
  unfold precreate_dset_body
  simp only []
  split_ifs <;> simp [run_t.abort]

/-- The object loops of `run_precreate`, errors ignored and `write_obj` never
NOOP, started in a state `st`: the three counters of the objects grow by `D * P`
together, and the error total grows by twice the name failures plus the write
failures. -/
theorem precreate_obj_loops_counts (o : benchmark_options) (P : md_plugin σ) (E : md_env σ)
    (st : run_t σ) (hi : o.ignore_precreate_errors ≠ 0)
    (hno : ∀ ds t b sz w, (P.write_obj ds t b sz w).1 ≠ MD_NOOP)
    (h : st.g_aborted = false) :
    ((int_range o.precreate).foldl
        (fun st f => (int_range o.dset_count).foldl (precreate_obj_body o P E f) st) st).s.obj_create.suc
      + ((int_range o.precreate).foldl
        (fun st f => (int_range o.dset_count).foldl (precreate_obj_body o P E f) st) st).s.obj_create.err
      + ((int_range o.precreate).foldl
        (fun st f => (int_range o.dset_count).foldl (precreate_obj_body o P E f) st) st).s.obj_name.err
      = st.s.obj_create.suc + st.s.obj_create.err + st.s.obj_name.err
        + (o.dset_count.toNat : Int) * (o.precreate.toNat : Int)
    ∧ sum_err ((int_range o.precreate).foldl
        (fun st f => (int_range o.dset_count).foldl (precreate_obj_body o P E f) st) st).s
        - 2 * ((int_range o.precreate).foldl
          (fun st f => (int_range o.dset_count).foldl (precreate_obj_body o P E f) st) st).s.obj_name.err
        - ((int_range o.precreate).foldl
          (fun st f => (int_range o.dset_count).foldl (precreate_obj_body o P E f) st) st).s.obj_create.err
      = sum_err st.s - 2 * st.s.obj_name.err - st.s.obj_create.err := by
  have inner1 := fun (f : Int) (acc : run_t σ) (hacc : acc.g_aborted = false) =>
    foldl_measure (fun st : run_t σ => st.g_aborted = false)
      (fun st : run_t σ => st.s.obj_create.suc + st.s.obj_create.err + st.s.obj_name.err) 1
      (precreate_obj_body o P E f)
      (fun acc d hacc => precreate_obj_body_no_abort o P E f acc d hi hacc)
      (fun acc d hacc => (precreate_obj_body_counts o P E f acc d hi hno hacc).1)
      (int_range o.dset_count) acc hacc
  have inner2 := fun (f : Int) (acc : run_t σ) (hacc : acc.g_aborted = false) =>
    foldl_measure (fun st : run_t σ => st.g_aborted = false)
      (fun st : run_t σ => sum_err st.s - 2 * st.s.obj_name.err - st.s.obj_create.err) 0
      (precreate_obj_body o P E f)
      (fun acc d hacc => precreate_obj_body_no_abort o P E f acc d hi hacc)
      (fun acc d hacc => (precreate_obj_body_counts o P E f acc d hi hno hacc).2)
      (int_range o.dset_count) acc hacc
  have outer1 := foldl_measure (fun st : run_t σ => st.g_aborted = false)
      (fun st : run_t σ => st.s.obj_create.suc + st.s.obj_create.err + st.s.obj_name.err)
      (o.dset_count.toNat : Int)
      (fun st f => (int_range o.dset_count).foldl (precreate_obj_body o P E f) st)
      (fun acc f hacc => (inner1 f acc hacc).1)
      (fun acc f hacc => by
        have := (inner1 f acc hacc).2
        rw [int_range_length, one_mul] at this
        exact this)
      (int_range o.precreate) st h
  have outer2 := foldl_measure (fun st : run_t σ => st.g_aborted = false)
      (fun st : run_t σ => sum_err st.s - 2 * st.s.obj_name.err - st.s.obj_create.err) 0
      (fun st f => (int_range o.dset_count).foldl (precreate_obj_body o P E f) st)
      (fun acc f hacc => (inner2 f acc hacc).1)
      (fun acc f hacc => by
        have := (inner2 f acc hacc).2
        rw [zero_mul] at this
        exact this)
      (int_range o.precreate) st h
  refine ⟨?_, ?_⟩
  · have := outer1.2
    rw [int_range_length] at this
    exact this
  · have := outer2.2
    rw [zero_mul, add_zero] at this
    exact this

/-- The law of the object counters of `run_precreate`. With errors ignored, a
`write_obj` that never returns NOOP and a first loop without errors, from zeroed
statistics: `obj_create.suc` is `D * P` minus the error total plus the number of
name failures, because a failed `def_obj_name` increments two error counters,
`dset_name.err` and `obj_name.err`. -/
theorem precreate_create_count (o : benchmark_options) (P : md_plugin σ) (E : md_env σ)
    (n : Int) (w : σ) (hi : o.ignore_precreate_errors ≠ 0)
    (hno : ∀ ds t b sz w, (P.write_obj ds t b sz w).1 ≠ MD_NOOP)
    (hD : 0 ≤ o.dset_count) (hP : 0 ≤ o.precreate)
    (hd : sum_err ((int_range o.dset_count).foldl (precreate_dset_body o P)
      (run_t.init (init_stats o n) w)).s = 0) :
    (run_precreate o P E (init_stats o n) w).s.obj_create.suc
      = o.dset_count * o.precreate - sum_err (run_precreate o P E (init_stats o n) w).s
        + (run_precreate o P E (init_stats o n) w).s.obj_name.err := by
  have h0 : ((int_range o.dset_count).foldl (precreate_dset_body o P)
      (run_t.init (init_stats o n) w)).g_aborted = false :=
    foldl_preserves (fun st : run_t σ => st.g_aborted = false) _
      (fun acc i hacc => precreate_dset_body_no_abort o P acc i hi hacc) _ _ rfl
  have hf : ((int_range o.dset_count).foldl (precreate_dset_body o P)
      (run_t.init (init_stats o n) w)).s.obj_create = ⟨0, 0⟩
      ∧ ((int_range o.dset_count).foldl (precreate_dset_body o P)
      (run_t.init (init_stats o n) w)).s.obj_name = ⟨0, 0⟩ :=
    foldl_preserves
      (fun st : run_t σ => st.s.obj_create = ⟨0, 0⟩ ∧ st.s.obj_name = ⟨0, 0⟩) _
      (fun acc i hacc => by
        obtain ⟨h1, h2⟩ := precreate_dset_body_obj_frame o P acc i
        exact ⟨h1.trans hacc.1, h2.trans hacc.2⟩) _ _ ⟨rfl, rfl⟩
  obtain ⟨h1, h2⟩ := precreate_obj_loops_counts o P E _ hi hno h0
  rw [hf.1, hf.2] at h1
  rw [hd, hf.1, hf.2] at h2
  simp only [zero_add, mul_zero, sub_zero, Int.toNat_of_nonneg hD,
    Int.toNat_of_nonneg hP] at h1 h2
  unfold run_precreate
  simp only []
  linarith

end PrecreateCounters

/-! ## The stonewall collectives and the flag `stonewall_hit` -/

section Stonewall
variable {σ : Type}

/-- An inner iteration of the benchmark issues no collective, leaves
`stonewall_hit` alone and keeps the calls recorded so far. -/
theorem benchmark_body_quiet (o : benchmark_options) (P : md_plugin σ) (E : md_env σ)
    (si f : Int) (acc : run_t σ × Int) (d : Int) :
    collectives (benchmark_body o P E si f acc d).1.g_calls = collectives acc.1.g_calls
    ∧ (benchmark_body o P E si f acc d).1.s.stonewall_hit = acc.1.s.stonewall_hit
    ∧ ∀ c ∈ acc.1.g_calls, c ∈ (benchmark_body o P E si f acc d).1.g_calls := by
  unfold benchmark_body
  simp only []
  split_ifs <;> simp [collectives, md_call.is_allreduce] <;> intro c hc <;> simp [hc]

theorem benchmark_inner_quiet (o : benchmark_options) (P : md_plugin σ) (E : md_env σ)
    (si f : Int) (st : run_t σ) :
    collectives (benchmark_inner o P E si f st).1.g_calls = collectives st.g_calls
    ∧ (benchmark_inner o P E si f st).1.s.stonewall_hit = st.s.stonewall_hit
    ∧ ∀ c ∈ st.g_calls, c ∈ (benchmark_inner o P E si f st).1.g_calls := by
  unfold benchmark_inner
  apply foldl_preserves (fun a : run_t σ × Int =>
    collectives a.1.g_calls = collectives st.g_calls
    ∧ a.1.s.stonewall_hit = st.s.stonewall_hit ∧ ∀ c ∈ st.g_calls, c ∈ a.1.g_calls)
  · intro acc d ⟨h1, h2, h3⟩
    obtain ⟨b1, b2, b3⟩ := benchmark_body_quiet o P E si f acc d
    exact ⟨b1.trans h1, b2.trans h2, fun c hc => b3 c (h3 c hc)⟩
  · exact ⟨rfl, rfl, fun c hc => hc⟩

theorem benchmark_loop_unarmed_quiet (o : benchmark_options) (P : md_plugin σ)
    (E : md_env σ) (si : Int) (n : Nat) (L : loop_t σ) :
    collectives (benchmark_loop_unarmed o P E si n L).st.g_calls = collectives L.st.g_calls
    ∧ (benchmark_loop_unarmed o P E si n L).st.s.stonewall_hit = L.st.s.stonewall_hit
    ∧ ∀ c ∈ L.st.g_calls, c ∈ (benchmark_loop_unarmed o P E si n L).st.g_calls := by
  induction n generalizing L with
  | zero => exact ⟨rfl, rfl, fun c hc => hc⟩
  | succ n ih =>
    rw [benchmark_loop_unarmed]
    obtain ⟨h1, h2, h3⟩ := ih
      { L with
        st := (benchmark_inner o P E si L.f L.st).1
        f := L.f + 1
        g_iters := L.g_iters + 1 }
    obtain ⟨b1, b2, b3⟩ := benchmark_inner_quiet o P E si L.f L.st
    exact ⟨h1.trans b1, h2.trans b2, fun c hc => h3 c (b3 c hc)⟩

/-- The armed loop. Without wear-out it issues no collective, and either it was
left by `break` with `stonewall_hit = 1`, or the flag is untouched. With
wear-out either the deadline was never crossed (still armed, no collective,
flag untouched), or it was crossed once: the loop is disarmed, exactly one
all-reduce was issued, with the index of the crossing iteration, and the flag
is 1. -/
theorem benchmark_loop_armed_stonewall (o : benchmark_options) (P : md_plugin σ)
    (E : md_env σ) (si : Int) (n : Nat) (L : loop_t σ) :
    (o.stonewall_timer_wear_out = 0 →
      collectives (benchmark_loop_armed o P E si n L).st.g_calls = collectives L.st.g_calls
      ∧ (benchmark_loop_armed o P E si n L).armed_stone_wall = L.armed_stone_wall
      ∧ (((benchmark_loop_armed o P E si n L).g_broke = true
          ∧ (benchmark_loop_armed o P E si n L).st.s.stonewall_hit = 1)
        ∨ ((benchmark_loop_armed o P E si n L).g_broke = L.g_broke
          ∧ (benchmark_loop_armed o P E si n L).st.s.stonewall_hit = L.st.s.stonewall_hit)))
    ∧ (o.stonewall_timer_wear_out ≠ 0 →
      ((benchmark_loop_armed o P E si n L).armed_stone_wall = L.armed_stone_wall
        ∧ collectives (benchmark_loop_armed o P E si n L).st.g_calls
            = collectives L.st.g_calls
        ∧ (benchmark_loop_armed o P E si n L).st.s.stonewall_hit = L.st.s.stonewall_hit)
      ∨ ((benchmark_loop_armed o P E si n L).armed_stone_wall = false
        ∧ collectives (benchmark_loop_armed o P E si n L).st.g_calls
            = collectives L.st.g_calls + 1
        ∧ (benchmark_loop_armed o P E si n L).st.s.stonewall_hit = 1
        ∧ ∃ fw w', L.f ≤ fw ∧ fw < L.f + n
          ∧ md_call.allreduce fw (E.allreduce_max fw w').1
              ∈ (benchmark_loop_armed o P E si n L).st.g_calls)) := by
  induction n generalizing L with
  | zero => simp [benchmark_loop_armed]
  | succ n ih =>
    obtain ⟨b1, b2, b3⟩ := benchmark_inner_quiet o P E si L.f L.st
    rw [benchmark_loop_armed]
    simp only []
    split_ifs with h1 h2
    · refine ⟨fun _ => ⟨?_, rfl, Or.inl ⟨rfl, rfl⟩⟩, fun h => absurd h2 h⟩
      simpa using b1
    · refine ⟨fun h => absurd h h2, fun _ => Or.inr ?_⟩
      have u := fun n L => benchmark_loop_unarmed_facts o P E si n L
      have q := fun n L => benchmark_loop_unarmed_quiet o P E si n L
      rw [(u _ _).2.2.2.1, (q _ _).1, (q _ _).2.1]
      refine ⟨rfl, ?_, rfl, L.f, (benchmark_inner o P E si L.f L.st).1.w, le_rfl,
        by push_cast; omega, ?_⟩
      · simp [collectives, md_call.is_allreduce] at b1 ⊢
        exact b1
      · apply (q _ _).2.2
        simp
    · obtain ⟨i1, i2⟩ := ih
        { L with
          st := (benchmark_inner o P E si L.f L.st).1
          f := L.f + 1
          g_iters := L.g_iters + 1 }
      refine ⟨fun h => ?_, fun h => ?_⟩
      · obtain ⟨a1, a2, a3⟩ := i1 h
        refine ⟨a1.trans b1, a2, ?_⟩
        rcases a3 with a3 | a3
        · exact Or.inl a3
        · exact Or.inr ⟨a3.1, a3.2.trans b2⟩
      · rcases i2 h with ⟨a1, a2, a3⟩ | ⟨a1, a2, a3, fw, w', a4, a5, a6⟩
        · exact Or.inl ⟨a1, a2.trans b1, a3.trans b2⟩
        · refine Or.inr ⟨a1, ?_, a3, fw, w', ?_, ?_, a6⟩
          · rw [a2, b1]
          · simp only [] at a4; omega
          · simp only [] at a5; push_cast; omega

/-- The loop of `run_benchmark` as a whole, for the stonewall. -/
theorem benchmark_loop_stonewall (o : benchmark_options) (P : md_plugin σ) (E : md_env σ)
    (s : phase_stat_t) (ci : Int) (w : σ) :
    (¬ 0 < o.stonewall_timer →
      (benchmark_loop o P E s ci w).armed_stone_wall = false
      ∧ collectives (benchmark_loop o P E s ci w).st.g_calls = 0
      ∧ (benchmark_loop o P E s ci w).st.s.stonewall_hit = s.stonewall_hit
      ∧ (benchmark_loop o P E s ci w).g_broke = false)
    ∧ (0 < o.stonewall_timer → o.stonewall_timer_wear_out = 0 →
      (benchmark_loop o P E s ci w).armed_stone_wall = true
      ∧ collectives (benchmark_loop o P E s ci w).st.g_calls = 0
      ∧ (((benchmark_loop o P E s ci w).g_broke = true
          ∧ (benchmark_loop o P E s ci w).st.s.stonewall_hit = 1)
        ∨ ((benchmark_loop o P E s ci w).g_broke = false
          ∧ (benchmark_loop o P E s ci w).st.s.stonewall_hit = s.stonewall_hit)))
    ∧ (0 < o.stonewall_timer → o.stonewall_timer_wear_out ≠ 0 →
      ((benchmark_loop o P E s ci w).armed_stone_wall = true
        ∧ collectives (benchmark_loop o P E s ci w).st.g_calls = 0
        ∧ (benchmark_loop o P E s ci w).st.s.stonewall_hit = s.stonewall_hit)
      ∨ ((benchmark_loop o P E s ci w).armed_stone_wall = false
        ∧ collectives (benchmark_loop o P E s ci w).st.g_calls = 1
        ∧ (benchmark_loop o P E s ci w).st.s.stonewall_hit = 1
        ∧ ∃ fw w', 0 ≤ fw ∧ fw < (o.num.toNat : Int)
          ∧ md_call.allreduce fw (E.allreduce_max fw w').1
              ∈ (benchmark_loop o P E s ci w).st.g_calls)) := by
  unfold benchmark_loop
  simp only []
  split_ifs with h
  · have hT : 0 < o.stonewall_timer := by simpa using h
    obtain ⟨a1, a2⟩ := benchmark_loop_armed_stonewall o P E ci o.num.toNat
      { st := run_t.init s w, f := 0, total_num := o.num,
        armed_stone_wall := decide (o.stonewall_timer > 0), g_iters := 0,
        g_broke := false }
    simp only [zero_add] at a1 a2
    have hc : collectives (run_t.init s w).g_calls = 0 := rfl
    have hh : (run_t.init s w).s.stonewall_hit = s.stonewall_hit := rfl
    have hd : decide (o.stonewall_timer > 0) = true := h
    rw [hc, hh] at a1 a2
    refine ⟨fun hn => absurd hT hn, fun _ hwo => ?_, fun _ hwo => ?_⟩
    · obtain ⟨b1, b2, b3⟩ := a1 hwo
      exact ⟨b2.trans hd, b1, b3⟩
    · rcases a2 hwo with ⟨b1, b2, b3⟩ | b
      · exact Or.inl ⟨b1.trans hd, b2, b3⟩
      · exact Or.inr b
  · have hT : ¬ 0 < o.stonewall_timer := by simpa using h
    have u := benchmark_loop_unarmed_facts o P E ci o.num.toNat
      { st := run_t.init s w, f := 0, total_num := o.num,
        armed_stone_wall := decide (o.stonewall_timer > 0), g_iters := 0,
        g_broke := false }
    have q := benchmark_loop_unarmed_quiet o P E ci o.num.toNat
      { st := run_t.init s w, f := 0, total_num := o.num,
        armed_stone_wall := decide (o.stonewall_timer > 0), g_iters := 0,
        g_broke := false }
    refine ⟨fun _ => ⟨?_, q.1, q.2.1, u.2.2.1⟩, fun hp => absurd hp hT,
      fun hp => absurd hp hT⟩
    rw [u.2.2.2.1]
    simpa using hT

/-- The stonewall of `run_benchmark` on return: the number of all-reduce calls
issued and the final `stonewall_hit`, for statistics `s` handed in. -/
theorem run_benchmark_stonewall (o : benchmark_options) (P : md_plugin σ) (E : md_env σ)
    (s : phase_stat_t) (ci : Int) (w : σ) :
    (o.stonewall_timer = 0 →
      collectives (run_benchmark o P E s ci w).st.g_calls = 0
      ∧ (run_benchmark o P E s ci w).st.s.stonewall_hit = s.stonewall_hit)
    ∧ (o.stonewall_timer < 0 → o.stonewall_timer_wear_out ≠ 0 →
      collectives (run_benchmark o P E s ci w).st.g_calls = 0
      ∧ (run_benchmark o P E s ci w).st.s.stonewall_hit = s.stonewall_hit)
    ∧ (0 < o.stonewall_timer → o.stonewall_timer_wear_out ≠ 0 →
      collectives (run_benchmark o P E s ci w).st.g_calls = 1
      ∧ (run_benchmark o P E s ci w).st.s.stonewall_hit = 1)
    ∧ (o.stonewall_timer ≠ 0 → o.stonewall_timer_wear_out = 0 →
      collectives (run_benchmark o P E s ci w).st.g_calls = 1
      ∧ ∃ v w0, ((run_benchmark o P E s ci w).g_broke = true → v = 1)
        ∧ ((run_benchmark o P E s ci w).g_broke = false → v = s.stonewall_hit)
        ∧ (run_benchmark o P E s ci w).st.s.stonewall_hit = (E.allreduce_max v w0).1
        ∧ md_call.allreduce v (run_benchmark o P E s ci w).st.s.stonewall_hit
            ∈ (run_benchmark o P E s ci w).st.g_calls) := by
  obtain ⟨l1, l2, l3⟩ := benchmark_loop_stonewall o P E s ci w
  refine ⟨fun hT => ?_, fun hT hwo => ?_, fun hT hwo => ?_, fun hT hwo => ?_⟩
  · obtain ⟨a1, a2, a3, _⟩ := l1 (by omega)
    simp [run_benchmark, benchmark_hit_sync, benchmark_wear_out_sync, hT, a1, a2, a3]
  · obtain ⟨a1, a2, a3, _⟩ := l1 (by omega)
    simp [run_benchmark, benchmark_hit_sync, benchmark_wear_out_sync, hwo, a1, a2, a3]
  · rcases l3 hT hwo with ⟨a1, a2, a3⟩ | ⟨a1, a2, a3, _⟩
    · simp [run_benchmark, benchmark_hit_sync, benchmark_wear_out_sync, hwo, a1, a2,
        collectives, md_call.is_allreduce]
      simpa [collectives] using a2
    · simp [run_benchmark, benchmark_hit_sync, benchmark_wear_out_sync, hwo, a1, a2, a3]
  · have hloop : collectives (benchmark_loop o P E s ci w).st.g_calls = 0
        ∧ (((benchmark_loop o P E s ci w).g_broke = true
            ∧ (benchmark_loop o P E s ci w).st.s.stonewall_hit = 1)
          ∨ ((benchmark_loop o P E s ci w).g_broke = false
            ∧ (benchmark_loop o P E s ci w).st.s.stonewall_hit = s.stonewall_hit)) := by
      by_cases hp : 0 < o.stonewall_timer
      · exact (l2 hp hwo).2
      · obtain ⟨_, a2, a3, a4⟩ := l1 hp
        exact ⟨a2, Or.inr ⟨a4, a3⟩⟩
    obtain ⟨c0, hb⟩ := hloop
    refine ⟨?_, (benchmark_loop o P E s ci w).st.s.stonewall_hit,
      (benchmark_loop o P E s ci w).st.w, ?_, ?_, ?_, ?_⟩
    · simp [run_benchmark, benchmark_hit_sync, benchmark_wear_out_sync, hwo, hT,
        collectives, md_call.is_allreduce]
      simpa [collectives] using c0
    · intro hbr
      rw [run_benchmark_broke] at hbr
      rcases hb with hb | hb
      · exact hb.2
      · rw [hb.1] at hbr
        exact absurd hbr (by simp)
    · intro hbr
      rw [run_benchmark_broke] at hbr
      rcases hb with hb | hb
      · rw [hb.1] at hbr
        exact absurd hbr (by simp)
      · exact hb.2
    · simp [run_benchmark, benchmark_hit_sync, benchmark_wear_out_sync, hwo, hT]
    · simp [run_benchmark, benchmark_hit_sync, benchmark_wear_out_sync, hwo, hT]

end Stonewall

/-! ## The slot index stays in bounds -/

section SlotBounds
variable {σ : Type}

theorem slots_within_mono (st : run_t σ) (c c' : Nat) (h : slots_within st c) (hc : c ≤ c') :
    slots_within st c' :=
  ⟨le_trans h.1 hc, h.2⟩

theorem slots_within_congr (st st' : run_t σ) (c : Nat) (h : slots_within st c)
    (hpos : st'.pos = st.pos) (hsl : st'.g_slots = st.g_slots) : slots_within st' c := by
  unfold slots_within at h ⊢
  rw [hpos, hsl]
  exact h

/-- A step that does `pos++` once and hands only the new `pos` to
`add_timed_result`. -/
theorem slots_within_step (st st' : run_t σ) (c : Nat) (h : slots_within st c)
    (hc : c + 1 < size_t_mod) (hpos : st'.pos = (st.pos + 1) % size_t_mod)
    (hsl : ∀ p ∈ st'.g_slots, p ∈ st.g_slots ∨ p = (st.pos + 1) % size_t_mod) :
    slots_within st' (c + 1) := by
  obtain ⟨h1, h2⟩ := h
  have hu : (st'.pos + 1) % size_t_mod = (st.pos + 1) % size_t_mod + 1 := by
    rw [hpos]
    exact Nat.mod_eq_of_lt (by omega)
  refine ⟨by omega, fun p hp => ?_⟩
  rw [hu]
  rcases hsl p hp with h3 | h3
  · have := h2 p h3
    omega
  · omega

/-- A loop whose body keeps `slots_within` while consuming at most `k` slots. -/
theorem foldl_slots_within {α β : Type} (pr : β → run_t σ) (k : Nat) (g : β → α → β)
    (hg : ∀ acc x c, slots_within (pr acc) c → c + k < size_t_mod →
      slots_within (pr (g acc x)) (c + k))
    (l : List α) (acc : β) (c : Nat) (h : slots_within (pr acc) c)
    (hc : c + k * l.length < size_t_mod) :
    slots_within (pr (l.foldl g acc)) (c + k * l.length) := by
  induction l generalizing acc c with
  | nil => simpa using h
  | cons x xs ih =>
    rw [List.length_cons, Nat.mul_succ] at hc
    have h1 := hg acc x c h (by omega)
    have h2 := ih (g acc x) (c + k) h1 (by omega)
    rw [List.foldl_cons, List.length_cons, Nat.mul_succ]
    have e : c + (k * xs.length + k) = c + k + k * xs.length := by omega
    rw [e]
    exact h2

theorem benchmark_body_slots (o : benchmark_options) (P : md_plugin σ) (E : md_env σ)
    (si f : Int) (acc : run_t σ × Int) (d : Int) :
    ∀ p ∈ (benchmark_body o P E si f acc d).1.g_slots,
      p ∈ acc.1.g_slots ∨ p = (acc.1.pos + 1) % size_t_mod := by
  unfold benchmark_body
  simp only []
  split_ifs <;> simp <;> tauto

theorem benchmark_inner_slots_within (o : benchmark_options) (P : md_plugin σ)
    (E : md_env σ) (si f : Int) (st : run_t σ) (c : Nat) (h : slots_within st c)
    (hc : c + o.dset_count.toNat < size_t_mod) :
    slots_within (benchmark_inner o P E si f st).1 (c + o.dset_count.toNat) := by
  have := foldl_slots_within (fun a : run_t σ × Int => a.1) 1 (benchmark_body o P E si f)
    (fun acc d c hacc hc => slots_within_step acc.1 _ c hacc hc
      (benchmark_body_pos o P E si f acc d) (benchmark_body_slots o P E si f acc d))
    (int_range o.dset_count) (st, 0) c h (by rw [int_range_length]; omega)
  rw [int_range_length, one_mul] at this
  exact this

theorem benchmark_loop_unarmed_slots_within (o : benchmark_options) (P : md_plugin σ)
    (E : md_env σ) (si : Int) (n : Nat) (L : loop_t σ) (c : Nat)
    (h : slots_within L.st c) (hc : c + o.dset_count.toNat * n < size_t_mod) :
    slots_within (benchmark_loop_unarmed o P E si n L).st (c + o.dset_count.toNat * n) := by
  induction n generalizing L c with
  | zero => simpa [benchmark_loop_unarmed] using h
  | succ n ih =>
    rw [Nat.mul_succ] at hc
    rw [benchmark_loop_unarmed, Nat.mul_succ]
    have e : c + (o.dset_count.toNat * n + o.dset_count.toNat)
        = c + o.dset_count.toNat + o.dset_count.toNat * n := by omega
    rw [e]
    apply ih
    · exact benchmark_inner_slots_within o P E si L.f L.st c h (by omega)
    · omega

/-- The armed loop with `n` iterations left up to `total_num = L.f + n`, the
all-reduce being a maximum of values at most `B ≤ L.f + n`: at most `n`
iterations are run, so at most `D * n` slots are consumed. -/
theorem benchmark_loop_armed_slots_within (o : benchmark_options) (P : md_plugin σ)
    (E : md_env σ) (si : Int) (B : Int) (hE : allreduce_is_max E B) (n : Nat)
    (L : loop_t σ) (c : Nat) (hB : B ≤ L.f + n)
    (h : slots_within L.st c) (hc : c + o.dset_count.toNat * n < size_t_mod) :
    slots_within (benchmark_loop_armed o P E si n L).st (c + o.dset_count.toNat * n) := by
  induction n generalizing L c with
  | zero => simpa [benchmark_loop_armed] using h
  | succ n ih =>
    rw [Nat.mul_succ] at hc
    have h1 := benchmark_inner_slots_within o P E si L.f L.st c h (by omega)
    have e : c + (o.dset_count.toNat * n + o.dset_count.toNat)
        = c + o.dset_count.toNat + o.dset_count.toNat * n := by omega
    rw [benchmark_loop_armed, Nat.mul_succ, e]
    simp only []
    split_ifs with c1 c2
    · apply slots_within_mono _ (c + o.dset_count.toNat)
      · exact slots_within_congr _ _ _ h1 rfl rfl
      · omega
    · have hm : ((E.allreduce_max L.f
          ((benchmark_inner o P E si L.f L.st).1.map_s
            (fun s => { s with stonewall_hit := 1 })).w).1 - (L.f + 1)).toNat ≤ n := by
        have := (hE L.f ((benchmark_inner o P E si L.f L.st).1.map_s
            (fun s => { s with stonewall_hit := 1 })).w).2
        push_cast at hB
        omega
      apply slots_within_mono _ (c + o.dset_count.toNat + o.dset_count.toNat
        * ((E.allreduce_max L.f
          ((benchmark_inner o P E si L.f L.st).1.map_s
            (fun s => { s with stonewall_hit := 1 })).w).1 - (L.f + 1)).toNat)
      · apply benchmark_loop_unarmed_slots_within
        · exact slots_within_congr _ _ _ h1 rfl rfl
        · have := Nat.mul_le_mul_left o.dset_count.toNat hm
          omega
      · have := Nat.mul_le_mul_left o.dset_count.toNat hm
        omega
    · apply ih
      · simp only []
        push_cast at hB
        omega
      · exact h1
      · omega

/-- When `run_benchmark` returns, at most `D * N` slots were consumed, the
all-reduce being a maximum of values at most `N`. -/
theorem run_benchmark_slots_within (o : benchmark_options) (P : md_plugin σ) (E : md_env σ)
    (s : phase_stat_t) (ci : Int) (w : σ) (hE : allreduce_is_max E o.num)
    (hc : o.dset_count.toNat * o.num.toNat < size_t_mod) :
    slots_within (run_benchmark o P E s ci w).st (o.dset_count.toNat * o.num.toNat) := by
  have h0 : slots_within (run_t.init s w) 0 := by
    unfold slots_within run_t.init
    simp [Nat.sub_add_cancel size_t_mod_pos]
  have hl : slots_within (benchmark_loop o P E s ci w).st
      (0 + o.dset_count.toNat * o.num.toNat) := by
    unfold benchmark_loop
    simp only []
    split_ifs
    · exact benchmark_loop_armed_slots_within o P E ci o.num hE _ _ 0
        (by simp only [zero_add]; exact Int.self_le_toNat _) h0 (by omega)
    · exact benchmark_loop_unarmed_slots_within o P E ci _ _ 0 h0 (by omega)
  rw [zero_add] at hl
  apply slots_within_congr _ _ _ hl
  · simp [run_benchmark]
  · unfold run_benchmark benchmark_hit_sync benchmark_wear_out_sync
    simp only []
    split_ifs <;> rfl

theorem precreate_dset_body_slots (o : benchmark_options) (P : md_plugin σ)
    (st : run_t σ) (i : Int) :
    (precreate_dset_body o P st i).g_slots = st.g_slots := by
  unfold precreate_dset_body
  simp only []
  split_ifs <;> simp [run_t.abort]

theorem precreate_obj_body_slots_within (o : benchmark_options) (P : md_plugin σ)
    (E : md_env σ) (f : Int) (st : run_t σ) (d : Int) (c : Nat)
    (h : slots_within st c) (hc : c + 1 < size_t_mod) :
    slots_within (precreate_obj_body o P E f st d) (c + 1) := by
  by_cases ha : st.g_aborted = true
  · have e : precreate_obj_body o P E f st d = st := by
      unfold precreate_obj_body
      rw [if_pos ha]
    rw [e]
    exact slots_within_mono st c (c + 1) h (by omega)
  · have hb : st.g_aborted = false := by simpa using ha
    apply slots_within_step st _ c h hc
    · unfold precreate_obj_body
      simp only [hb, Bool.false_eq_true, if_false]
      split_ifs <;> simp [run_t.abort]
    · unfold precreate_obj_body
      simp only [hb, Bool.false_eq_true, if_false]
      split_ifs <;> simp [run_t.abort] <;> tauto

/-- When `run_precreate` stops (on return or at `MPI_Abort`), at most `D * P`
slots were consumed. -/
theorem run_precreate_slots_within (o : benchmark_options) (P : md_plugin σ) (E : md_env σ)
    (s : phase_stat_t) (w : σ) (hc : o.dset_count.toNat * o.precreate.toNat < size_t_mod) :
    slots_within (run_precreate o P E s w) (o.dset_count.toNat * o.precreate.toNat) := by
  have h0 : slots_within (run_t.init s w) 0 := by
    unfold slots_within run_t.init
    simp [Nat.sub_add_cancel size_t_mod_pos]
  have h1 : slots_within ((int_range o.dset_count).foldl (precreate_dset_body o P)
      (run_t.init s w)) 0 :=
    foldl_preserves (fun st : run_t σ => slots_within st 0) _
      (fun acc i hacc => slots_within_congr _ _ _ hacc (precreate_dset_body_pos o P acc i)
        (precreate_dset_body_slots o P acc i)) _ _ h0
  have h2 := foldl_slots_within (fun st : run_t σ => st) o.dset_count.toNat
    (fun st f => (int_range o.dset_count).foldl (precreate_obj_body o P E f) st)
    (fun acc f c hacc hc => by
      have := foldl_slots_within (fun st : run_t σ => st) 1 (precreate_obj_body o P E f)
        (fun acc d c hacc hc => precreate_obj_body_slots_within o P E f acc d c hacc hc)
        (int_range o.dset_count) acc c hacc (by rw [int_range_length]; omega)
      rw [int_range_length, one_mul] at this
      exact this)
    (int_range o.precreate) _ 0 h1 (by rw [int_range_length]; omega)
  rw [int_range_length, zero_add] at h2
  exact h2

theorem cleanup_obj_body_slots_within (o : benchmark_options) (P : md_plugin σ)
    (E : md_env σ) (si d : Int) (st : run_t σ) (f : Int) (c : Nat)
    (h : slots_within st c) (hc : c + 1 < size_t_mod) :
    slots_within (cleanup_obj_body o P E si d st f) (c + 1) := by
  apply slots_within_step st _ c h hc
  · unfold cleanup_obj_body
    simp only []
    split_ifs <;> simp
  · unfold cleanup_obj_body
    simp only []
    split_ifs <;> simp <;> tauto

theorem cleanup_dset_body_slots_within (o : benchmark_options) (P : md_plugin σ)
    (E : md_env σ) (si : Int) (st : run_t σ) (d : Int) (c : Nat)
    (h : slots_within st c) (hc : c + o.precreate.toNat < size_t_mod) :
    slots_within (cleanup_dset_body o P E si st d) (c + o.precreate.toNat) := by
  have h1 := foldl_slots_within (fun st : run_t σ => st) 1 (cleanup_obj_body o P E si d)
    (fun acc f c hacc hc => cleanup_obj_body_slots_within o P E si d acc f c hacc hc)
    (int_range o.precreate)
    (plain_op (.def_dset_name o.rank d) (P.def_dset_name o.rank d) st).2 c
    (slots_within_congr _ _ _ h rfl rfl) (by rw [int_range_length]; omega)
  rw [int_range_length, one_mul] at h1
  apply slots_within_congr _ _ _ h1
  · unfold cleanup_dset_body
    simp only []
    split_ifs <;> simp
  · unfold cleanup_dset_body
    simp only []
    split_ifs <;> simp

/-- When `run_cleanup` returns, at most `D * P` slots were consumed. -/
theorem run_cleanup_slots_within (o : benchmark_options) (P : md_plugin σ) (E : md_env σ)
    (s : phase_stat_t) (si : Int) (w : σ)
    (hc : o.precreate.toNat * o.dset_count.toNat < size_t_mod) :
    slots_within (run_cleanup o P E s si w) (o.precreate.toNat * o.dset_count.toNat) := by
  have h0 : slots_within (run_t.init s w) 0 := by
    unfold slots_within run_t.init
    simp [Nat.sub_add_cancel size_t_mod_pos]
  have h2 := foldl_slots_within (fun st : run_t σ => st) o.precreate.toNat
    (cleanup_dset_body o P E si)
    (fun acc d c hacc hc => cleanup_dset_body_slots_within o P E si acc d c hacc hc)
    (int_range o.dset_count) _ 0 h0 (by rw [int_range_length]; omega)
  rw [int_range_length, zero_add] at h2
  exact h2

/-- The routines `run_precreate` and `run_cleanup` leave `repeats` as
`init_stats` set it. -/
theorem precreate_cleanup_repeats (o : benchmark_options) (P : md_plugin σ) (E : md_env σ)
    (s : phase_stat_t) (si : Int) (w : σ) :
    (run_precreate o P E s w).s.repeats = s.repeats
    ∧ (run_cleanup o P E s si w).s.repeats = s.repeats := by
  constructor
  · unfold run_precreate
    apply foldl_preserves (fun st : run_t σ => st.s.repeats = s.repeats)
    · intro acc f hacc
      apply foldl_preserves (fun st : run_t σ => st.s.repeats = s.repeats) _ _ _ _ hacc
      intro acc d hacc
      unfold precreate_obj_body
      simp only []
      split_ifs <;> simpa [run_t.abort] using hacc
    · apply foldl_preserves (fun st : run_t σ => st.s.repeats = s.repeats)
      · intro acc i hacc
        unfold precreate_dset_body
        simp only []
        split_ifs <;> simpa [run_t.abort] using hacc
      · rfl
  · unfold run_cleanup
    apply foldl_preserves (fun st : run_t σ => st.s.repeats = s.repeats)
    · intro acc d hacc
      have h1 : ((int_range o.precreate).foldl (cleanup_obj_body o P E si d)
          (plain_op (.def_dset_name o.rank d) (P.def_dset_name o.rank d) acc).2).s.repeats
          = s.repeats := by
        apply foldl_preserves (fun st : run_t σ => st.s.repeats = s.repeats)
        · intro acc f hacc
          unfold cleanup_obj_body
          simp only []
          split_ifs <;> simpa using hacc
        · simpa using hacc
      unfold cleanup_dset_body
      simp only []
      split_ifs <;> simpa using h1
    · rfl

end SlotBounds

/-! ## The latency arrays of `init_stats` and the slots written -/

section Allocation
variable {σ : Type}

@[simp] theorem timed_op_g_time_len (o : benchmark_options) (E : md_env σ) (k : lat_t)
    (c : md_ret → md_call) (op : σ → md_ret × σ) (st : run_t σ) :
    (timed_op o E k c op st).2.2.s.g_time_len = st.s.g_time_len := by
  cases k <;> rfl

@[simp] theorem timed_op_time_stat_stat (o : benchmark_options) (E : md_env σ)
    (c : md_ret → md_call) (op : σ → md_ret × σ) (st : run_t σ) :
    (timed_op o E lat_t.stat c op st).2.2.s.time_stat
      = if benchmark_options.latency_file_prefix o = true then
          (st.pos, ⟨(E.clock st.w).1 - st.s.phase_start_timer,
            (E.clock (op (E.clock st.w).2).2).1 - (E.clock st.w).1⟩) :: st.s.time_stat
        else st.s.time_stat := by
  simp [timed_op, add_timed_result, phase_stat_t.set_times, phase_stat_t.times, start_timer,
    stop_timer, timer_subtract]

@[simp] theorem timed_op_time_stat_read (o : benchmark_options) (E : md_env σ)
    (c : md_ret → md_call) (op : σ → md_ret × σ) (st : run_t σ) :
    (timed_op o E lat_t.read c op st).2.2.s.time_stat = st.s.time_stat := rfl

@[simp] theorem timed_op_time_stat_delete (o : benchmark_options) (E : md_env σ)
    (c : md_ret → md_call) (op : σ → md_ret × σ) (st : run_t σ) :
    (timed_op o E lat_t.delete c op st).2.2.s.time_stat = st.s.time_stat := rfl

@[simp] theorem timed_op_time_stat_create (o : benchmark_options) (E : md_env σ)
    (c : md_ret → md_call) (op : σ → md_ret × σ) (st : run_t σ) :
    (timed_op o E lat_t.create c op st).2.2.s.time_stat = st.s.time_stat := rfl

/-- The routine `run_benchmark` leaves the latency arrays as allocated. -/
theorem run_benchmark_time_len (o : benchmark_options) (P : md_plugin σ) (E : md_env σ)
    (s : phase_stat_t) (ci : Int) (w : σ) :
    (run_benchmark o P E s ci w).st.s.g_time_len = s.g_time_len := by
  apply run_benchmark_preserves o P E (fun st => st.s.g_time_len = s.g_time_len)
  · intro f acc d _ _ _ hacc
    unfold benchmark_body
    simp only []
    split_ifs <;> simpa using hacc
  · intro st x r hst
    exact hst
  · intro st v a w hst
    exact hst
  · rfl

/-- With name generation succeeding and latency capture on, an inner iteration
that starts from `pos = -1` hands slot 0 to `add_timed_result` and writes
`time_stat[0]`; later iterations keep both. -/
theorem benchmark_body_first_write (o : benchmark_options) (P : md_plugin σ) (E : md_env σ)
    (si f : Int) (acc : run_t σ × Int) (d : Int)
    (hl : benchmark_options.latency_file_prefix o = true)
    (hn : ∀ r' d' f' w, (P.def_obj_name r' d' f' w).1 = MD_SUCCESS)
    (h : acc.1.pos = size_t_mod - 1
      ∨ (0 ∈ acc.1.g_slots ∧ ∃ v, (0, v) ∈ acc.1.s.time_stat)) :
    0 ∈ (benchmark_body o P E si f acc d).1.g_slots
    ∧ ∃ v, (0, v) ∈ (benchmark_body o P E si f acc d).1.s.time_stat := by
  have hp : acc.1.pos = size_t_mod - 1 → (acc.1.pos + 1) % size_t_mod = 0 := by
    intro h
    rw [h, Nat.sub_add_cancel size_t_mod_pos, Nat.mod_self]
  unfold benchmark_body
  simp only [plain_op_fst, hn, ne_eq, not_true_eq_false, if_false]
  split_ifs <;> simp [hl]
  all_goals
    rcases h with h | ⟨h1, v, h2⟩
    · simp [hp h]
    · exact ⟨by simp [h1], v, by simp [h2]⟩

/-- With name generation succeeding and latency capture on: unless no slot was
consumed at all, `run_benchmark` handed slot 0 to `add_timed_result` and wrote
`time_stat[0]`. -/
theorem run_benchmark_first_write (o : benchmark_options) (P : md_plugin σ) (E : md_env σ)
    (s : phase_stat_t) (ci : Int) (w : σ)
    (hl : benchmark_options.latency_file_prefix o = true)
    (hn : ∀ r' d' f' w, (P.def_obj_name r' d' f' w).1 = MD_SUCCESS) :
    (run_benchmark o P E s ci w).st.pos = size_t_mod - 1
    ∨ (0 ∈ (run_benchmark o P E s ci w).st.g_slots
      ∧ ∃ v, (0, v) ∈ (run_benchmark o P E s ci w).st.s.time_stat) := by
  apply run_benchmark_preserves o P E (fun st => st.pos = size_t_mod - 1
    ∨ (0 ∈ st.g_slots ∧ ∃ v, (0, v) ∈ st.s.time_stat))
  · intro f acc d _ _ _ hacc
    exact Or.inr (benchmark_body_first_write o P E ci f acc d hl hn hacc)
  · intro st x r hst
    exact hst
  · intro st v a w hst
    exact hst
  · exact Or.inl rfl

/-- Without a stonewall timer `run_benchmark` runs its `N` outer iterations. -/
theorem run_benchmark_iters_no_stonewall (o : benchmark_options) (P : md_plugin σ)
    (E : md_env σ) (s : phase_stat_t) (ci : Int) (w : σ) (hT : o.stonewall_timer = 0) :
    (run_benchmark o P E s ci w).g_iters = o.num.toNat := by
  rw [run_benchmark_iters]
  unfold benchmark_loop
  simp only [hT, gt_iff_lt, lt_self_iff_false, decide_False, Bool.false_eq_true, if_false]
  rw [(benchmark_loop_unarmed_facts o P E ci _ _).2.1]
  simp

/-- Without a stonewall timer `run_benchmark` consumes `D * N` slots. -/
theorem run_benchmark_slots_no_stonewall (o : benchmark_options) (P : md_plugin σ)
    (E : md_env σ) (s : phase_stat_t) (ci : Int) (w : σ) (hT : o.stonewall_timer = 0) :
    ((run_benchmark o P E s ci w).st.pos + 1) % size_t_mod
      = (o.dset_count.toNat * o.num.toNat) % size_t_mod := by
  have hinv := benchmark_loop_slot_inv o P E s ci w
  have hit := run_benchmark_iters_no_stonewall o P E s ci w hT
  rw [run_benchmark_iters] at hit
  unfold slot_inv at hinv
  rw [hit] at hinv
  rw [← hinv]
  simp [run_benchmark]

/-- The latency arrays `init_stats` allocates cover the product of the loop
bounds when latency capture is on and the `int` product does not overflow. -/
theorem init_stats_allocates (o : benchmark_options) (a b : Int)
    (hl : benchmark_options.latency_file_prefix o = true)
    (hb0 : 0 ≤ b) (hov : a * b ≤ int_max) :
    b.toNat * a.toNat ≤ (init_stats o (int_mul a b)).g_time_len
    ∧ b.toNat * a.toNat < size_t_mod := by
  by_cases ha0 : 0 ≤ a
  · have hnn : 0 ≤ a * b := mul_nonneg ha0 hb0
    have e : ((b.toNat * a.toNat : Nat) : Int) = a * b := by
      push_cast
      rw [Int.toNat_of_nonneg ha0, Int.toNat_of_nonneg hb0]
      ring
    have e2 : b.toNat * a.toNat = (a * b).toNat := by
      have : ((b.toNat * a.toNat : Nat) : Int) = ((a * b).toNat : Int) := by
        rw [e, Int.toNat_of_nonneg hnn]
      exact_mod_cast this
    rw [int_mul_eq a b (by unfold int_max; omega) hov]
    constructor
    · unfold init_stats
      simp only [hl, true_and]
      split_ifs with h
      · omega
      · omega
    · unfold size_t_mod
      have : ((b.toNat * a.toNat : Nat) : Int) < ((2 ^ 64 : Nat) : Int) := by
        rw [e]
        unfold int_max at hov
        push_cast
        omega
      exact_mod_cast this
  · have : a.toNat = 0 := Int.toNat_eq_zero.2 (by omega)
    rw [this]
    simp [size_t_mod]

/-- The slots stay within the latency arrays when the `int` product does not
overflow: with latency capture on, `0 ≤ D`, `N * D` within the range of `int`
and a wear-out all-reduce that is a maximum of values at most `N`, every `pos`
that `run_benchmark` hands to `add_timed_result` is below the number of entries
`init_stats` allocated, and so is every `pos` of `run_precreate` and
`run_cleanup` when `P * D` is within the range of `int`. -/
theorem latency_slots_within_allocation (o : benchmark_options) (P : md_plugin σ)
    (E : md_env σ) (ci : Int) (w : σ)
    (hl : benchmark_options.latency_file_prefix o = true) (hD0 : 0 ≤ o.dset_count)
    (hE : allreduce_is_max E o.num) :
    (o.num * o.dset_count ≤ int_max →
      ∀ p ∈ (run_benchmark o P E (init_stats o (int_mul o.num o.dset_count)) ci w).st.g_slots,
        p < (run_benchmark o P E
          (init_stats o (int_mul o.num o.dset_count)) ci w).st.s.g_time_len)
    ∧ (o.precreate * o.dset_count ≤ int_max →
      (∀ p ∈ (run_precreate o P E (init_stats o (int_mul o.precreate o.dset_count)) w).g_slots,
        p < (init_stats o (int_mul o.precreate o.dset_count)).g_time_len)
      ∧ ∀ si, ∀ p ∈ (run_cleanup o P E
          (init_stats o (int_mul o.precreate o.dset_count)) si w).g_slots,
        p < (init_stats o (int_mul o.precreate o.dset_count)).g_time_len) := by
  constructor
  · intro hov
    obtain ⟨n1, n2⟩ := init_stats_allocates o o.num o.dset_count hl hD0 hov
    obtain ⟨b1, b2⟩ := run_benchmark_slots_within o P E
      (init_stats o (int_mul o.num o.dset_count)) ci w hE n2
    intro p hp
    rw [run_benchmark_time_len]
    have := b2 p hp
    omega
  · intro hov
    obtain ⟨p1, p2⟩ := init_stats_allocates o o.precreate o.dset_count hl hD0 hov
    constructor
    · obtain ⟨c1, c2⟩ := run_precreate_slots_within o P E
        (init_stats o (int_mul o.precreate o.dset_count)) w p2
      intro p hp
      have := c2 p hp
      omega
    · intro si
      obtain ⟨d1, d2⟩ := run_cleanup_slots_within o P E
        (init_stats o (int_mul o.precreate o.dset_count)) si w
        (by rw [Nat.mul_comm]; exact p2)
      intro p hp
      have := d2 p hp
      rw [Nat.mul_comm] at d1
      omega

end Allocation

section RoundTrip

/-- A loop on the set backend whose body, while `Q` holds, appends a block of
calls and adds data sets and objects: the record grows by the blocks in order,
and the backend by what the iterations add. -/
theorem foldl_adds {α : Type} (Q : run_t backend_t → Prop)
    (g : run_t backend_t → α → run_t backend_t) (blk : α → List md_call)
    (AD : α → Finset dset_t) (AO : α → Finset obj_t)
    (hg : ∀ acc x, Q acc → Q (g acc x)
      ∧ (g acc x).g_calls = (blk x).reverse ++ acc.g_calls
      ∧ (g acc x).w.dsets = acc.w.dsets ∪ AD x ∧ (g acc x).w.objs = acc.w.objs ∪ AO x)
    (l : List α) (acc : run_t backend_t) (hQ : Q acc) :
    Q (l.foldl g acc)
    ∧ (l.foldl g acc).g_calls = (l.flatMap blk).reverse ++ acc.g_calls
    ∧ (∀ k, k ∈ (l.foldl g acc).w.dsets ↔ k ∈ acc.w.dsets ∨ ∃ x ∈ l, k ∈ AD x)
    ∧ (∀ k, k ∈ (l.foldl g acc).w.objs ↔ k ∈ acc.w.objs ∨ ∃ x ∈ l, k ∈ AO x) := by
  induction l generalizing acc with
  | nil => exact ⟨hQ, by simp, by simp, by simp⟩
  | cons x xs ih =>
    obtain ⟨h1, h2, h3, h4⟩ := hg acc x hQ
    obtain ⟨i1, i2, i3, i4⟩ := ih (g acc x) h1
    refine ⟨i1, ?_, fun k => ?_, fun k => ?_⟩
    · rw [List.foldl_cons, i2, h2, List.flatMap_cons, List.reverse_append, List.append_assoc]
    · rw [List.foldl_cons, i3, h3]
      simp only [Finset.mem_union, List.mem_cons, exists_eq_or_imp]
      tauto
    · rw [List.foldl_cons, i4, h4]
      simp only [Finset.mem_union, List.mem_cons, exists_eq_or_imp]
      tauto

/-- The same for a body that removes data sets and objects. -/
theorem foldl_removes {α : Type}
    (g : run_t backend_t → α → run_t backend_t) (blk : α → List md_call)
    (RD : α → Finset dset_t) (RO : α → Finset obj_t)
    (hg : ∀ acc x, (g acc x).g_calls = (blk x).reverse ++ acc.g_calls
      ∧ (g acc x).w.dsets = acc.w.dsets \ RD x ∧ (g acc x).w.objs = acc.w.objs \ RO x)
    (l : List α) (acc : run_t backend_t) :
    (l.foldl g acc).g_calls = (l.flatMap blk).reverse ++ acc.g_calls
    ∧ (∀ k, k ∈ (l.foldl g acc).w.dsets ↔ k ∈ acc.w.dsets ∧ ∀ x ∈ l, k ∉ RD x)
    ∧ (∀ k, k ∈ (l.foldl g acc).w.objs ↔ k ∈ acc.w.objs ∧ ∀ x ∈ l, k ∉ RO x) := by
  induction l generalizing acc with
  | nil => exact ⟨by simp, by simp, by simp⟩
  | cons x xs ih =>
    obtain ⟨h2, h3, h4⟩ := hg acc x
    obtain ⟨i2, i3, i4⟩ := ih (g acc x)
    refine ⟨?_, fun k => ?_, fun k => ?_⟩
    · rw [List.foldl_cons, i2, h2, List.flatMap_cons, List.reverse_append, List.append_assoc]
    · rw [List.foldl_cons, i3, h3]
      simp only [Finset.mem_sdiff, List.mem_cons, forall_eq_or_imp]
      tauto
    · rw [List.foldl_cons, i4, h4]
      simp only [Finset.mem_sdiff, List.mem_cons, forall_eq_or_imp]
      tauto

theorem precreate_dset_body_set (o : benchmark_options) (st : run_t backend_t) (i : Int)
    (h : st.g_aborted = false) :
    (precreate_dset_body o (set_plugin MD_SUCCESS) st i).g_aborted = false
    ∧ (precreate_dset_body o (set_plugin MD_SUCCESS) st i).g_calls
        = [md_call.def_dset_name o.rank i MD_SUCCESS,
            md_call.create_dset (o.rank, i) MD_SUCCESS].reverse ++ st.g_calls
    ∧ (precreate_dset_body o (set_plugin MD_SUCCESS) st i).w.dsets
        = st.w.dsets ∪ {(o.rank, i)}
    ∧ (precreate_dset_body o (set_plugin MD_SUCCESS) st i).w.objs = st.w.objs ∪ ∅ := by
  unfold precreate_dset_body
  simp [h, set_plugin, plain_op, run_t.map_s, Finset.insert_eq, Finset.union_comm]

theorem precreate_obj_body_set (o : benchmark_options) (f : Int) (st : run_t backend_t)
    (d : Int) (h : st.g_aborted = false) :
    (precreate_obj_body o (set_plugin MD_SUCCESS) (still_env backend_t) f st d).g_aborted
        = false
    ∧ (precreate_obj_body o (set_plugin MD_SUCCESS) (still_env backend_t) f st d).g_calls
        = [md_call.def_dset_name o.rank d MD_SUCCESS,
            md_call.def_obj_name o.rank d f MD_SUCCESS,
            md_call.write_obj (o.rank, d) (o.rank, d, f) MD_SUCCESS].reverse
          ++ st.g_calls
    ∧ (precreate_obj_body o (set_plugin MD_SUCCESS) (still_env backend_t) f st d).w.dsets
        = st.w.dsets ∪ ∅
    ∧ (precreate_obj_body o (set_plugin MD_SUCCESS) (still_env backend_t) f st d).w.objs
        = st.w.objs ∪ {(o.rank, d, f)} := by
  unfold precreate_obj_body
  simp [h, set_plugin, plain_op, timed_op, run_t.map_s, run_t.inc_pos, still_env,
    start_timer, add_timed_result, stop_timer, Finset.insert_eq, Finset.union_comm]

theorem cleanup_obj_body_set (o : benchmark_options) (si d : Int) (st : run_t backend_t)
    (f : Int) :
    (cleanup_obj_body o (set_plugin MD_SUCCESS) (still_env backend_t) si d st f).g_calls
        = [md_call.def_obj_name o.rank d (f + si) MD_SUCCESS,
            md_call.delete_obj (o.rank, d) (o.rank, d, f + si) MD_SUCCESS].reverse
          ++ st.g_calls
    ∧ (cleanup_obj_body o (set_plugin MD_SUCCESS) (still_env backend_t) si d st f).w.dsets
        = st.w.dsets \ ∅
    ∧ (cleanup_obj_body o (set_plugin MD_SUCCESS) (still_env backend_t) si d st f).w.objs
        = st.w.objs \ {(o.rank, d, f + si)} := by
  unfold cleanup_obj_body
  simp [set_plugin, plain_op, timed_op, run_t.map_s, run_t.inc_pos, still_env,
    start_timer, add_timed_result, stop_timer, Finset.erase_eq]

/-- The routine `run_precreate` on the set backend: it returns, its calls are
those of the specification, and the backend gains the data sets and objects of
the worker. -/
theorem run_precreate_set (o : benchmark_options) (s : phase_stat_t) (b : backend_t) :
    (run_precreate o (set_plugin MD_SUCCESS) (still_env backend_t) s b).g_aborted = false
    ∧ (run_precreate o (set_plugin MD_SUCCESS) (still_env backend_t) s b).g_calls.reverse
        = precreate_calls_spec o
    ∧ (run_precreate o (set_plugin MD_SUCCESS) (still_env backend_t) s b).w.dsets
        = b.dsets ∪ owned_dsets o
    ∧ (run_precreate o (set_plugin MD_SUCCESS) (still_env backend_t) s b).w.objs
        = b.objs ∪ owned_objs o := by
  obtain ⟨a1, a2, a3, a4⟩ := foldl_adds (fun st => st.g_aborted = false)
    (precreate_dset_body o (set_plugin MD_SUCCESS)) _ _ _
    (fun acc i hacc => precreate_dset_body_set o acc i hacc) (int_range o.dset_count)
    (run_t.init s b) rfl
  have inner := fun (f : Int) (acc : run_t backend_t) (hacc : acc.g_aborted = false) =>
    foldl_adds (fun st => st.g_aborted = false)
      (precreate_obj_body o (set_plugin MD_SUCCESS) (still_env backend_t) f) _ _ _
      (fun acc d hacc => precreate_obj_body_set o f acc d hacc) (int_range o.dset_count)
      acc hacc
  obtain ⟨b1, b2, b3, b4⟩ := foldl_adds (fun st => st.g_aborted = false)
    (fun st f => (int_range o.dset_count).foldl
      (precreate_obj_body o (set_plugin MD_SUCCESS) (still_env backend_t) f) st)
    (fun f => (int_range o.dset_count).flatMap
      (fun d => [md_call.def_dset_name o.rank d MD_SUCCESS,
        md_call.def_obj_name o.rank d f MD_SUCCESS,
        md_call.write_obj (o.rank, d) (o.rank, d, f) MD_SUCCESS]))
    (fun _ => ∅)
    (fun f => ({o.rank} : Finset Int) ×ˢ Finset.Ico 0 o.dset_count ×ˢ {f})
    (fun acc f hacc => by
      obtain ⟨c1, c2, c3, c4⟩ := inner f acc hacc
      refine ⟨c1, c2, ?_, ?_⟩
      · ext k
        rw [c3]
        simp
      · ext k
        rw [c4]
        simp only [Finset.mem_union, Finset.mem_singleton, Finset.mem_product, Finset.mem_Ico,
          mem_int_range]
        constructor
        · rintro (h | ⟨d, hd, rfl⟩)
          · exact Or.inl h
          · exact Or.inr ⟨rfl, hd, rfl⟩
        · rintro (h | ⟨h1, h2, h3⟩)
          · exact Or.inl h
          · exact Or.inr ⟨k.2.1, h2, by rw [← h1, ← h3]⟩)
    (int_range o.precreate) _ a1
  have e : run_precreate o (set_plugin MD_SUCCESS) (still_env backend_t) s b
      = (int_range o.precreate).foldl
        (fun st f => (int_range o.dset_count).foldl
          (precreate_obj_body o (set_plugin MD_SUCCESS) (still_env backend_t) f) st)
        ((int_range o.dset_count).foldl (precreate_dset_body o (set_plugin MD_SUCCESS))
          (run_t.init s b)) := rfl
  rw [e]
  refine ⟨b1, ?_, ?_, ?_⟩
  · rw [b2, a2]
    simp [precreate_calls_spec, run_t.init]
  · ext k
    rw [b3, a3]
    simp only [Finset.mem_union, owned_dsets, Finset.mem_singleton, Finset.mem_product,
      Finset.mem_Ico, mem_int_range, Finset.not_mem_empty, and_false, exists_false,
      or_false]
    constructor
    · rintro (h | ⟨i, hi, rfl⟩)
      · exact Or.inl h
      · exact Or.inr ⟨rfl, hi⟩
    · rintro (h | ⟨h1, h2⟩)
      · exact Or.inl h
      · exact Or.inr ⟨k.2, h2, by rw [← h1]⟩
  · ext k
    rw [b4, a4]
    simp only [Finset.mem_union, owned_objs, Finset.mem_singleton, Finset.mem_product,
      Finset.mem_Ico, mem_int_range, Finset.not_mem_empty, and_false, exists_false,
      or_false]
    constructor
    · rintro (h | ⟨f, hf, h1, h2, h3⟩)
      · exact Or.inl h
      · exact Or.inr ⟨h1, h2, by rw [h3]; exact hf⟩
    · rintro (h | ⟨h1, h2, h3⟩)
      · exact Or.inl h
      · exact Or.inr ⟨k.2.2, h3, h1, h2, rfl⟩

/-- One data set of `run_cleanup` on the set backend. -/
theorem cleanup_dset_body_set (o : benchmark_options) (si : Int) (st : run_t backend_t)
    (d : Int) :
    (cleanup_dset_body o (set_plugin MD_SUCCESS) (still_env backend_t) si st d).g_calls
        = (md_call.def_dset_name o.rank d MD_SUCCESS
          :: ((int_range o.precreate).flatMap
              (fun f => [md_call.def_obj_name o.rank d (f + si) MD_SUCCESS,
                md_call.delete_obj (o.rank, d) (o.rank, d, f + si) MD_SUCCESS])
            ++ [md_call.rm_dset (o.rank, d) MD_SUCCESS])).reverse ++ st.g_calls
    ∧ (cleanup_dset_body o (set_plugin MD_SUCCESS) (still_env backend_t) si st d).w.dsets
        = st.w.dsets \ {(o.rank, d)}
    ∧ (cleanup_dset_body o (set_plugin MD_SUCCESS) (still_env backend_t) si st d).w.objs
        = st.w.objs \ (({o.rank} : Finset Int) ×ˢ {d} ×ˢ Finset.Ico si (si + o.precreate)) := by
  obtain ⟨c1, c2, c3⟩ := foldl_removes
    (cleanup_obj_body o (set_plugin MD_SUCCESS) (still_env backend_t) si d) _ _ _
    (fun acc f => cleanup_obj_body_set o si d acc f) (int_range o.precreate)
    (plain_op (.def_dset_name o.rank d) ((set_plugin MD_SUCCESS).def_dset_name o.rank d) st).2
  have e : cleanup_dset_body o (set_plugin MD_SUCCESS) (still_env backend_t) si st d
      = ((plain_op (.rm_dset (o.rank, d)) ((set_plugin MD_SUCCESS).rm_dset (o.rank, d))
          ((int_range o.precreate).foldl
            (cleanup_obj_body o (set_plugin MD_SUCCESS) (still_env backend_t) si d)
            (plain_op (.def_dset_name o.rank d)
              ((set_plugin MD_SUCCESS).def_dset_name o.rank d) st).2)).2).map_s
          (fun s => { s with dset_delete := s.dset_delete.inc_suc }) := by
    unfold cleanup_dset_body
    simp [set_plugin, plain_op]
  have hdn : (plain_op (.def_dset_name o.rank d)
      ((set_plugin MD_SUCCESS).def_dset_name o.rank d) st).2.w = st.w := rfl
  have hrm : ∀ w : backend_t, ((set_plugin MD_SUCCESS).rm_dset (o.rank, d) w).2
      = { w with dsets := w.dsets.erase (o.rank, d) } := fun _ => rfl
  rw [hdn] at c2 c3
  rw [e]
  refine ⟨?_, ?_, ?_⟩
  · rw [map_s_calls, plain_op_calls, c1]
    simp [set_plugin, plain_op]
  · ext k
    rw [map_s_w, plain_op_w, hrm]
    simp only [Finset.mem_erase, Finset.mem_sdiff, Finset.mem_singleton]
    rw [c2]
    simp only [Finset.not_mem_empty, not_false_eq_true, implies_true, and_true]
    tauto
  · ext k
    rw [map_s_w, plain_op_w, hrm]
    simp only []
    rw [c3]
    simp only [Finset.mem_sdiff, Finset.mem_singleton, Finset.mem_product, Finset.mem_Ico,
      mem_int_range]
    constructor
    · rintro ⟨h1, h2⟩
      refine ⟨h1, ?_⟩
      rintro ⟨h3, h4, h5, h6⟩
      refine h2 (k.2.2 - si) ⟨by omega, by omega⟩ ?_
      rw [← h3, ← h4]
      simp
    · rintro ⟨h1, h2⟩
      refine ⟨h1, ?_⟩
      rintro f ⟨hf0, hf1⟩ rfl
      exact h2 ⟨rfl, rfl, by simp only []; omega, by simp only []; omega⟩

/-- The routine `run_cleanup` on the set backend: its calls are those of the
specification, and the backend loses the data sets of the worker and its
objects of the sequence range `[start_index, start_index + P)`. -/
theorem run_cleanup_set (o : benchmark_options) (s : phase_stat_t) (si : Int)
    (b : backend_t) :
    (run_cleanup o (set_plugin MD_SUCCESS) (still_env backend_t) s si b).g_calls.reverse
        = cleanup_calls_spec o si
    ∧ (run_cleanup o (set_plugin MD_SUCCESS) (still_env backend_t) s si b).w.dsets
        = b.dsets \ owned_dsets o
    ∧ (run_cleanup o (set_plugin MD_SUCCESS) (still_env backend_t) s si b).w.objs
        = b.objs \ (({o.rank} : Finset Int) ×ˢ Finset.Ico 0 o.dset_count
            ×ˢ Finset.Ico si (si + o.precreate)) := by
  obtain ⟨c1, c2, c3⟩ := foldl_removes
    (cleanup_dset_body o (set_plugin MD_SUCCESS) (still_env backend_t) si) _ _ _
    (fun acc d => cleanup_dset_body_set o si acc d) (int_range o.dset_count)
    (run_t.init s b)
  unfold run_cleanup
  refine ⟨?_, ?_, ?_⟩
  · rw [c1]
    simp [cleanup_calls_spec, run_t.init]
  · ext k
    rw [c2]
    simp only [Finset.mem_sdiff, owned_dsets, Finset.mem_singleton, Finset.mem_product,
      Finset.mem_Ico, mem_int_range]
    constructor
    · rintro ⟨h1, h2⟩
      refine ⟨h1, ?_⟩
      rintro ⟨h3, h4⟩
      exact h2 k.2 h4 (by rw [← h3])
    · rintro ⟨h1, h2⟩
      refine ⟨h1, ?_⟩
      rintro d hd rfl
      exact h2 ⟨rfl, hd⟩
  · ext k
    rw [c3]
    simp only [Finset.mem_sdiff, Finset.mem_singleton, Finset.mem_product, Finset.mem_Ico,
      mem_int_range]
    constructor
    · rintro ⟨h1, h2⟩
      refine ⟨h1, ?_⟩
      rintro ⟨h3, h4, h5⟩
      exact h2 k.2.1 h4 ⟨h3, rfl, h5⟩
    · rintro ⟨h1, h2⟩
      refine ⟨h1, ?_⟩
      rintro d hd ⟨h3, h4, h5⟩
      exact h2 ⟨h3, by rw [h4]; exact hd, h5⟩

end RoundTrip

section RoundTripCalls

theorem precreate_calls_spec_sets (o : benchmark_options) :
    written_objs (precreate_calls_spec o).reverse = owned_objs o
    ∧ created_dsets (precreate_calls_spec o).reverse = owned_dsets o := by
  constructor
  · ext t
    simp only [written_objs, List.mem_toFinset, List.mem_filterMap, List.mem_reverse,
      precreate_calls_spec, List.mem_append, List.mem_flatMap, mem_int_range, List.mem_cons,
      List.mem_singleton, List.not_mem_nil, or_false, owned_objs, Finset.mem_product,
      Finset.mem_singleton, Finset.mem_Ico]
    constructor
    · rintro ⟨c, (⟨i, hi, rfl | rfl⟩ | ⟨f, hf, d, hd, rfl | rfl | rfl⟩), hc⟩ <;>
        simp only [md_call.written, Option.some.injEq, reduceCtorEq] at hc
      subst hc
      exact ⟨rfl, hd, hf⟩
    · rintro ⟨h1, h2, h3⟩
      refine ⟨_, Or.inr ⟨t.2.2, h3, t.2.1, h2, Or.inr (Or.inr rfl)⟩, ?_⟩
      simp only [md_call.written, ← h1]
  · ext t
    simp only [created_dsets, List.mem_toFinset, List.mem_filterMap, List.mem_reverse,
      precreate_calls_spec, List.mem_append, List.mem_flatMap, mem_int_range, List.mem_cons,
      List.mem_singleton, List.not_mem_nil, or_false, owned_dsets, Finset.mem_product,
      Finset.mem_singleton, Finset.mem_Ico]
    constructor
    · rintro ⟨c, (⟨i, hi, rfl | rfl⟩ | ⟨f, hf, d, hd, rfl | rfl | rfl⟩), hc⟩ <;>
        simp only [md_call.created, Option.some.injEq, reduceCtorEq] at hc
      subst hc
      exact ⟨rfl, hi⟩
    · rintro ⟨h1, h2⟩
      refine ⟨_, Or.inl ⟨t.2, h2, Or.inr rfl⟩, ?_⟩
      simp only [md_call.created, ← h1]

theorem cleanup_calls_spec_sets (o : benchmark_options) :
    deleted_objs (cleanup_calls_spec o 0).reverse = owned_objs o
    ∧ removed_dsets (cleanup_calls_spec o 0).reverse = owned_dsets o := by
  constructor
  · ext t
    simp only [deleted_objs, List.mem_toFinset, List.mem_filterMap, List.mem_reverse,
      cleanup_calls_spec, List.mem_append, List.mem_flatMap, mem_int_range, List.mem_cons,
      List.mem_singleton, List.not_mem_nil, or_false, owned_objs, Finset.mem_product,
      Finset.mem_singleton, Finset.mem_Ico, add_zero]
    constructor
    · rintro ⟨c, ⟨d, hd, rfl | ⟨f, hf, rfl | rfl⟩ | rfl⟩, hc⟩ <;>
        simp only [md_call.deleted, Option.some.injEq, reduceCtorEq] at hc
      subst hc
      exact ⟨rfl, hd, hf⟩
    · rintro ⟨h1, h2, h3⟩
      refine ⟨_, ⟨t.2.1, h2, Or.inr (Or.inl ⟨t.2.2, h3, Or.inr rfl⟩)⟩, ?_⟩
      simp only [md_call.deleted, ← h1]
  · ext t
    simp only [removed_dsets, List.mem_toFinset, List.mem_filterMap, List.mem_reverse,
      cleanup_calls_spec, List.mem_append, List.mem_flatMap, mem_int_range, List.mem_cons,
      List.mem_singleton, List.not_mem_nil, or_false, owned_dsets, Finset.mem_product,
      Finset.mem_singleton, Finset.mem_Ico, add_zero]
    constructor
    · rintro ⟨c, ⟨d, hd, rfl | ⟨f, hf, rfl | rfl⟩ | rfl⟩, hc⟩ <;>
        simp only [md_call.removed, Option.some.injEq, reduceCtorEq] at hc
      subst hc
      exact ⟨rfl, hd⟩
    · rintro ⟨h1, h2⟩
      refine ⟨_, ⟨t.2, h2, Or.inr (Or.inr rfl)⟩, ?_⟩
      simp only [md_call.removed, ← h1]

/-- In the calls of cleanup, no object of a data set is deleted after the
`rm_dset` of that data set. -/
theorem cleanup_calls_spec_order (o : benchmark_options) (si : Int) :
    deletes_before_rm (cleanup_calls_spec o si).reverse := by
  unfold deletes_before_rm cleanup_calls_spec
  rw [List.pairwise_reverse, List.pairwise_flatMap]
  constructor
  · intro d _
    rw [List.pairwise_cons, List.pairwise_append]
    refine ⟨?_, ?_, by simp, ?_⟩
    · intro c _ ds r h
      simp at h
    · apply List.pairwise_of_forall_mem_list
      intro a ha b _ ds r h
      rw [List.mem_flatMap] at ha
      obtain ⟨f, _, ha⟩ := ha
      simp only [List.mem_cons, List.mem_singleton, List.not_mem_nil, or_false] at ha
      rcases ha with rfl | rfl <;> simp at h
    · intro a ha b _ ds r h
      rw [List.mem_flatMap] at ha
      obtain ⟨f, _, ha⟩ := ha
      simp only [List.mem_cons, List.mem_singleton, List.not_mem_nil, or_false] at ha
      rcases ha with rfl | rfl <;> simp at h
  · apply (int_range_nodup o.dset_count).imp
    intro d1 d2 hne x hx y hy ds r hxe ds' t r' hye
    subst hxe hye
    simp only [List.mem_cons, List.mem_append, List.mem_flatMap, List.mem_singleton,
      List.not_mem_nil, or_false, reduceCtorEq, false_or, md_call.rm_dset.injEq,
      md_call.delete_obj.injEq, exists_and_right] at hx hy
    rcases hx with ⟨_, h⟩ | ⟨rfl, _⟩
    · exact absurd h id
    · obtain ⟨f, _, _, rfl, _⟩ := hy
      intro h
      exact hne (Prod.mk.inj h).2.symm

end RoundTripCalls

/-! ## The claims on the round trip, the counters, the report and the stonewall -/

/-- Counterexample to C11 as stated: on a backend that already holds the data
set `(0, 0)` with the object `(0, 0, 0)`, precreate (one data set, one object,
every call succeeding) followed by cleanup leaves nothing, so the backend is not
returned to its initial contents. -/
theorem round_trip_removes_preexisting_object :
    (run_cleanup (small_options 0 1 1 1 1) (set_plugin MD_SUCCESS) (still_env backend_t)
        (init_stats (small_options 0 1 1 1 1) 1) 0
        (run_precreate (small_options 0 1 1 1 1) (set_plugin MD_SUCCESS)
          (still_env backend_t)
          (init_stats (small_options 0 1 1 1 1) 1) { dsets := {(0, 0)}, objs := {(0, 0, 0)} }).w).w
      = { dsets := ∅, objs := ∅ }
    ∧ (run_cleanup (small_options 0 1 1 1 1) (set_plugin MD_SUCCESS) (still_env backend_t)
        (init_stats (small_options 0 1 1 1 1) 1) 0
        (run_precreate (small_options 0 1 1 1 1) (set_plugin MD_SUCCESS)
          (still_env backend_t)
          (init_stats (small_options 0 1 1 1 1) 1) { dsets := {(0, 0)}, objs := {(0, 0, 0)} }).w).w
      ≠ { dsets := {(0, 0)}, objs := {(0, 0, 0)} } := by
  decide

/-- Claim C11 as amended (round trip of precreate and cleanup). On the set
backend where every call succeeds, for every rank, `D` and `P` and every initial
backend `b`: `run_precreate` returns; the calls of the two routines are those of
the specification (precreate sequence-major, cleanup data-set-major); the
objects deleted by `run_cleanup` with `start_index = 0` are the objects written
by `run_precreate`, the set of `(rank, d, f)` with `0 ≤ d < D` and `0 ≤ f < P`;
the data sets removed are the data sets created, the `(rank, d)` with
`0 ≤ d < D`; no object of a data set is deleted after the `rm_dset` of that data
set; and the backend is left with its initial contents less the data sets and
objects of the worker, hence with its initial contents when none of them
existed initially. -/
theorem precreate_cleanup_round_trip (o : benchmark_options) (s s' : phase_stat_t)
    (b : backend_t) :
    (run_precreate o (set_plugin MD_SUCCESS) (still_env backend_t) s b).g_aborted = false
    ∧ (run_precreate o (set_plugin MD_SUCCESS) (still_env backend_t) s b).g_calls.reverse
        = precreate_calls_spec o
    ∧ (run_cleanup o (set_plugin MD_SUCCESS) (still_env backend_t) s' 0
        (run_precreate o (set_plugin MD_SUCCESS) (still_env backend_t) s b).w).g_calls.reverse
        = cleanup_calls_spec o 0
    ∧ written_objs (run_precreate o (set_plugin MD_SUCCESS) (still_env backend_t) s b).g_calls
        = owned_objs o
    ∧ deleted_objs (run_cleanup o (set_plugin MD_SUCCESS) (still_env backend_t) s' 0
        (run_precreate o (set_plugin MD_SUCCESS) (still_env backend_t) s b).w).g_calls
        = owned_objs o
    ∧ created_dsets (run_precreate o (set_plugin MD_SUCCESS) (still_env backend_t) s b).g_calls
        = owned_dsets o
    ∧ removed_dsets (run_cleanup o (set_plugin MD_SUCCESS) (still_env backend_t) s' 0
        (run_precreate o (set_plugin MD_SUCCESS) (still_env backend_t) s b).w).g_calls
        = owned_dsets o
    ∧ deletes_before_rm (run_cleanup o (set_plugin MD_SUCCESS) (still_env backend_t) s' 0
        (run_precreate o (set_plugin MD_SUCCESS) (still_env backend_t) s b).w).g_calls
    ∧ (run_precreate o (set_plugin MD_SUCCESS) (still_env backend_t) s b).w
        = { dsets := b.dsets ∪ owned_dsets o, objs := b.objs ∪ owned_objs o }
    ∧ (run_cleanup o (set_plugin MD_SUCCESS) (still_env backend_t) s' 0
        (run_precreate o (set_plugin MD_SUCCESS) (still_env backend_t) s b).w).w
        = { dsets := b.dsets \ owned_dsets o, objs := b.objs \ owned_objs o }
    ∧ (Disjoint b.dsets (owned_dsets o) → Disjoint b.objs (owned_objs o) →
        (run_cleanup o (set_plugin MD_SUCCESS) (still_env backend_t) s' 0
          (run_precreate o (set_plugin MD_SUCCESS) (still_env backend_t) s b).w).w = b) := by
  obtain ⟨p1, p2, p3, p4⟩ := run_precreate_set o s b
  obtain ⟨c1, c2, c3⟩ := run_cleanup_set o s' 0
    (run_precreate o (set_plugin MD_SUCCESS) (still_env backend_t) s b).w
  have hp : (run_precreate o (set_plugin MD_SUCCESS) (still_env backend_t) s b).g_calls
      = (precreate_calls_spec o).reverse := by
    rw [← p2, List.reverse_reverse]
  have hc : (run_cleanup o (set_plugin MD_SUCCESS) (still_env backend_t) s' 0
      (run_precreate o (set_plugin MD_SUCCESS) (still_env backend_t) s b).w).g_calls
      = (cleanup_calls_spec o 0).reverse := by
    rw [← c1, List.reverse_reverse]
  have hw : (run_cleanup o (set_plugin MD_SUCCESS) (still_env backend_t) s' 0
      (run_precreate o (set_plugin MD_SUCCESS) (still_env backend_t) s b).w).w
      = { dsets := b.dsets \ owned_dsets o, objs := b.objs \ owned_objs o } := by
    have e : ∀ x y : backend_t, x.dsets = y.dsets → x.objs = y.objs → x = y := by
      intro x y h1 h2
      cases x
      cases y
      simp only [backend_t.mk.injEq]
      exact ⟨h1, h2⟩
    apply e
    · rw [c2, p3]
      simp only []
      exact Finset.union_sdiff_right _ _
    · rw [c3, p4]
      simp only [zero_add]
      exact Finset.union_sdiff_right _ _
  refine ⟨p1, p2, c1, ?_, ?_, ?_, ?_, ?_, ?_, hw, fun hd ho => ?_⟩
  · rw [hp]
    exact (precreate_calls_spec_sets o).1
  · rw [hc]
    exact (cleanup_calls_spec_sets o).1
  · rw [hp]
    exact (precreate_calls_spec_sets o).2
  · rw [hc]
    exact (cleanup_calls_spec_sets o).2
  · rw [hc]
    exact cleanup_calls_spec_order o 0
  · have e : ∀ x y : backend_t, x.dsets = y.dsets → x.objs = y.objs → x = y := by
      intro x y h1 h2
      cases x
      cases y
      simp only [backend_t.mk.injEq]
      exact ⟨h1, h2⟩
    exact e _ _ p3 p4
  · rw [hw, Finset.sdiff_eq_self_of_disjoint hd, Finset.sdiff_eq_self_of_disjoint ho]

/-- Claim C12, the code at the failing input. One data set, one object, errors
ignored, a plug-in whose `def_obj_name` fails (no call returns NOOP, the first
loop is free of errors): the failure increments `dset_name.err` and
`obj_name.err`, the error total is 2 and `obj_create.suc` is 0, which is not
`D * P - E = 1 - 2`. -/
theorem precreate_name_failure_counted_twice :
    (ignoring_options 1 1).ignore_precreate_errors ≠ 0
    ∧ sum_err ((int_range (ignoring_options 1 1).dset_count).foldl
        (precreate_dset_body (ignoring_options 1 1) (name_failing_plugin Int))
        (run_t.init (init_stats (ignoring_options 1 1) 1) 0)).s = 0
    ∧ (run_precreate (ignoring_options 1 1) (name_failing_plugin Int) (clock_env 1 0)
        (init_stats (ignoring_options 1 1) 1) 0).s.dset_name = ⟨1, 1⟩
    ∧ (run_precreate (ignoring_options 1 1) (name_failing_plugin Int) (clock_env 1 0)
        (init_stats (ignoring_options 1 1) 1) 0).s.obj_name = ⟨0, 1⟩
    ∧ (run_precreate (ignoring_options 1 1) (name_failing_plugin Int) (clock_env 1 0)
        (init_stats (ignoring_options 1 1) 1) 0).s.obj_create = ⟨0, 0⟩
    ∧ sum_err (run_precreate (ignoring_options 1 1) (name_failing_plugin Int) (clock_env 1 0)
        (init_stats (ignoring_options 1 1) 1) 0).s = 2
    ∧ (run_precreate (ignoring_options 1 1) (name_failing_plugin Int) (clock_env 1 0)
        (init_stats (ignoring_options 1 1) 1) 0).s.obj_create.suc
      ≠ (ignoring_options 1 1).dset_count * (ignoring_options 1 1).precreate
        - sum_err (run_precreate (ignoring_options 1 1) (name_failing_plugin Int) (clock_env 1 0)
          (init_stats (ignoring_options 1 1) 1) 0).s := by
  decide

/-- Claim C13, the code at the failing input. Two workers with phase times 1
and 2: `statistics_minmax` returns the minimum 0, not the smallest entry 1 (the
maximum 2 is the largest entry), and the load balance printed is 0 instead of
`1 / 2 * 100`. -/
theorem statistics_minmax_min_is_zero :
    statistics_minmax (small_options 0 2 1 1 1) 2 [1, 2] = (0, 2)
    ∧ (∀ x ∈ [(1 : Int), 2], 1 ≤ x)
    ∧ reported_balance (small_options 0 2 1 1 1) [1, 2] = 0 := by
  have h : statistics_minmax (small_options 0 2 1 1 1) (small_options 0 2 1 1 1).size [1, 2]
      = (0, 2) := by decide
  refine ⟨by decide, by decide, ?_⟩
  simp [reported_balance, h]

/-- Claim C14, the code at the failing input. Latency capture on, `N = 65536`,
`D = 32768`, no stonewall (so no all-reduce), every call successful. The `int`
product `o.num * o.dset_count` of `main` is `2 ^ 31` and overflows (wrapping to
`-2 ^ 31`), so the test `repeats > 0` of `init_stats` fails and no latency array
is allocated; yet `run_benchmark` hands slot 0 to `add_timed_result`, which
writes `time_stat[0]`: a write outside the array. -/
theorem latency_slot_out_of_bounds :
    benchmark_options.latency_file_prefix overflow_options = true
    ∧ overflow_options.num * overflow_options.dset_count = 2 ^ 31
    ∧ int_mul overflow_options.num overflow_options.dset_count = -2 ^ 31
    ∧ (init_stats overflow_options
        (int_mul overflow_options.num overflow_options.dset_count)).g_time_len = 0
    ∧ (run_benchmark overflow_options
        (fixed_plugin Int MD_SUCCESS MD_SUCCESS MD_SUCCESS MD_SUCCESS) (clock_env 1 0)
        (init_stats overflow_options
          (int_mul overflow_options.num overflow_options.dset_count)) 0 0).st.s.g_time_len = 0
    ∧ 0 ∈ (run_benchmark overflow_options
        (fixed_plugin Int MD_SUCCESS MD_SUCCESS MD_SUCCESS MD_SUCCESS) (clock_env 1 0)
        (init_stats overflow_options
          (int_mul overflow_options.num overflow_options.dset_count)) 0 0).st.g_slots
    ∧ ∃ v, (0, v) ∈ (run_benchmark overflow_options
        (fixed_plugin Int MD_SUCCESS MD_SUCCESS MD_SUCCESS MD_SUCCESS) (clock_env 1 0)
        (init_stats overflow_options
          (int_mul overflow_options.num overflow_options.dset_count)) 0 0).st.s.time_stat := by
  have hpos : ((run_benchmark overflow_options
      (fixed_plugin Int MD_SUCCESS MD_SUCCESS MD_SUCCESS MD_SUCCESS) (clock_env 1 0)
      (init_stats overflow_options
        (int_mul overflow_options.num overflow_options.dset_count)) 0 0).st.pos + 1)
        % size_t_mod = 2147483648 := by
    rw [run_benchmark_slots_no_stonewall _ _ _ _ _ _ rfl]
    decide
  have hfw := run_benchmark_first_write overflow_options
    (fixed_plugin Int MD_SUCCESS MD_SUCCESS MD_SUCCESS MD_SUCCESS) (clock_env 1 0)
    (init_stats overflow_options
      (int_mul overflow_options.num overflow_options.dset_count)) 0 0 rfl
    (fun _ _ _ _ => rfl)
  have hw : 0 ∈ (run_benchmark overflow_options
        (fixed_plugin Int MD_SUCCESS MD_SUCCESS MD_SUCCESS MD_SUCCESS) (clock_env 1 0)
        (init_stats overflow_options
          (int_mul overflow_options.num overflow_options.dset_count)) 0 0).st.g_slots
      ∧ ∃ v, (0, v) ∈ (run_benchmark overflow_options
        (fixed_plugin Int MD_SUCCESS MD_SUCCESS MD_SUCCESS MD_SUCCESS) (clock_env 1 0)
        (init_stats overflow_options
          (int_mul overflow_options.num overflow_options.dset_count)) 0 0).st.s.time_stat := by
    rcases hfw with h | h
    · rw [h, Nat.sub_add_cancel size_t_mod_pos, Nat.mod_self] at hpos
      exact absurd hpos (by decide)
    · exact h
  refine ⟨rfl, by decide, by decide, by decide, ?_, hw.1, hw.2⟩
  rw [run_benchmark_time_len]
  decide

/-- Claim C15 (exactly one stonewall collective per benchmark phase). Whatever
the plug-in returns and whatever the clock shows, `run_benchmark` issues exactly
one all-reduce when `T_sw > 0` and none when `T_sw = 0`. With wear-out the one
collective is either issued inside the loop, by the iteration that crosses the
deadline (the loop is then disarmed, and the call carries the index `fw` of that
iteration), or, when the loop ends still armed, by the statement after the
loop. Without wear-out neither the loop nor the wear-out statement issues a
collective and the one call is the all-reduce of `stonewall_hit` after the
loop. -/
theorem one_stonewall_collective {σ : Type} (o : benchmark_options) (P : md_plugin σ)
    (E : md_env σ) (s : phase_stat_t) (ci : Int) (w : σ) :
    (0 < o.stonewall_timer → collectives (run_benchmark o P E s ci w).st.g_calls = 1)
    ∧ (o.stonewall_timer = 0 → collectives (run_benchmark o P E s ci w).st.g_calls = 0)
    ∧ (0 < o.stonewall_timer → o.stonewall_timer_wear_out ≠ 0 →
        ((benchmark_loop o P E s ci w).armed_stone_wall = false
          ∧ collectives (benchmark_loop o P E s ci w).st.g_calls = 1
          ∧ ∃ fw w', 0 ≤ fw ∧ fw < (o.num.toNat : Int)
            ∧ md_call.allreduce fw (E.allreduce_max fw w').1
                ∈ (benchmark_loop o P E s ci w).st.g_calls)
        ∨ ((benchmark_loop o P E s ci w).armed_stone_wall = true
          ∧ collectives (benchmark_loop o P E s ci w).st.g_calls = 0
          ∧ collectives
              (benchmark_wear_out_sync o E (benchmark_loop o P E s ci w)).st.g_calls = 1))
    ∧ (0 < o.stonewall_timer → o.stonewall_timer_wear_out = 0 →
        collectives (benchmark_loop o P E s ci w).st.g_calls = 0
        ∧ collectives
            (benchmark_wear_out_sync o E (benchmark_loop o P E s ci w)).st.g_calls = 0
        ∧ collectives
            (benchmark_hit_sync o E
              (benchmark_wear_out_sync o E (benchmark_loop o P E s ci w))).st.g_calls = 1) := by
  obtain ⟨r1, _, r3, r4⟩ := run_benchmark_stonewall o P E s ci w
  obtain ⟨_, l2, l3⟩ := benchmark_loop_stonewall o P E s ci w
  refine ⟨fun hT => ?_, fun hT => (r1 hT).1, fun hT hwo => ?_, fun hT hwo => ?_⟩
  · by_cases hwo : o.stonewall_timer_wear_out = 0
    · exact (r4 (by omega) hwo).1
    · exact (r3 hT hwo).1
  · rcases l3 hT hwo with ⟨a1, a2, _⟩ | ⟨a1, a2, _, a4⟩
    · refine Or.inr ⟨a1, a2, ?_⟩
      simp [benchmark_wear_out_sync, hwo, a1, collectives, md_call.is_allreduce]
      simpa [collectives] using a2
    · exact Or.inl ⟨a1, a2, a4⟩
  · obtain ⟨a1, a2, _⟩ := l2 hT hwo
    have hT0 : o.stonewall_timer ≠ 0 := by omega
    refine ⟨a2, ?_, ?_⟩
    · simpa [benchmark_wear_out_sync, hwo] using a2
    · simp [benchmark_hit_sync, benchmark_wear_out_sync, hwo, hT0, collectives,
        md_call.is_allreduce]
      simpa [collectives] using a2

/-- Claim C16 (`stonewall_hit` is cohort-uniform on exit). Two runs of
`run_benchmark` with the same options, from statistics with `stonewall_hit = 0`
(as `init_stats` leaves them), with arbitrary plug-ins, clocks and worlds, in
which the all-reduce calls return the same results, end with the same
`stonewall_hit`, and so take the same branch of the conditional reduce of
`repeats` in `end_phase`. The flag is 0 when `T_sw = 0`; it is 1 when `T_sw > 0`
with wear-out; and for `T_sw > 0` without wear-out it is what the all-reduce
returned for the local flag, which is 1 exactly when this worker left the loop
by `break`. -/
theorem stonewall_hit_uniform {σ : Type} (o : benchmark_options) (P P' : md_plugin σ)
    (E E' : md_env σ) (s s' : phase_stat_t) (ci ci' : Int) (w w' : σ)
    (hs : s.stonewall_hit = 0) (hs' : s'.stonewall_hit = 0)
    (hres : ∀ v r v' r',
      md_call.allreduce v r ∈ (run_benchmark o P E s ci w).st.g_calls →
      md_call.allreduce v' r' ∈ (run_benchmark o P' E' s' ci' w').st.g_calls → r = r') :
    (run_benchmark o P E s ci w).st.s.stonewall_hit
        = (run_benchmark o P' E' s' ci' w').st.s.stonewall_hit
    ∧ end_phase_reduces_repeats (run_benchmark o P E s ci w).st.s
        = end_phase_reduces_repeats (run_benchmark o P' E' s' ci' w').st.s
    ∧ (o.stonewall_timer = 0 → (run_benchmark o P E s ci w).st.s.stonewall_hit = 0)
    ∧ (0 < o.stonewall_timer → o.stonewall_timer_wear_out ≠ 0 →
        (run_benchmark o P E s ci w).st.s.stonewall_hit = 1)
    ∧ (0 < o.stonewall_timer → o.stonewall_timer_wear_out = 0 →
        ∃ v w0, ((run_benchmark o P E s ci w).g_broke = true → v = 1)
          ∧ ((run_benchmark o P E s ci w).g_broke = false → v = 0)
          ∧ (run_benchmark o P E s ci w).st.s.stonewall_hit = (E.allreduce_max v w0).1
          ∧ md_call.allreduce v (run_benchmark o P E s ci w).st.s.stonewall_hit
              ∈ (run_benchmark o P E s ci w).st.g_calls) := by
  obtain ⟨r1, r2, r3, r4⟩ := run_benchmark_stonewall o P E s ci w
  obtain ⟨q1, q2, q3, q4⟩ := run_benchmark_stonewall o P' E' s' ci' w'
  rw [hs] at r1 r2 r4
  rw [hs'] at q1 q2
  have heq : (run_benchmark o P E s ci w).st.s.stonewall_hit
      = (run_benchmark o P' E' s' ci' w').st.s.stonewall_hit := by
    by_cases hwo : o.stonewall_timer_wear_out = 0
    · by_cases hT : o.stonewall_timer = 0
      · rw [(r1 hT).2, (q1 hT).2]
      · obtain ⟨_, v, w0, _, _, _, m⟩ := r4 hT hwo
        obtain ⟨_, v', w0', _, _, _, m'⟩ := q4 hT hwo
        exact hres _ _ _ _ m m'
    · rcases lt_trichotomy o.stonewall_timer 0 with hT | hT | hT
      · rw [(r2 hT hwo).2, (q2 hT hwo).2]
      · rw [(r1 hT).2, (q1 hT).2]
      · rw [(r3 hT hwo).2, (q3 hT hwo).2]
  refine ⟨heq, ?_, fun hT => (r1 hT).2, fun hT hwo => (r3 hT hwo).2,
    fun hT hwo => (r4 (by omega) hwo).2⟩
  unfold end_phase_reduces_repeats
  rw [heq]

/-- Witness of C16: a stonewall of one second without wear-out, the all-reduce
being the maximum with the flag 1 of another worker. The first run crosses the
deadline in its first iteration and leaves the loop by `break`, the second runs
on a clock that stands still and never crosses; both end with
`stonewall_hit = 1`. -/
theorem stonewall_hit_uniform_witness :
    (run_benchmark { small_options 0 2 1 4 2 with stonewall_timer := 1 }
        (fixed_plugin Int MD_SUCCESS MD_SUCCESS MD_SUCCESS MD_SUCCESS)
        (clock_env ticks_per_second 1)
        (init_stats { small_options 0 2 1 4 2 with stonewall_timer := 1 } 2) 0 0).g_broke = true
    ∧ (run_benchmark { small_options 0 2 1 4 2 with stonewall_timer := 1 }
        (fixed_plugin Int MD_ERROR MD_SUCCESS MD_SUCCESS MD_SUCCESS)
        (clock_env 0 1)
        (init_stats { small_options 0 2 1 4 2 with stonewall_timer := 1 } 2) 0 0).g_broke = false
    ∧ (run_benchmark { small_options 0 2 1 4 2 with stonewall_timer := 1 }
        (fixed_plugin Int MD_SUCCESS MD_SUCCESS MD_SUCCESS MD_SUCCESS)
        (clock_env ticks_per_second 1)
        (init_stats { small_options 0 2 1 4 2 with stonewall_timer := 1 } 2)
        0 0).st.s.stonewall_hit = 1
    ∧ (run_benchmark { small_options 0 2 1 4 2 with stonewall_timer := 1 }
        (fixed_plugin Int MD_SUCCESS MD_SUCCESS MD_SUCCESS MD_SUCCESS)
        (clock_env ticks_per_second 1)
        (init_stats { small_options 0 2 1 4 2 with stonewall_timer := 1 } 2) 0 0).st.s.stonewall_hit
      = (run_benchmark { small_options 0 2 1 4 2 with stonewall_timer := 1 }
        (fixed_plugin Int MD_ERROR MD_SUCCESS MD_SUCCESS MD_SUCCESS)
        (clock_env 0 1)
        (init_stats { small_options 0 2 1 4 2 with stonewall_timer := 1 } 2)
        0 0).st.s.stonewall_hit := by
  have e1 : (run_benchmark { small_options 0 2 1 4 2 with stonewall_timer := 1 }
      (fixed_plugin Int MD_SUCCESS MD_SUCCESS MD_SUCCESS MD_SUCCESS)
      (clock_env ticks_per_second 1)
      (init_stats { small_options 0 2 1 4 2 with stonewall_timer := 1 } 2) 0 0).st.g_calls.filter
        md_call.is_allreduce = [md_call.allreduce 1 1] := by decide
  have e2 : (run_benchmark { small_options 0 2 1 4 2 with stonewall_timer := 1 }
      (fixed_plugin Int MD_ERROR MD_SUCCESS MD_SUCCESS MD_SUCCESS)
      (clock_env 0 1)
      (init_stats { small_options 0 2 1 4 2 with stonewall_timer := 1 } 2) 0 0).st.g_calls.filter
        md_call.is_allreduce = [md_call.allreduce 0 1] := by decide
  refine ⟨by decide, by decide, by decide,
    (stonewall_hit_uniform { small_options 0 2 1 4 2 with stonewall_timer := 1 }
      (fixed_plugin Int MD_SUCCESS MD_SUCCESS MD_SUCCESS MD_SUCCESS)
      (fixed_plugin Int MD_ERROR MD_SUCCESS MD_SUCCESS MD_SUCCESS)
      (clock_env ticks_per_second 1) (clock_env 0 1)
      (init_stats { small_options 0 2 1 4 2 with stonewall_timer := 1 } 2)
      (init_stats { small_options 0 2 1 4 2 with stonewall_timer := 1 } 2) 0 0 0 0
      rfl rfl ?_).1⟩
  intro v r v' r' h h'
  have m1 := (List.mem_filter (p := md_call.is_allreduce)).2 ⟨h, rfl⟩
  have m2 := (List.mem_filter (p := md_call.is_allreduce)).2 ⟨h', rfl⟩
  rw [e1] at m1
  rw [e2] at m2
  simp only [List.mem_singleton, md_call.allreduce.injEq] at m1 m2
  rw [m1.2, m2.2]

end MdRealIo
